import Mathlib

/-!
Verification development for the ADM XML ingestion core (`src/private/xml_parser.cpp`).

The development shallowly embeds the parser: the XML tree handed over by the
tokenizer is a tree of named nodes with attributes, text content and children;
the per-kind parse routines, the single ingestion pass over the top-level
children, the pending-reference queues and the post-pass reference resolution
are translated function by function.  Helper routines that live in headers
outside this repository (field binders, value validators, identifier parsing,
the reference-resolution template) are modelled from the specification and
are marked as such in their doc comments.
-/

set_option maxHeartbeats 1000000

deriving instance DecidableEq for Except

/- Let concrete rational arithmetic evaluate inside `decide`. -/
attribute [local semireducible] Rat.add Rat.mul Rat.inv Rat.sub

/-! ## XML node tree (the external node-tree collaborator) -/

/-- A node of the XML tree, as exposed by the external tokenizer/DOM
collaborator: a name, the ordered attributes, the text content and the
ordered children. -/
inductive Node where
  | mk (name : String) (attrs : List (String × String)) (value : String)
       (children : List Node)

def Node.name : Node → String
  | .mk n _ _ _ => n

def Node.attrs : Node → List (String × String)
  | .mk _ a _ _ => a

def Node.value : Node → String
  | .mk _ _ v _ => v

def Node.children : Node → List Node
  | .mk _ _ _ c => c

/-- `node->first_attribute(name)`: the first attribute with the given name,
if any (its value). -/
def Node.firstAttr (n : Node) (a : String) : Option String :=
  (n.attrs.find? (fun p => p.1 = a)).map (fun p => p.2)

/-- `detail::findElements(node, name)`: all direct children with the given
name, in document order. -/
def Node.findElements (n : Node) (name : String) : List Node :=
  n.children.filter (fun c => c.name = name)

/-- `detail::findElement(node, name)`: the first direct child with the given
name, if any. -/
def Node.findElement (n : Node) (name : String) : Option Node :=
  n.children.find? (fun c => c.name = name)

/-! ## Errors

The error taxonomy of `adm/errors.hpp` as used by the parser.  `XmlParsingError`
carries a message; the source also attaches a best-effort line number obtained
from the external location collaborator, which the embedding omits. -/

inductive ParseError where
  /-- `error::XmlParsingError` with its message. -/
  | xmlParsingError (msg : String)
  /-- `error::XmlParsingDuplicateId` (the spec's `DuplicateIdentifierError`). -/
  | xmlParsingDuplicateId (idText : String)
  /-- `error::XmlParsingUnexpectedAttrError` (the spec's `UnexpectedUnitError`). -/
  | xmlParsingUnexpectedAttrError (attr : String) (val : String)
  /-- `error::XmlParsingUnresolvedReference` (the spec's `DanglingReferenceError`). -/
  | xmlParsingUnresolvedReference (idText : String)
  /-- `InvalidStringError` raised by a validated value type whose text does not
  match its enumeration (the spec's `ValueFormatError`/`InvalidCoordinateError`). -/
  | invalidStringError (s : String)
  /-- A required attribute is absent (the spec's `MissingAttributeError`). -/
  | missingAttributeError (attr : String)
  /-- A numeric text failed to parse (the spec's `ValueFormatError`). -/
  | numberFormatError (s : String)
  /-- The spec's `TypeMismatchError`: identifier-embedded type versus explicit
  type attributes disagree. -/
  | typeMismatchError
deriving DecidableEq

/-! ## Validated primitive parsing

Modelled from the spec: the validated value types (§4.1) parse raw text via
library routines declared in headers that are not part of this repository
(`std::stod`, `std::stoi`, the named-type validators).  The embedding models
the numeric grammar actually exercised by the parser: an optional sign, a
digit string and an optional decimal fraction. -/

def decDigit? (c : Char) : Option Nat :=
  if '0' ≤ c ∧ c ≤ '9' then some (c.toNat - '0'.toNat) else none

def decNat? (cs : List Char) : Option Nat :=
  cs.foldl (fun acc c => acc.bind (fun n => (decDigit? c).map (fun d => n * 10 + d)))
    (some 0)

/-- Modelled from the spec: `std::stod` as used on the numeric texts of this
document model — optional sign, integer digits, optional fraction digits. -/
def parseDecimal (s : String) : Except ParseError ℚ :=
  let worker : List Char → Option ℚ := fun cs =>
    let core : List Char → Option ℚ := fun cs =>
      match cs.splitOn '.' with
      | [ip] =>
          if ip.isEmpty then none else (decNat? ip).map (fun n => (n : ℚ))
      | [ip, fp] =>
          if ip.isEmpty ∧ fp.isEmpty then none
          else do
            let n ← decNat? ip
            let f ← decNat? fp
            pure ((n : ℚ) + (f : ℚ) / (((10 : ℕ) ^ fp.length : ℕ) : ℚ))
      | _ => none
    match cs with
    | '-' :: rest => (core rest).map (fun q => -q)
    | '+' :: rest => core rest
    | _ => core cs
  match worker s.data with
  | some q => .ok q
  | none => .error (.numberFormatError s)

/-- Modelled from the spec: `std::stoi` as used on the dialogue discriminator —
an optional sign and a digit string. -/
def parseIntText (s : String) : Except ParseError Int :=
  let core : List Char → Option Int := fun cs =>
    if cs.isEmpty then none else (decNat? cs).map (fun n => (n : Int))
  match
    (match s.data with
     | '-' :: rest => (core rest).map (fun i => -i)
     | '+' :: rest => core rest
     | cs => core cs) with
  | some i => .ok i
  | none => .error (.numberFormatError s)

/-- Modelled from the spec: the boolean value type, parsed from its markup
spellings. -/
def parseBoolText (s : String) : Except ParseError Bool :=
  if s = "1" ∨ s = "true" then .ok true
  else if s = "0" ∨ s = "false" then .ok false
  else .error (.invalidStringError s)

/-! ## Identifier model

Modelled from the spec (§4.2): structured identifiers, one text format per
element kind, with a type-descriptor nibble embedded in the numeric value of
pack- and channel-format identifiers.  The identifier parsers live in headers
outside this repository; the embedding keeps the canonical text and tags it
with the element kind, validating the kind-specific shape. -/

inductive ElemKind where
  | programme | content | object | trackUid
  | packFormat | channelFormat | streamFormat | trackFormat
deriving DecidableEq

structure Ident where
  kind : ElemKind
  text : String
deriving DecidableEq

def hexDigit? (c : Char) : Option Nat :=
  if '0' ≤ c ∧ c ≤ '9' then some (c.toNat - '0'.toNat)
  else if 'a' ≤ c ∧ c ≤ 'f' then some (c.toNat - 'a'.toNat + 10)
  else if 'A' ≤ c ∧ c ≤ 'F' then some (c.toNat - 'A'.toNat + 10)
  else none

def isHexDigits (cs : List Char) : Bool :=
  cs.all (fun c => (hexDigit? c).isSome)

def hexNat (cs : List Char) : Nat :=
  cs.foldl (fun acc c => acc * 16 + ((hexDigit? c).getD 0)) 0

/-- Modelled from the spec: the text prefix of each kind's identifier format
(`"APR_"`, `"ACO_"`, `"AO_"`, `"ATU_"`, `"AP_"`, `"AC_"`, `"AS_"`, `"AT_"`). -/
def ElemKind.idPrefix : ElemKind → List Char
  | .programme => ['A', 'P', 'R', '_']
  | .content => ['A', 'C', 'O', '_']
  | .object => ['A', 'O', '_']
  | .trackUid => ['A', 'T', 'U', '_']
  | .packFormat => ['A', 'P', '_']
  | .channelFormat => ['A', 'C', '_']
  | .streamFormat => ['A', 'S', '_']
  | .trackFormat => ['A', 'T', '_']

/-- Modelled from the spec: the hexadecimal digit count of the numeric body
of each kind's identifier (`AT_yyyyxxxx_uu` is handled separately). -/
def ElemKind.idBodyLen : ElemKind → Nat
  | .programme => 4
  | .content => 4
  | .object => 4
  | .trackUid => 8
  | .packFormat => 8
  | .channelFormat => 8
  | .streamFormat => 8
  | .trackFormat => 8

/-- Modelled from the spec (§4.2): `parseIdentifier(kind, text)` — checks the
kind-specific prefix and hexadecimal body and keeps the canonical text,
tagged with the kind. -/
def parseIdOfKind (k : ElemKind) (s : String) : Except ParseError Ident :=
  let cs := s.data
  let p := k.idPrefix
  if cs.take p.length = p then
    let body := cs.drop p.length
    let ok :=
      match k with
      | .trackFormat =>
          isHexDigits (body.take 8)
            && body.length == 11
            && (body.drop 8).take 1 == ['_']
            && isHexDigits (body.drop 9)
      | _ => isHexDigits body && body.length == k.idBodyLen
    if ok then .ok ⟨k, s⟩ else .error (.invalidStringError s)
  else .error (.invalidStringError s)

def parseAudioProgrammeId (s : String) : Except ParseError Ident :=
  parseIdOfKind .programme s

def parseAudioContentId (s : String) : Except ParseError Ident :=
  parseIdOfKind .content s

def parseAudioObjectId (s : String) : Except ParseError Ident :=
  parseIdOfKind .object s

def parseAudioTrackUidId (s : String) : Except ParseError Ident :=
  parseIdOfKind .trackUid s

def parseAudioPackFormatId (s : String) : Except ParseError Ident :=
  parseIdOfKind .packFormat s

def parseAudioChannelFormatId (s : String) : Except ParseError Ident :=
  parseIdOfKind .channelFormat s

def parseAudioStreamFormatId (s : String) : Except ParseError Ident :=
  parseIdOfKind .streamFormat s

def parseAudioTrackFormatId (s : String) : Except ParseError Ident :=
  parseIdOfKind .trackFormat s

/-- `formatId`: the canonical text of an identifier (the exact inverse of
parsing, per §4.2). -/
def formatId (i : Ident) : String := i.text

/-- The type-descriptor nibble embedded in a pack- or channel-format
identifier: the value of the four hexadecimal digits following the prefix. -/
def Ident.typeDescriptor (i : Ident) : Nat :=
  hexNat ((i.text.data.drop i.kind.idPrefix.length).take 4)

/-- `adm::TypeDefinition` constants. -/
def TypeDefinition.DIRECT_SPEAKERS : Nat := 1
def TypeDefinition.MATRIX : Nat := 2
def TypeDefinition.OBJECTS : Nat := 3
def TypeDefinition.HOA : Nat := 4
def TypeDefinition.BINAURAL : Nat := 5

/-! ## Generic field binders

Modelled from the spec (§4.4): the field-binding framework lives in
`xml_parser_helper.hpp`, outside this repository.  A required attribute that
is absent raises the spec's `MissingAttributeError`; values whose validated
value types are likewise declared outside this repository are carried as raw
text. -/

/-- Modelled from the spec: `parseAttribute<T>(node, name)` without an explicit
value parser — the raw attribute text (fails when the attribute is absent). -/
def parseAttribute (n : Node) (a : String) : Except ParseError String :=
  match n.firstAttr a with
  | some v => .ok v
  | none => .error (.missingAttributeError a)

/-- Modelled from the spec: `parseAttribute<T>(node, name, parser)` — the
attribute text fed through the given value parser. -/
def parseAttributeWith (n : Node) (a : String)
    (p : String → Except ParseError α) : Except ParseError α :=
  (parseAttribute n a).bind p

/-- Modelled from the spec: `parseOptionalAttribute<T>(node, name, parser)` —
`none` when the attribute is absent, otherwise the parsed value. -/
def parseOptionalAttributeWith (n : Node) (a : String)
    (p : String → Except ParseError α) : Except ParseError (Option α) :=
  match n.firstAttr a with
  | some v => (p v).map some
  | none => .ok none

/-- Modelled from the spec: `setOptionalElement<T>(node, name, target, parser)`
as a value — `none` when no such child exists, otherwise the first child fed
through the element parser. -/
def parseOptionalElementWith (n : Node) (name : String)
    (p : Node → Except ParseError α) : Except ParseError (Option α) :=
  match n.findElement name with
  | some c => (p c).map some
  | none => .ok none

/-- Modelled from the spec: `setOptionalMultiElement<T>(node, name, target,
parser)` as a value — `none` when no matching children exist, otherwise all
matching children fed through the aggregate parser. -/
def parseOptionalMultiElementWith (n : Node) (name : String)
    (p : List Node → Except ParseError α) : Except ParseError (Option α) :=
  match n.findElements name with
  | [] => .ok none
  | l => (p l).map some

/-- Modelled from the spec: `setValue<T>` on a numeric value type — the node's
text content parsed as a number. -/
def parseValueQ (n : Node) : Except ParseError ℚ :=
  parseDecimal n.value

/-! ## Enumerated value validators

Modelled from the spec (§4.1): the named-type validators are declared in
`named_type_validators.hpp`, outside this repository.  Each accepts exactly
its enumeration and fails with `InvalidStringError` otherwise. -/

/-- Modelled from the spec: the `SphericalCoordinateValue` validator
(`azimuth`/`elevation`/`distance`). -/
def parseSphericalCoordinateValue (s : String) : Except ParseError String :=
  if s = "azimuth" ∨ s = "elevation" ∨ s = "distance" then .ok s
  else .error (.invalidStringError s)

/-- Modelled from the spec: the `CartesianCoordinateValue` validator
(`X`/`Y`/`Z`). -/
def parseCartesianCoordinateValue (s : String) : Except ParseError String :=
  if s = "X" ∨ s = "Y" ∨ s = "Z" then .ok s
  else .error (.invalidStringError s)

/-- Modelled from the spec: the bound-kind validators (`min`/`max`). -/
def parseBoundValue (s : String) : Except ParseError String :=
  if s = "min" ∨ s = "max" then .ok s
  else .error (.invalidStringError s)

/-- Modelled from the spec: the `CoordinateInteractionValue` validator
(all six axis markers). -/
def parseCoordinateInteractionValue (s : String) : Except ParseError String :=
  if s = "azimuth" ∨ s = "elevation" ∨ s = "distance"
      ∨ s = "X" ∨ s = "Y" ∨ s = "Z" then .ok s
  else .error (.invalidStringError s)

/-! ## Gain (`parseGain`, lines 651–665) -/

/-- `adm::Gain`: a tagged linear-or-decibel value (`Gain::fromLinear`,
`Gain::fromDb`). -/
inductive Gain where
  | fromLinear (v : ℚ)
  | fromDb (v : ℚ)
deriving DecidableEq

/-- `Gain::asLinear`: the computed linear-equivalent value (decibels convert
through `10^(v/20)`). -/
noncomputable def Gain.asLinear : Gain → ℝ
  | .fromLinear v => (v : ℝ)
  | .fromDb v => (10 : ℝ) ^ ((v : ℝ) / 20)

/-- `parseGain` (xml_parser.cpp, lines 651–665): the text parses as a number
first; a `gainUnit` marker of `linear` or `dB` selects the representation,
its absence defaults to linear, anything else raises
`XmlParsingUnexpectedAttrError`. -/
def parseGain (node : Node) : Except ParseError Gain := do
  let value ← parseDecimal node.value
  match node.firstAttr "gainUnit" with
  | some unitAttrStr =>
      if unitAttrStr = "linear" then .ok (Gain.fromLinear value)
      else if unitAttrStr = "dB" then .ok (Gain.fromDb value)
      else .error (.xmlParsingUnexpectedAttrError "gainUnit" unitAttrStr)
  | none => .ok (Gain.fromLinear value)

/-! ## Small parameter blocks (labels, locks, divergence, frequency, …) -/

structure Label where
  value : String
  language : Option String := none
deriving DecidableEq

/-- `parseLabel` (lines 667–672). -/
def parseLabel (node : Node) : Except ParseError Label :=
  .ok { value := node.value, language := node.firstAttr "language" }

structure ChannelLock where
  flag : Bool
  maxDistance : Option ℚ := none
deriving DecidableEq

/-- `parseChannelLock` (lines 674–679). -/
def parseChannelLock (node : Node) : Except ParseError ChannelLock := do
  let flag ← parseBoolText node.value
  let md ← parseOptionalAttributeWith node "maxDistance" parseDecimal
  .ok { flag := flag, maxDistance := md }

structure ObjectDivergence where
  value : ℚ
  azimuthRange : Option ℚ := none
  positionRange : Option ℚ := none
deriving DecidableEq

/-- `parseObjectDivergence` (lines 681–689). -/
def parseObjectDivergence (node : Node) : Except ParseError ObjectDivergence := do
  let v ← parseValueQ node
  let ar ← parseOptionalAttributeWith node "azimuthRange" parseDecimal
  let pr ← parseOptionalAttributeWith node "positionRange" parseDecimal
  .ok { value := v, azimuthRange := ar, positionRange := pr }

structure JumpPosition where
  flag : Bool
  interpolationLength : Option String := none
deriving DecidableEq

/-- `parseJumpPosition` (lines 790–796); the interpolation length is a
duration value parsed in a header outside this repository and is carried as
raw text. -/
def parseJumpPosition (node : Node) : Except ParseError JumpPosition := do
  let flag ← parseBoolText node.value
  .ok { flag := flag, interpolationLength := node.firstAttr "interpolationLength" }

structure Frequency where
  lowPass : Option ℚ := none
  highPass : Option ℚ := none
deriving DecidableEq

/-- `parseFrequency` (lines 691–702): each child's required `typeDefinition`
marker selects the low-pass or high-pass field; unrecognized markers
(including the case-variant `highPass`) are silently ignored. -/
def parseFrequency (nodes : List Node) : Except ParseError Frequency :=
  nodes.foldlM
    (fun (frequency : Frequency) element => do
      let t ← parseAttribute element "typeDefinition"
      if t = "lowPass" then do
        let v ← parseValueQ element
        pure { frequency with lowPass := some v }
      else if t = "highpass" then do
        let v ← parseValueQ element
        pure { frequency with highPass := some v }
      else pure frequency)
    {}

structure HeadphoneVirtualise where
  bypass : Option String := none
  drr : Option String := none
deriving DecidableEq

/-- `parseHeadphoneVirtualise` (lines 610–616); the `bypass` and `DRR`
attribute value types are validated in headers outside this repository and
are carried as raw text. -/
def parseHeadphoneVirtualise (node : Node) : Except ParseError HeadphoneVirtualise :=
  .ok { bypass := node.firstAttr "bypass", drr := node.firstAttr "DRR" }

structure LoudnessMetadata where
  loudnessMethod : Option String := none
  loudnessRecType : Option String := none
  loudnessCorrectionType : Option String := none
  integratedLoudness : Option ℚ := none
  loudnessRange : Option ℚ := none
  maxTruePeak : Option ℚ := none
  maxMomentary : Option ℚ := none
  maxShortTerm : Option ℚ := none
  dialogueLoudness : Option ℚ := none
deriving DecidableEq

/-- `parseLoudnessMetadata` (lines 798–816). -/
def parseLoudnessMetadata (node : Node) : Except ParseError LoudnessMetadata := do
  let il ← parseOptionalElementWith node "integratedLoudness" parseValueQ
  let lr ← parseOptionalElementWith node "loudnessRange" parseValueQ
  let mtp ← parseOptionalElementWith node "maxTruePeak" parseValueQ
  let mm ← parseOptionalElementWith node "maxMomentary" parseValueQ
  let mst ← parseOptionalElementWith node "maxShortTerm" parseValueQ
  let dl ← parseOptionalElementWith node "dialogueLoudness" parseValueQ
  .ok { loudnessMethod := node.firstAttr "loudnessMethod"
        loudnessRecType := node.firstAttr "loudnessRecType"
        loudnessCorrectionType := node.firstAttr "loudnessCorrectionType"
        integratedLoudness := il, loudnessRange := lr, maxTruePeak := mtp
        maxMomentary := mm, maxShortTerm := mst, dialogueLoudness := dl }

/-- `parseLoudnessMetadatas` (lines 818–826). -/
def parseLoudnessMetadatas (nodes : List Node) :
    Except ParseError (List LoudnessMetadata) :=
  nodes.mapM parseLoudnessMetadata

/-- `adm::ContentKind`: the dialogue discriminator selects which of three
disjoint kind enumerations applies; the companion attribute's value type is
validated in a header outside this repository and is carried as raw text. -/
inductive ContentKind where
  | nonDialogue (v : String)
  | dialogue (v : String)
  | mixed (v : String)
deriving DecidableEq

/-- `parseDialogueId` (lines 828–830). -/
def parseDialogueId (node : Node) : Except ParseError Int :=
  parseIntText node.value

/-- `parseContentKind` (lines 832–847): 0 = non-dialogue, 1 = dialogue,
2 = mixed, anything else is the unknown-dialogue-id error. -/
def parseContentKind (node : Node) : Except ParseError ContentKind := do
  let dialogueId ← parseDialogueId node
  if dialogueId = 0 then
    (parseAttribute node "nonDialogueContentKind").map ContentKind.nonDialogue
  else if dialogueId = 1 then
    (parseAttribute node "dialogueContentKind").map ContentKind.dialogue
  else if dialogueId = 2 then
    (parseAttribute node "mixedContentKind").map ContentKind.mixed
  else .error (.xmlParsingError "unknown dialogue id")

/-! ## Positions and offsets -/

/-- `setOptionalAttribute` on a screen-edge field: no-op when the
`screenEdgeLock` attribute is absent, overwrite when present. -/
def updEdge (cur : Option String) (n : Node) : Option String :=
  match n.firstAttr "screenEdgeLock" with
  | some v => some v
  | none => cur

/-- `adm::ScreenEdgeLock`; the edge value types are validated in headers
outside this repository and are carried as raw text. -/
structure ScreenEdgeLock where
  horizontal : Option String := none
  vertical : Option String := none
deriving DecidableEq

structure SphericalPosition where
  azimuth : Option ℚ := none
  elevation : Option ℚ := none
  distance : Option ℚ := none
  screenEdgeLock : ScreenEdgeLock := {}
deriving DecidableEq

structure CartesianPosition where
  x : Option ℚ := none
  y : Option ℚ := none
  z : Option ℚ := none
deriving DecidableEq

/-- The mutually exclusive position shape of an Objects-type block format. -/
inductive Position where
  | cartesian (p : CartesianPosition)
  | spherical (p : SphericalPosition)
deriving DecidableEq

def Position.isSpherical : Position → Bool
  | .spherical _ => true
  | .cartesian _ => false

/-- `parseSphericalPosition` (lines 718–738). -/
def parseSphericalPosition (nodes : List Node) :
    Except ParseError SphericalPosition := do
  let (position, screenEdgeLock) ←
    nodes.foldlM
      (fun (acc : SphericalPosition × ScreenEdgeLock) element => do
        let axe ← parseAttributeWith element "coordinate" parseSphericalCoordinateValue
        if axe = "azimuth" then do
          let v ← parseValueQ element
          pure ({ acc.1 with azimuth := some v },
                { acc.2 with horizontal := updEdge acc.2.horizontal element })
        else if axe = "elevation" then do
          let v ← parseValueQ element
          pure ({ acc.1 with elevation := some v },
                { acc.2 with vertical := updEdge acc.2.vertical element })
        else if axe = "distance" then do
          let v ← parseValueQ element
          pure ({ acc.1 with distance := some v }, acc.2)
        else pure acc)
      ({}, {})
  .ok { position with screenEdgeLock := screenEdgeLock }

/-- `parseCartesianPosition` (lines 740–754). -/
def parseCartesianPosition (nodes : List Node) :
    Except ParseError CartesianPosition :=
  nodes.foldlM
    (fun (position : CartesianPosition) element => do
      let axe ← parseAttributeWith element "coordinate" parseCartesianCoordinateValue
      if axe = "X" then do
        let v ← parseValueQ element
        pure { position with x := some v }
      else if axe = "Y" then do
        let v ← parseValueQ element
        pure { position with y := some v }
      else if axe = "Z" then do
        let v ← parseValueQ element
        pure { position with z := some v }
      else pure position)
    {}

structure SphericalPositionOffset where
  azimuthOffset : Option ℚ := none
  elevationOffset : Option ℚ := none
  distanceOffset : Option ℚ := none
deriving DecidableEq

structure CartesianPositionOffset where
  xOffset : Option ℚ := none
  yOffset : Option ℚ := none
  zOffset : Option ℚ := none
deriving DecidableEq

/-- The mutually exclusive shape of an Object's position offset. -/
inductive PositionOffset where
  | cartesian (p : CartesianPositionOffset)
  | spherical (p : SphericalPositionOffset)
deriving DecidableEq

def PositionOffset.isSpherical : PositionOffset → Bool
  | .spherical _ => true
  | .cartesian _ => false

/-- `parseSphericalPositionOffset` (lines 756–771). -/
def parseSphericalPositionOffset (nodes : List Node) :
    Except ParseError SphericalPositionOffset :=
  nodes.foldlM
    (fun (position : SphericalPositionOffset) element => do
      let coordinate ← parseAttributeWith element "coordinate" parseSphericalCoordinateValue
      if coordinate = "azimuth" then do
        let v ← parseValueQ element
        pure { position with azimuthOffset := some v }
      else if coordinate = "elevation" then do
        let v ← parseValueQ element
        pure { position with elevationOffset := some v }
      else if coordinate = "distance" then do
        let v ← parseValueQ element
        pure { position with distanceOffset := some v }
      else pure position)
    {}

/-- `parseCartesianPositionOffset` (lines 773–788). -/
def parseCartesianPositionOffset (nodes : List Node) :
    Except ParseError CartesianPositionOffset :=
  nodes.foldlM
    (fun (position : CartesianPositionOffset) element => do
      let coordinate ← parseAttributeWith element "coordinate" parseCartesianCoordinateValue
      if coordinate = "X" then do
        let v ← parseValueQ element
        pure { position with xOffset := some v }
      else if coordinate = "Y" then do
        let v ← parseValueQ element
        pure { position with yOffset := some v }
      else if coordinate = "Z" then do
        let v ← parseValueQ element
        pure { position with zOffset := some v }
      else pure position)
    {}

/-- `guessCartesianFlag` (lines 704–716): the whole group is cartesian exactly
when the first occurrence of the repeated child carries a `coordinate` marker
whose value is `X`, `Y` or `Z`. -/
def guessCartesianFlag (node : Node) (elementName : String) : Bool :=
  match node.findElement elementName with
  | some element =>
      match element.firstAttr "coordinate" with
      | some coordinateStr =>
          coordinateStr = "X" ∨ coordinateStr = "Y" ∨ coordinateStr = "Z"
      | none => false
  | none => false

/-- The `positionOffset` group of `parseAudioObject` (lines 227–231): the
guessed flag selects the cartesian or the spherical aggregate parser for the
whole group. -/
def parsePositionOffsetGroup (node : Node) :
    Except ParseError (Option PositionOffset) :=
  if guessCartesianFlag node "positionOffset" = true then
    (parseOptionalMultiElementWith node "positionOffset" parseCartesianPositionOffset).map
      (fun o => o.map PositionOffset.cartesian)
  else
    (parseOptionalMultiElementWith node "positionOffset" parseSphericalPositionOffset).map
      (fun o => o.map PositionOffset.spherical)

/-! ## Speaker positions (`parseSpeakerPosition`, lines 465–604) -/

structure CartesianSpeakerPosition where
  x : Option ℚ := none
  xMin : Option ℚ := none
  xMax : Option ℚ := none
  y : Option ℚ := none
  yMin : Option ℚ := none
  yMax : Option ℚ := none
  z : Option ℚ := none
  zMin : Option ℚ := none
  zMax : Option ℚ := none
  screenEdgeLock : ScreenEdgeLock := {}
deriving DecidableEq

structure SphericalSpeakerPosition where
  azimuth : Option ℚ := none
  azimuthMin : Option ℚ := none
  azimuthMax : Option ℚ := none
  elevation : Option ℚ := none
  elevationMin : Option ℚ := none
  elevationMax : Option ℚ := none
  distance : Option ℚ := none
  distanceMin : Option ℚ := none
  distanceMax : Option ℚ := none
  screenEdgeLock : ScreenEdgeLock := {}
deriving DecidableEq

/-- The mutually exclusive shape of a DirectSpeakers position. -/
inductive SpeakerPosition where
  | cartesian (p : CartesianSpeakerPosition)
  | spherical (p : SphericalSpeakerPosition)
deriving DecidableEq

def SpeakerPosition.sphere? : SpeakerPosition → Option SphericalSpeakerPosition
  | .spherical p => some p
  | .cartesian _ => none

/-- `parseCartesianSpeakerPosition` (lines 510–561): an invalid `bound`
marker is rethrown as an `XmlParsingError` with the validator's message. -/
def parseCartesianSpeakerPosition
    (cartesianCoordinates : List (Node × String)) :
    Except ParseError CartesianSpeakerPosition := do
  let (speakerPosition, screenEdgeLock) ←
    cartesianCoordinates.foldlM
      (fun (acc : CartesianSpeakerPosition × ScreenEdgeLock) coord => do
        let element := coord.1
        let axe := coord.2
        let bound ←
          match parseOptionalAttributeWith element "bound" parseBoundValue with
          | .error (.invalidStringError m) => .error (.xmlParsingError m)
          | other => other
        if axe = "X" then
          if bound = none then do
            let v ← parseValueQ element
            pure ({ acc.1 with x := some v },
                  { acc.2 with horizontal := updEdge acc.2.horizontal element })
          else if bound = some "min" then do
            let v ← parseValueQ element
            pure ({ acc.1 with xMin := some v }, acc.2)
          else if bound = some "max" then do
            let v ← parseValueQ element
            pure ({ acc.1 with xMax := some v }, acc.2)
          else pure acc
        else if axe = "Y" then
          if bound = none then do
            let v ← parseValueQ element
            pure ({ acc.1 with y := some v },
                  { acc.2 with vertical := updEdge acc.2.vertical element })
          else if bound = some "min" then do
            let v ← parseValueQ element
            pure ({ acc.1 with yMin := some v }, acc.2)
          else if bound = some "max" then do
            let v ← parseValueQ element
            pure ({ acc.1 with yMax := some v }, acc.2)
          else pure acc
        else if axe = "Z" then
          if bound = none then do
            let v ← parseValueQ element
            pure ({ acc.1 with z := some v }, acc.2)
          else if bound = some "min" then do
            let v ← parseValueQ element
            pure ({ acc.1 with zMin := some v }, acc.2)
          else if bound = some "max" then do
            let v ← parseValueQ element
            pure ({ acc.1 with zMax := some v }, acc.2)
          else pure acc
        else pure acc)
      ({}, {})
  .ok { speakerPosition with screenEdgeLock := screenEdgeLock }

/-- One iteration of the `parseSphericalSpeakerPosition` loop (lines 568–601):
the `bound` marker selects base or bound field of the axis named by the
coordinate value; setting an azimuth or elevation base also captures the
optional screen-edge marker. -/
def sphSpeakerStep (coordinate : Node × String)
    (acc : SphericalSpeakerPosition × ScreenEdgeLock) :
    Except ParseError (SphericalSpeakerPosition × ScreenEdgeLock) := do
  let element := coordinate.1
  let axe := coordinate.2
  let bound ← parseOptionalAttributeWith element "bound" parseBoundValue
  if axe = "azimuth" then
    if bound = none then do
      let v ← parseValueQ element
      pure ({ acc.1 with azimuth := some v },
            { acc.2 with horizontal := updEdge acc.2.horizontal element })
    else if bound = some "min" then do
      let v ← parseValueQ element
      pure ({ acc.1 with azimuthMin := some v }, acc.2)
    else if bound = some "max" then do
      let v ← parseValueQ element
      pure ({ acc.1 with azimuthMax := some v }, acc.2)
    else pure acc
  else if axe = "elevation" then
    if bound = none then do
      let v ← parseValueQ element
      pure ({ acc.1 with elevation := some v },
            { acc.2 with vertical := updEdge acc.2.vertical element })
    else if bound = some "min" then do
      let v ← parseValueQ element
      pure ({ acc.1 with elevationMin := some v }, acc.2)
    else if bound = some "max" then do
      let v ← parseValueQ element
      pure ({ acc.1 with elevationMax := some v }, acc.2)
    else pure acc
  else if axe = "distance" then
    if bound = none then do
      let v ← parseValueQ element
      pure ({ acc.1 with distance := some v }, acc.2)
    else if bound = some "min" then do
      let v ← parseValueQ element
      pure ({ acc.1 with distanceMin := some v }, acc.2)
    else if bound = some "max" then do
      let v ← parseValueQ element
      pure ({ acc.1 with distanceMax := some v }, acc.2)
    else pure acc
  else pure acc

/-- The loop of `parseSphericalSpeakerPosition` (lines 568–601), carrying the
speaker position and the screen-edge lock being built. -/
def sphSpeakerLoop :
    List (Node × String) → SphericalSpeakerPosition × ScreenEdgeLock →
    Except ParseError (SphericalSpeakerPosition × ScreenEdgeLock)
  | [], acc => .ok acc
  | coordinate :: rest, acc => do
      let next ← sphSpeakerStep coordinate acc
      sphSpeakerLoop rest next

/-- `parseSphericalSpeakerPosition` (lines 563–604). -/
def parseSphericalSpeakerPosition
    (sphericalCoordinates : List (Node × String)) :
    Except ParseError SphericalSpeakerPosition :=
  (sphSpeakerLoop sphericalCoordinates ({}, {})).map
    (fun acc => { acc.1 with screenEdgeLock := acc.2 })

/-- The classification loop of `parseSpeakerPosition` (lines 470–491): each
child must carry a `coordinate` attribute naming a cartesian or a spherical
axis; the children are split into the two coordinate lists in document
order. -/
def classifySpeakerCoordinates :
    List Node → Except ParseError (List (Node × String) × List (Node × String))
  | [] => .ok ([], [])
  | element :: rest =>
      match element.firstAttr "coordinate" with
      | some axis =>
          if axis = "X" ∨ axis = "Y" ∨ axis = "Z" then
            (classifySpeakerCoordinates rest).map
              (fun acc => ((element, axis) :: acc.1, acc.2))
          else if axis = "azimuth" ∨ axis = "elevation" ∨ axis = "distance" then
            (classifySpeakerCoordinates rest).map
              (fun acc => (acc.1, (element, axis) :: acc.2))
          else
            .error (.xmlParsingError "Speaker position has invalid coordinate attribute")
      | none =>
          .error (.xmlParsingError "SpeakerPosition is missing coordinate attribute")

/-- `parseSpeakerPosition` (lines 465–508). -/
def parseSpeakerPosition (nodes : List Node) :
    Except ParseError SpeakerPosition := do
  let coords ← classifySpeakerCoordinates nodes
  let cartesianCoordinates := coords.1
  let sphericalCoordinates := coords.2
  if cartesianCoordinates.isEmpty ∧ sphericalCoordinates.isEmpty then
    .error (.xmlParsingError
      "SpeakerPosition has neither cartesian nor spherical coordinates")
  else if ¬cartesianCoordinates.isEmpty ∧ ¬sphericalCoordinates.isEmpty then
    .error (.xmlParsingError
      "SpeakerPosition has both cartesian and spherical coordinates")
  else if ¬cartesianCoordinates.isEmpty then
    (parseCartesianSpeakerPosition cartesianCoordinates).map SpeakerPosition.cartesian
  else
    (parseSphericalSpeakerPosition sphericalCoordinates).map SpeakerPosition.spherical

/-! ## Audio-object interaction (`parseAudioObjectInteraction`, lines 239–300) -/

structure GainInteractionRange where
  gainMin : Option Gain := none
  gainMax : Option Gain := none
deriving DecidableEq

/-- `parseGainInteractionRange` (lines 251–263). -/
def parseGainInteractionRange (nodes : List Node) :
    Except ParseError GainInteractionRange :=
  nodes.foldlM
    (fun (gainInteraction : GainInteractionRange) element => do
      let bound ← parseAttributeWith element "bound" parseBoundValue
      if bound = "min" then do
        let g ← parseGain element
        pure { gainInteraction with gainMin := some g }
      else if bound = "max" then do
        let g ← parseGain element
        pure { gainInteraction with gainMax := some g }
      else pure gainInteraction)
    {}

structure PositionInteractionRange where
  azimuthMin : Option ℚ := none
  azimuthMax : Option ℚ := none
  elevationMin : Option ℚ := none
  elevationMax : Option ℚ := none
  distanceMin : Option ℚ := none
  distanceMax : Option ℚ := none
  xMin : Option ℚ := none
  xMax : Option ℚ := none
  yMin : Option ℚ := none
  yMax : Option ℚ := none
  zMin : Option ℚ := none
  zMax : Option ℚ := none
deriving DecidableEq

/-- `parsePositionInteractionRange` (lines 265–300). -/
def parsePositionInteractionRange (nodes : List Node) :
    Except ParseError PositionInteractionRange :=
  nodes.foldlM
    (fun (positionInteraction : PositionInteractionRange) element => do
      let bound ← parseAttributeWith element "bound" parseBoundValue
      let coordinate ← parseAttributeWith element "coordinate" parseCoordinateInteractionValue
      if coordinate = "azimuth" ∧ bound = "min" then do
        let v ← parseValueQ element
        pure { positionInteraction with azimuthMin := some v }
      else if coordinate = "azimuth" ∧ bound = "max" then do
        let v ← parseValueQ element
        pure { positionInteraction with azimuthMax := some v }
      else if coordinate = "elevation" ∧ bound = "min" then do
        let v ← parseValueQ element
        pure { positionInteraction with elevationMin := some v }
      else if coordinate = "elevation" ∧ bound = "max" then do
        let v ← parseValueQ element
        pure { positionInteraction with elevationMax := some v }
      else if coordinate = "distance" ∧ bound = "min" then do
        let v ← parseValueQ element
        pure { positionInteraction with distanceMin := some v }
      else if coordinate = "distance" ∧ bound = "max" then do
        let v ← parseValueQ element
        pure { positionInteraction with distanceMax := some v }
      else if coordinate = "X" ∧ bound = "min" then do
        let v ← parseValueQ element
        pure { positionInteraction with xMin := some v }
      else if coordinate = "X" ∧ bound = "max" then do
        let v ← parseValueQ element
        pure { positionInteraction with xMax := some v }
      else if coordinate = "Y" ∧ bound = "min" then do
        let v ← parseValueQ element
        pure { positionInteraction with yMin := some v }
      else if coordinate = "Y" ∧ bound = "max" then do
        let v ← parseValueQ element
        pure { positionInteraction with yMax := some v }
      else if coordinate = "Z" ∧ bound = "min" then do
        let v ← parseValueQ element
        pure { positionInteraction with zMin := some v }
      else if coordinate = "Z" ∧ bound = "max" then do
        let v ← parseValueQ element
        pure { positionInteraction with zMax := some v }
      else pure positionInteraction)
    {}

structure AudioObjectInteraction where
  onOffInteract : Bool
  gainInteract : Option String := none
  positionInteract : Option String := none
  gainInteractionRange : Option GainInteractionRange := none
  positionInteractionRange : Option PositionInteractionRange := none
deriving DecidableEq

/-- `parseAudioObjectInteraction` (lines 239–249); the `gainInteract` and
`positionInteract` flag value types are validated in headers outside this
repository and are carried as raw text. -/
def parseAudioObjectInteraction (node : Node) :
    Except ParseError AudioObjectInteraction := do
  let onOffInteract ← parseAttributeWith node "onOffInteract" parseBoolText
  let gir ← parseOptionalMultiElementWith node "gainInteractionRange" parseGainInteractionRange
  let pir ← parseOptionalMultiElementWith node "positionInteractionRange" parsePositionInteractionRange
  .ok { onOffInteract := onOffInteract
        gainInteract := node.firstAttr "gainInteract"
        positionInteract := node.firstAttr "positionInteract"
        gainInteractionRange := gir
        positionInteractionRange := pir }

/-! ## Block formats -/

/-- `adm::AudioBlockFormatDirectSpeakers`.  Attributes and child elements whose
value types are validated in headers outside this repository are carried as raw
text in `attrs`/`oelems`, in binding order. -/
structure AudioBlockFormatDirectSpeakers where
  attrs : List (String × String) := []
  position : Option SpeakerPosition := none
  speakerLabels : List String := []
  oelems : List (String × String) := []
  headphoneVirtualise : Option HeadphoneVirtualise := none
  gain : Option Gain := none
deriving DecidableEq

/-- Binding of an optional attribute as raw text, appended in binding order. -/
def bindAttr (n : Node) (a : String) (acc : List (String × String)) :
    List (String × String) :=
  match n.firstAttr a with
  | some v => acc ++ [(a, v)]
  | none => acc

/-- Binding of an optional child element as raw text, appended in binding
order. -/
def bindElem (n : Node) (name : String) (acc : List (String × String)) :
    List (String × String) :=
  match n.findElement name with
  | some c => acc ++ [(name, c.value)]
  | none => acc

/-- `parseSpeakerLabel` (lines 606–608). -/
def parseSpeakerLabel (node : Node) : Except ParseError String :=
  .ok node.value

/-- `parseAudioBlockFormatDirectSpeakers` (lines 448–463). -/
def parseAudioBlockFormatDirectSpeakers (node : Node) :
    Except ParseError AudioBlockFormatDirectSpeakers := do
  let attrs := bindAttr node "duration" (bindAttr node "rtime" (bindAttr node "audioBlockFormatID" []))
  let position ← parseOptionalMultiElementWith node "position" parseSpeakerPosition
  let speakerLabels ← (node.findElements "speakerLabel").mapM parseSpeakerLabel
  let oelems := bindElem node "headLocked" []
  let hv ← parseOptionalElementWith node "headphoneVirtualise" parseHeadphoneVirtualise
  let gain ← parseOptionalElementWith node "gain" parseGain
  let oelems := bindElem node "importance" oelems
  .ok { attrs := attrs, position := position, speakerLabels := speakerLabels
        oelems := oelems, headphoneVirtualise := hv, gain := gain }

/-- `adm::AudioBlockFormatObjects`: constructed with a default
`SphericalPosition()`; the explicit `cartesian` child is `none` until set. -/
structure AudioBlockFormatObjects where
  attrs : List (String × String) := []
  cartesian : Option Bool := none
  position : Position := .spherical {}
  oelems : List (String × String) := []
  gain : Option Gain := none
  channelLock : Option ChannelLock := none
  objectDivergence : Option ObjectDivergence := none
  jumpPosition : Option JumpPosition := none
  headphoneVirtualise : Option HeadphoneVirtualise := none
deriving DecidableEq

/-- `get<Cartesian>()`: the stored flag, or the default `false` when unset. -/
def AudioBlockFormatObjects.getCartesian (b : AudioBlockFormatObjects) : Bool :=
  b.cartesian.getD false

/-- The field binds of `parseAudioBlockFormatObjects` that follow the
position group (lines 635–646). -/
def bindObjectsTailFields (node : Node) (bf : AudioBlockFormatObjects) :
    Except ParseError AudioBlockFormatObjects := do
  let oelems := bindElem node "depth" (bindElem node "height" (bindElem node "width" bf.oelems))
  let gain ← parseOptionalElementWith node "gain" parseGain
  let oelems := bindElem node "diffuse" oelems
  let channelLock ← parseOptionalElementWith node "channelLock" parseChannelLock
  let objectDivergence ← parseOptionalElementWith node "objectDivergence" parseObjectDivergence
  let jumpPosition ← parseOptionalElementWith node "jumpPosition" parseJumpPosition
  let oelems := bindElem node "headLocked" (bindElem node "importance" (bindElem node "screenRef" oelems))
  let hv ← parseOptionalElementWith node "headphoneVirtualise" parseHeadphoneVirtualise
  .ok { bf with
        oelems := oelems
        gain := gain
        channelLock := channelLock
        objectDivergence := objectDivergence
        jumpPosition := jumpPosition
        headphoneVirtualise := hv }

/-- `setMultiElement<T>(node, name, target, parser)`: modelled from the spec —
the matching children fed through the aggregate parser when at least one
exists, otherwise no-op. -/
def parseMultiElementWith (n : Node) (name : String)
    (p : List Node → Except ParseError α) : Except ParseError (Option α) :=
  match n.findElements name with
  | [] => .ok none
  | l => (p l).map some

/-- `parseAudioBlockFormatObjects` (lines 618–649): the explicit `cartesian`
child is bound first; the flag guessed from the first `position` child's
coordinate marker replaces it when the two disagree, and the position group
is parsed as spherical exactly when the resulting flag is `false`. -/
def parseAudioBlockFormatObjects (node : Node) :
    Except ParseError AudioBlockFormatObjects := do
  let bf : AudioBlockFormatObjects := {}
  let attrs := bindAttr node "duration" (bindAttr node "rtime" (bindAttr node "audioBlockFormatID" []))
  let bf := { bf with attrs := attrs }
  let cartesianOpt ← parseOptionalElementWith node "cartesian"
    (fun c => parseBoolText c.value)
  let bf := match cartesianOpt with
    | some b => { bf with cartesian := some b }
    | none => bf
  let cartesianGuess := guessCartesianFlag node "position"
  let bf := if bf.getCartesian ≠ cartesianGuess then
      { bf with cartesian := some cartesianGuess }
    else bf
  let bf ←
    if bf.getCartesian = false then do
      let p ← parseMultiElementWith node "position" parseSphericalPosition
      pure (match p with
        | some sp => { bf with position := .spherical sp }
        | none => bf)
    else do
      let p ← parseMultiElementWith node "position" parseCartesianPosition
      pure (match p with
        | some cp => { bf with position := .cartesian cp }
        | none => bf)
  bindObjectsTailFields node bf

structure AudioBlockFormatHoa where
  attrs : List (String × String) := []
  oelems : List (String × String) := []
  headphoneVirtualise : Option HeadphoneVirtualise := none
  gain : Option Gain := none
deriving DecidableEq

/-- `parseAudioBlockFormatHoa` (lines 854–872). -/
def parseAudioBlockFormatHoa (node : Node) :
    Except ParseError AudioBlockFormatHoa := do
  let attrs := bindAttr node "duration" (bindAttr node "rtime" (bindAttr node "audioBlockFormatID" []))
  let oelems := bindElem node "equation" (bindElem node "normalization"
    (bindElem node "screenRef" (bindElem node "nfcRefDist"
      (bindElem node "degree" (bindElem node "order" [])))))
  let oelems := bindElem node "headLocked" oelems
  let hv ← parseOptionalElementWith node "headphoneVirtualise" parseHeadphoneVirtualise
  let gain ← parseOptionalElementWith node "gain" parseGain
  let oelems := bindElem node "importance" oelems
  .ok { attrs := attrs, oelems := oelems, headphoneVirtualise := hv, gain := gain }

structure AudioBlockFormatBinaural where
  attrs : List (String × String) := []
  gain : Option Gain := none
  oelems : List (String × String) := []
deriving DecidableEq

/-- `parseAudioBlockFormatBinaural` (lines 874–885). -/
def parseAudioBlockFormatBinaural (node : Node) :
    Except ParseError AudioBlockFormatBinaural := do
  let attrs := bindAttr node "duration" (bindAttr node "rtime" [])
  let gain ← parseOptionalElementWith node "gain" parseGain
  let oelems := bindElem node "importance" []
  .ok { attrs := attrs, gain := gain, oelems := oelems }

/-- The four block-format shapes owned by a ChannelFormat. -/
inductive BlockFormat where
  | directSpeakers (b : AudioBlockFormatDirectSpeakers)
  | objects (b : AudioBlockFormatObjects)
  | hoa (b : AudioBlockFormatHoa)
  | binaural (b : AudioBlockFormatBinaural)
deriving DecidableEq

/-! ## Elements, reference roles and pending-reference queues -/

/-- The reference roles of the data model (one per pending-reference queue of
`XmlParser`). -/
inductive RefRole where
  | programmeContent | contentObject | objectObject | objectPackFormat
  | objectTrackUid | trackUidTrackFormat | trackUidChannelFormat
  | trackUidPackFormat | packFormatChannelFormat | packFormatPackFormat
  | trackFormatStreamFormat | streamFormatChannelFormat
  | streamFormatPackFormat | streamFormatTrackFormat
deriving DecidableEq

/-- One element of the Document Graph.  Required fields are fixed at
construction; attributes and child elements whose value types are validated
in headers outside this repository are carried as raw text in
`attrs`/`oelems`, in binding order; `resolved` holds the references attached
by the Reference Resolution Engine, in attach order. -/
structure Element where
  kind : ElemKind
  id : Ident
  name : String := ""
  attrs : List (String × String) := []
  oelems : List (String × String) := []
  labels : List Label := []
  complementaryLabels : List Label := []
  loudness : List LoudnessMetadata := []
  contentKind : Option ContentKind := none
  interaction : Option AudioObjectInteraction := none
  gain : Option Gain := none
  positionOffset : Option PositionOffset := none
  frequency : Option Frequency := none
  blockFormats : List BlockFormat := []
  format : Option Nat := none
  typeDescr : Option Nat := none
  resolved : List (RefRole × Ident) := []
deriving DecidableEq

/-- The typed pending-reference queues of `XmlParser` (one member vector per
reference role); also used for the per-routine queue contributions.  Each
entry is a `(source identifier, target identifier)` pair. -/
structure PendingRefs where
  programmeContentRefs : List (Ident × Ident) := []
  contentObjectRefs : List (Ident × Ident) := []
  objectObjectRefs : List (Ident × Ident) := []
  objectPackFormatRefs : List (Ident × Ident) := []
  objectTrackUidRefs : List (Ident × Ident) := []
  trackUidTrackFormatRef : List (Ident × Ident) := []
  trackUidChannelFormatRef : List (Ident × Ident) := []
  trackUidPackFormatRef : List (Ident × Ident) := []
  packFormatChannelFormatRefs : List (Ident × Ident) := []
  packFormatPackFormatRefs : List (Ident × Ident) := []
  trackFormatStreamFormatRef : List (Ident × Ident) := []
  streamFormatChannelFormatRef : List (Ident × Ident) := []
  streamFormatPackFormatRef : List (Ident × Ident) := []
  streamFormatTrackFormatRefs : List (Ident × Ident) := []
deriving DecidableEq

/-- Componentwise concatenation of pending-reference queues (the enqueue of a
routine's contributions). -/
def PendingRefs.append (p q : PendingRefs) : PendingRefs where
  programmeContentRefs := p.programmeContentRefs ++ q.programmeContentRefs
  contentObjectRefs := p.contentObjectRefs ++ q.contentObjectRefs
  objectObjectRefs := p.objectObjectRefs ++ q.objectObjectRefs
  objectPackFormatRefs := p.objectPackFormatRefs ++ q.objectPackFormatRefs
  objectTrackUidRefs := p.objectTrackUidRefs ++ q.objectTrackUidRefs
  trackUidTrackFormatRef := p.trackUidTrackFormatRef ++ q.trackUidTrackFormatRef
  trackUidChannelFormatRef := p.trackUidChannelFormatRef ++ q.trackUidChannelFormatRef
  trackUidPackFormatRef := p.trackUidPackFormatRef ++ q.trackUidPackFormatRef
  packFormatChannelFormatRefs := p.packFormatChannelFormatRefs ++ q.packFormatChannelFormatRefs
  packFormatPackFormatRefs := p.packFormatPackFormatRefs ++ q.packFormatPackFormatRefs
  trackFormatStreamFormatRef := p.trackFormatStreamFormatRef ++ q.trackFormatStreamFormatRef
  streamFormatChannelFormatRef := p.streamFormatChannelFormatRef ++ q.streamFormatChannelFormatRef
  streamFormatPackFormatRef := p.streamFormatPackFormatRef ++ q.streamFormatPackFormatRef
  streamFormatTrackFormatRefs := p.streamFormatTrackFormatRefs ++ q.streamFormatTrackFormatRefs

/-- `addOptionalReferences<T>(node, name, element, queue, idParser)`: modelled
from the spec (§4.6) — every matching child's text is parsed as a target
identifier and enqueued as a `(source, target)` pair, in document order. -/
def addOptionalReferences (node : Node) (name : String) (selfId : Ident)
    (p : String → Except ParseError Ident) :
    Except ParseError (List (Ident × Ident)) :=
  (node.findElements name).mapM (fun c => (p c.value).map (fun t => (selfId, t)))

/-- `setOptionalReference<T>(node, name, element, queue, idParser)`: modelled
from the spec (§4.6) — the first matching child's text, if any, parsed as a
target identifier and enqueued. -/
def setOptionalReference (node : Node) (name : String) (selfId : Ident)
    (p : String → Except ParseError Ident) :
    Except ParseError (List (Ident × Ident)) :=
  match node.findElement name with
  | none => .ok []
  | some c => (p c.value).map (fun t => [(selfId, t)])

/-! ## The Document Graph -/

/-- The owning container of all elements (`adm::Document` together with the
parser's identifier map), in insertion order. -/
structure Document where
  elems : List Element := []
deriving DecidableEq

/-- `lookup(identifier)`: the element carrying the identifier, if any. -/
def Document.lookup (d : Document) (i : Ident) : Option Element :=
  d.elems.find? (fun e => e.id = i)

/-- `idMap_.contains(id)`: whether an element with this identifier exists. -/
def Document.containsId (d : Document) (i : Ident) : Bool :=
  (d.lookup i).isSome

/-- `add(element)`: insertion (guarded by the routines' duplicate check). -/
def Document.addEl (d : Document) (e : Element) : Document :=
  ⟨d.elems ++ [e]⟩

/-- Attachment of a resolved reference: rewrite the element carrying the
given identifier. -/
def Document.modifyEl (d : Document) (i : Ident) (f : Element → Element) :
    Document :=
  ⟨d.elems.map (fun e => if e.id = i then f e else e)⟩

/-! ## Type/format descriptor checks

Modelled from the spec (§4.2): `parseTypeLabel`, `parseTypeDefinition`,
`parseFormatLabel`, `parseFormatDefinition`, `checkChannelType` and
`checkFormat` are declared in headers outside this repository. -/

/-- Modelled from the spec: a type label is the four-hex-digit rendering of a
type descriptor. -/
def parseTypeLabel (s : String) : Except ParseError Nat :=
  if isHexDigits s.data ∧ s.length = 4 then .ok (hexNat s.data)
  else .error (.invalidStringError s)

/-- Modelled from the spec: a type definition names a type descriptor. -/
def parseTypeDefinitionText (s : String) : Except ParseError Nat :=
  if s = "DirectSpeakers" then .ok TypeDefinition.DIRECT_SPEAKERS
  else if s = "Matrix" then .ok TypeDefinition.MATRIX
  else if s = "Objects" then .ok TypeDefinition.OBJECTS
  else if s = "HOA" then .ok TypeDefinition.HOA
  else if s = "Binaural" then .ok TypeDefinition.BINAURAL
  else .error (.invalidStringError s)

/-- Modelled from the spec: `checkChannelType(id, typeLabel, typeDefinition)`
fails with the type-mismatch error when an explicit type attribute disagrees
with the nibble embedded in the identifier. -/
def checkChannelType (id : Ident) (typeLabel typeDefinition : Option Nat) :
    Except ParseError Unit :=
  if typeLabel.all (fun t => t = id.typeDescriptor)
      ∧ typeDefinition.all (fun t => t = id.typeDescriptor) then .ok ()
  else .error .typeMismatchError

/-- Modelled from the spec: a format label is the four-hex-digit rendering of
a format descriptor. -/
def parseFormatLabel (s : String) : Except ParseError Nat :=
  if isHexDigits s.data ∧ s.length = 4 then .ok (hexNat s.data)
  else .error (.invalidStringError s)

/-- Modelled from the spec: a format definition names a format descriptor. -/
def parseFormatDefinitionText (s : String) : Except ParseError Nat :=
  if s = "PCM" then .ok 1 else .error (.invalidStringError s)

/-- Modelled from the spec: `checkFormat(formatLabel, formatDefinition)` —
the two explicit format attributes must agree when both are present. -/
def checkFormat (formatLabel formatDefinition : Option Nat) :
    Except ParseError Nat :=
  match formatLabel, formatDefinition with
  | some a, some b => if a = b then .ok a else .error .typeMismatchError
  | some a, none => .ok a
  | none, some b => .ok b
  | none, none => .ok 0

/-! ## Per-kind parse routines (xml_parser.cpp, lines 154–446)

Each routine mirrors its source function: required attributes first, then the
duplicate-identifier check against the graph so far, then the optional
binds; every outgoing reference is parsed and returned as a queue
contribution, never resolved.  The routine reads the document only for the
duplicate check. -/

/-- `XmlParser::parseAudioProgramme` (lines 154–177). -/
def parseAudioProgramme (doc : Document) (node : Node) :
    Except ParseError (Element × PendingRefs) := do
  let name ← parseAttribute node "audioProgrammeName"
  let id ← parseAttributeWith node "audioProgrammeID" parseAudioProgrammeId
  if doc.containsId id then
    .error (.xmlParsingDuplicateId (formatId id))
  else do
    let attrs := bindAttr node "maxDuckingDepth" (bindAttr node "end"
      (bindAttr node "start" (bindAttr node "audioProgrammeLanguage" [])))
    let loudness ← parseOptionalMultiElementWith node "loudnessMetadata" parseLoudnessMetadatas
    let oelems := bindElem node "audioProgrammeReferenceScreen" []
    let q ← addOptionalReferences node "audioContentIDRef" id parseAudioContentId
    let labels ← (node.findElements "audioProgrammeLabel").mapM parseLabel
    .ok ({ kind := .programme, id := id, name := name, attrs := attrs
           oelems := oelems, loudness := loudness.getD [], labels := labels },
         { programmeContentRefs := q })

/-- `XmlParser::parseAudioContent` (lines 179–198). -/
def parseAudioContent (doc : Document) (node : Node) :
    Except ParseError (Element × PendingRefs) := do
  let name ← parseAttribute node "audioContentName"
  let id ← parseAttributeWith node "audioContentID" parseAudioContentId
  if doc.containsId id then
    .error (.xmlParsingDuplicateId (formatId id))
  else do
    let attrs := bindAttr node "audioContentLanguage" []
    let loudness ← parseOptionalMultiElementWith node "loudnessMetadata" parseLoudnessMetadatas
    let contentKind ← parseOptionalElementWith node "dialogue" parseContentKind
    let q ← addOptionalReferences node "audioObjectIDRef" id parseAudioObjectId
    let labels ← (node.findElements "audioContentLabel").mapM parseLabel
    .ok ({ kind := .content, id := id, name := name, attrs := attrs
           loudness := loudness.getD [], contentKind := contentKind
           labels := labels },
         { contentObjectRefs := q })

/-- `XmlParser::parseAudioObject` (lines 200–237). -/
def parseAudioObject (doc : Document) (node : Node) :
    Except ParseError (Element × PendingRefs) := do
  let name ← parseAttribute node "audioObjectName"
  let id ← parseAttributeWith node "audioObjectID" parseAudioObjectId
  if doc.containsId id then
    .error (.xmlParsingDuplicateId (formatId id))
  else do
    let attrs := bindAttr node "disableDucking" (bindAttr node "interact"
      (bindAttr node "importance" (bindAttr node "dialogue"
        (bindAttr node "duration" (bindAttr node "start" [])))))
    let qObj ← addOptionalReferences node "audioObjectIDRef" id parseAudioObjectId
    let qPack ← addOptionalReferences node "audioPackFormatIDRef" id parseAudioPackFormatId
    let qUid ← addOptionalReferences node "audioTrackUIDRef" id parseAudioTrackUidId
    let interaction ← parseOptionalElementWith node "audioObjectInteraction" parseAudioObjectInteraction
    let labels ← (node.findElements "audioObjectLabel").mapM parseLabel
    let complementaryLabels ←
      (node.findElements "audioComplementaryObjectGroupLabel").mapM parseLabel
    let gain ← parseOptionalElementWith node "gain" parseGain
    let oelems := bindElem node "headLocked" []
    let positionOffset ← parsePositionOffsetGroup node
    let oelems := bindElem node "mute" oelems
    .ok ({ kind := .object, id := id, name := name, attrs := attrs
           oelems := oelems, labels := labels
           complementaryLabels := complementaryLabels
           interaction := interaction, gain := gain
           positionOffset := positionOffset },
         { objectObjectRefs := qObj, objectPackFormatRefs := qPack
           objectTrackUidRefs := qUid })

/-- `XmlParser::setCommonProperties` (lines 331–339): the optional attributes
and the two reference queues shared by both pack-format variants. -/
def setCommonProperties (node : Node) (id : Ident) (e : Element) :
    Except ParseError (Element × PendingRefs) := do
  let attrs := bindAttr node "absoluteDistance" (bindAttr node "importance" e.attrs)
  let qChan ← addOptionalReferences node "audioChannelFormatIDRef" id parseAudioChannelFormatId
  let qPack ← addOptionalReferences node "audioPackFormatIDRef" id parseAudioPackFormatId
  .ok ({ e with attrs := attrs },
       { packFormatChannelFormatRefs := qChan, packFormatPackFormatRefs := qPack })

/-- `XmlParser::parseAudioPackFormat` (lines 302–329): HOA-typed identifiers
produce the HOA-specialized variant with its three extra attributes. -/
def parseAudioPackFormat (doc : Document) (node : Node) :
    Except ParseError (Element × PendingRefs) := do
  let name ← parseAttribute node "audioPackFormatName"
  let id ← parseAttributeWith node "audioPackFormatID" parseAudioPackFormatId
  if doc.containsId id then
    .error (.xmlParsingDuplicateId (formatId id))
  else do
    let typeDescriptor := id.typeDescriptor
    let typeLabel ← parseOptionalAttributeWith node "typeLabel" parseTypeLabel
    let typeDefinition ← parseOptionalAttributeWith node "typeDefinition" parseTypeDefinitionText
    checkChannelType id typeLabel typeDefinition
    let e : Element := { kind := .packFormat, id := id, name := name
                         typeDescr := some typeDescriptor }
    if typeDescriptor = TypeDefinition.HOA then do
      let (e, q) ← setCommonProperties node id e
      let attrs := bindAttr node "nfcRefDist" (bindAttr node "screenRef"
        (bindAttr node "normalization" e.attrs))
      .ok ({ e with attrs := attrs }, q)
    else
      setCommonProperties node id e

/-- `XmlParser::parseAudioChannelFormat` (lines 341–387): the block-format
children are parsed by the shape selected by the identifier's embedded type
descriptor; for the MATRIX descriptor no shape is parsed (the corresponding
source lines are commented out), so the children are skipped. -/
def parseAudioChannelFormat (doc : Document) (node : Node) :
    Except ParseError (Element × PendingRefs) := do
  let name ← parseAttribute node "audioChannelFormatName"
  let id ← parseAttributeWith node "audioChannelFormatID" parseAudioChannelFormatId
  if doc.containsId id then
    .error (.xmlParsingDuplicateId (formatId id))
  else do
    let typeLabel ← parseOptionalAttributeWith node "typeLabel" parseTypeLabel
    let typeDefinition ← parseOptionalAttributeWith node "typeDefinition" parseTypeDefinitionText
    checkChannelType id typeLabel typeDefinition
    let frequency ← parseOptionalMultiElementWith node "frequency" parseFrequency
    let elements := node.findElements "audioBlockFormat"
    let blockFormats ←
      if id.typeDescriptor = TypeDefinition.DIRECT_SPEAKERS then
        elements.mapM (fun el =>
          (parseAudioBlockFormatDirectSpeakers el).map BlockFormat.directSpeakers)
      else if id.typeDescriptor = TypeDefinition.MATRIX then
        .ok []
      else if id.typeDescriptor = TypeDefinition.OBJECTS then
        elements.mapM (fun el =>
          (parseAudioBlockFormatObjects el).map BlockFormat.objects)
      else if id.typeDescriptor = TypeDefinition.HOA then
        elements.mapM (fun el =>
          (parseAudioBlockFormatHoa el).map BlockFormat.hoa)
      else if id.typeDescriptor = TypeDefinition.BINAURAL then
        elements.mapM (fun el =>
          (parseAudioBlockFormatBinaural el).map BlockFormat.binaural)
      else .ok []
    .ok ({ kind := .channelFormat, id := id, name := name
           typeDescr := some id.typeDescriptor, frequency := frequency
           blockFormats := blockFormats },
         {})

/-- `XmlParser::parseAudioStreamFormat` (lines 389–408). -/
def parseAudioStreamFormat (doc : Document) (node : Node) :
    Except ParseError (Element × PendingRefs) := do
  let name ← parseAttribute node "audioStreamFormatName"
  let id ← parseAttributeWith node "audioStreamFormatID" parseAudioStreamFormatId
  if doc.containsId id then
    .error (.xmlParsingDuplicateId (formatId id))
  else do
    let formatLabel ← parseOptionalAttributeWith node "formatLabel" parseFormatLabel
    let formatDefinition ← parseOptionalAttributeWith node "formatDefinition" parseFormatDefinitionText
    let format ← checkFormat formatLabel formatDefinition
    let qChan ← setOptionalReference node "audioChannelFormatIDRef" id parseAudioChannelFormatId
    let qPack ← setOptionalReference node "audioPackFormatIDRef" id parseAudioPackFormatId
    let qTrack ← addOptionalReferences node "audioTrackFormatIDRef" id parseAudioTrackFormatId
    .ok ({ kind := .streamFormat, id := id, name := name, format := some format },
         { streamFormatChannelFormatRef := qChan
           streamFormatPackFormatRef := qPack
           streamFormatTrackFormatRefs := qTrack })

/-- `XmlParser::parseAudioTrackFormat` (lines 410–428). -/
def parseAudioTrackFormat (doc : Document) (node : Node) :
    Except ParseError (Element × PendingRefs) := do
  let name ← parseAttribute node "audioTrackFormatName"
  let id ← parseAttributeWith node "audioTrackFormatID" parseAudioTrackFormatId
  if doc.containsId id then
    .error (.xmlParsingDuplicateId (formatId id))
  else do
    let formatLabel ← parseOptionalAttributeWith node "formatLabel" parseFormatLabel
    let formatDefinition ← parseOptionalAttributeWith node "formatDefinition" parseFormatDefinitionText
    let format ← checkFormat formatLabel formatDefinition
    let qStream ← setOptionalReference node "audioStreamFormatIDRef" id parseAudioStreamFormatId
    .ok ({ kind := .trackFormat, id := id, name := name, format := some format },
         { trackFormatStreamFormatRef := qStream })

/-- `XmlParser::parseAudioTrackUid` (lines 430–446). -/
def parseAudioTrackUid (doc : Document) (node : Node) :
    Except ParseError (Element × PendingRefs) := do
  let id ← parseAttributeWith node "UID" parseAudioTrackUidId
  if doc.containsId id then
    .error (.xmlParsingDuplicateId (formatId id))
  else do
    let attrs := bindAttr node "bitDepth" (bindAttr node "sampleRate" [])
    let qChan ← setOptionalReference node "audioChannelFormatIDRef" id parseAudioChannelFormatId
    let qTrack ← setOptionalReference node "audioTrackFormatIDRef" id parseAudioTrackFormatId
    let qPack ← setOptionalReference node "audioPackFormatIDRef" id parseAudioPackFormatId
    .ok ({ kind := .trackUid, id := id, attrs := attrs },
         { trackUidChannelFormatRef := qChan
           trackUidTrackFormatRef := qTrack
           trackUidPackFormatRef := qPack })

/-! ## The ingestion pass (`XmlParser::parse`, lines 43–99) -/

/-- The dispatch on element name in the loop over the root's children
(lines 59–80); unknown child names are ignored. -/
def dispatchNode (doc : Document) (n : Node) :
    Except ParseError (Option (Element × PendingRefs)) :=
  if n.name = "audioProgramme" then (parseAudioProgramme doc n).map some
  else if n.name = "audioContent" then (parseAudioContent doc n).map some
  else if n.name = "audioObject" then (parseAudioObject doc n).map some
  else if n.name = "audioTrackUID" then (parseAudioTrackUid doc n).map some
  else if n.name = "audioPackFormat" then (parseAudioPackFormat doc n).map some
  else if n.name = "audioChannelFormat" then (parseAudioChannelFormat doc n).map some
  else if n.name = "audioStreamFormat" then (parseAudioStreamFormat doc n).map some
  else if n.name = "audioTrackFormat" then (parseAudioTrackFormat doc n).map some
  else .ok none

/-- The parser state accumulated across the pass: the destination document
(`document_` and `idMap_`) and the pending-reference queues. -/
structure ParserState where
  document : Document
  pending : PendingRefs := {}
deriving DecidableEq

/-- One iteration of the ingestion loop: dispatch the child, `add` the parsed
element to the document and enqueue its reference contributions. -/
def ingestStep (st : ParserState) (n : Node) : Except ParseError ParserState := do
  match ← dispatchNode st.document n with
  | none => pure st
  | some (e, c) =>
      pure { document := st.document.addEl e, pending := st.pending.append c }

/-- The ingestion loop with its state exposed even on failure: the loop stops
at the first failing child, and the elements added before the failure remain
in the destination document. -/
def ingestChildrenSt : List Node → ParserState → Option ParseError × ParserState
  | [], st => (none, st)
  | n :: ns, st =>
      match ingestStep st n with
      | .error e => (some e, st)
      | .ok st' => ingestChildrenSt ns st'

/-- The ingestion loop as a fallible computation. -/
def ingestChildren (ns : List Node) (st : ParserState) :
    Except ParseError ParserState :=
  match ingestChildrenSt ns st with
  | (some e, _) => .error e
  | (none, st') => .ok st'

/-! ## The Reference Resolution Engine (lines 81–94)

Modelled from the spec (§4.7): the `resolveReference(s)` templates live in
`xml_parser.hpp`, outside this repository.  Each queue entry's target is
looked up in the document; an absent target raises the unresolved-reference
error, a present one is attached to the source element. -/

/-- Attachment for a multi-valued role: append, preserving enqueue order. -/
def attachMulti (r : RefRole) (t : Ident) (e : Element) : Element :=
  { e with resolved := e.resolved ++ [(r, t)] }

/-- Attachment for a single-valued role: overwrite. -/
def attachSingle (r : RefRole) (t : Ident) (e : Element) : Element :=
  { e with resolved := (e.resolved.filter (fun p => ¬(p.1 = r))) ++ [(r, t)] }

/-- The shared resolution loop: look the target up, fail when absent, attach
when present. -/
def resolveQueueSt (att : Ident → Element → Element) :
    List (Ident × Ident) → Document → Option ParseError × Document
  | [], d => (none, d)
  | (s, t) :: q, d =>
      if (d.lookup t).isSome then
        resolveQueueSt att q (d.modifyEl s (att t))
      else
        (some (.xmlParsingUnresolvedReference (formatId t)), d)

/-- `XmlParser::resolveReferences` (multi-valued roles). -/
def resolveReferences (r : RefRole) (q : List (Ident × Ident)) (d : Document) :
    Option ParseError × Document :=
  resolveQueueSt (attachMulti r) q d

/-- `XmlParser::resolveReference` (single-valued roles). -/
def resolveReference (r : RefRole) (q : List (Ident × Ident)) (d : Document) :
    Option ParseError × Document :=
  resolveQueueSt (attachSingle r) q d

/-- Error-propagating chaining of the per-queue resolution calls. -/
def resolveChain (acc : Option ParseError × Document)
    (f : Document → Option ParseError × Document) :
    Option ParseError × Document :=
  match acc with
  | (some e, d) => (some e, d)
  | (none, d) => f d

/-- One pending-reference queue of the engine: its attachment function and
the member queue it drains. -/
def QueueSpec : Type :=
  (Ident → Element → Element) × (PendingRefs → List (Ident × Ident))

/-- The fixed queue-processing order of `XmlParser::parse` (lines 81–94). -/
def queueOrder : List QueueSpec :=
  [ (attachMulti .programmeContent, fun p => p.programmeContentRefs),
    (attachMulti .contentObject, fun p => p.contentObjectRefs),
    (attachMulti .objectObject, fun p => p.objectObjectRefs),
    (attachMulti .objectPackFormat, fun p => p.objectPackFormatRefs),
    (attachMulti .objectTrackUid, fun p => p.objectTrackUidRefs),
    (attachSingle .trackUidTrackFormat, fun p => p.trackUidTrackFormatRef),
    (attachSingle .trackUidChannelFormat, fun p => p.trackUidChannelFormatRef),
    (attachSingle .trackUidPackFormat, fun p => p.trackUidPackFormatRef),
    (attachMulti .packFormatChannelFormat, fun p => p.packFormatChannelFormatRefs),
    (attachMulti .packFormatPackFormat, fun p => p.packFormatPackFormatRefs),
    (attachSingle .trackFormatStreamFormat, fun p => p.trackFormatStreamFormatRef),
    (attachSingle .streamFormatChannelFormat, fun p => p.streamFormatChannelFormatRef),
    (attachSingle .streamFormatPackFormat, fun p => p.streamFormatPackFormatRef),
    (attachMulti .streamFormatTrackFormat, fun p => p.streamFormatTrackFormatRefs) ]

/-- The error-propagating run of a list of queues against a document. -/
def chainRun (L : List QueueSpec) (p : PendingRefs)
    (acc : Option ParseError × Document) : Option ParseError × Document :=
  L.foldl (fun acc pr => resolveChain acc (resolveQueueSt pr.1 (pr.2 p))) acc

/-- The whole resolution pass (lines 81–94), with the document state exposed
even on failure. -/
def resolveAllSt (st : ParserState) : Option ParseError × Document :=
  chainRun queueOrder st.pending (none, st.document)

/-! ## Root location (lines 101–152) -/

/-- `findAudioFormatExtendedNodeEbuCore` (lines 110–129): the strict
ancestor-path shape `ebuCoreMain / coreMetadata / format /
audioFormatExtended`, each step requiring exactly one candidate. -/
def findAudioFormatExtendedNodeEbuCore (node : Node) : Option Node :=
  if node.name ≠ "ebuCoreMain" then none
  else
    match node.findElements "coreMetadata" with
    | [coreMetadataNode] =>
        match coreMetadataNode.findElements "format" with
        | [formatNode] =>
            match formatNode.findElements "audioFormatExtended" with
            | [audioFormatExtendedNode] => some audioFormatExtendedNode
            | _ => none
        | _ => none
    | _ => none

mutual

/-- `findAudioFormatExtendedNodeFullRecursive` (lines 140–152): unrestricted
depth-first search for the first node named `audioFormatExtended`. -/
def findAudioFormatExtendedNodeFullRecursive : Node → Option Node
  | .mk nm a v children =>
      if nm = "audioFormatExtended" then some (.mk nm a v children)
      else findAFEInList children

/-- The loop over a node's children inside the recursive search. -/
def findAFEInList : List Node → Option Node
  | [] => none
  | c :: rest =>
      match findAudioFormatExtendedNodeFullRecursive c with
      | some rtnNode => some rtnNode
      | none => findAFEInList rest

end

/-! ## `XmlParser::parse` (lines 43–99) -/

/-- `XmlParser::parse`, with the final state of the destination document
exposed alongside the result: the pair's first component is what the call
returns (or throws), its second is the state of the `destDocument` supplied
at parser construction once the call ends.  `firstNode` models
`xmlDocument.first_node()` (`none` for an empty document);
`recursiveNodeSearch` models `ParserOptions::recursive_node_search`. -/
def XmlParser.parseSt (recursiveNodeSearch : Bool) (firstNode : Option Node)
    (destDocument : Document) : Except ParseError Document × Document :=
  match firstNode with
  | none => (.error (.xmlParsingError "xml document is empty"), destDocument)
  | some top =>
      let root := if recursiveNodeSearch then
          findAudioFormatExtendedNodeFullRecursive top
        else
          findAudioFormatExtendedNodeEbuCore top
      match root with
      | some root =>
          match ingestChildrenSt root.children { document := destDocument } with
          | (some e, st) => (.error e, st.document)
          | (none, st) =>
              match resolveAllSt st with
              | (some e, d) => (.error e, d)
              | (none, d) => (.ok d, d)
      | none =>
          (.error (.xmlParsingError "audioFormatExtended node not found"),
           destDocument)

/-- `XmlParser::parse` as seen by the caller: the returned document or the
propagated error. -/
def XmlParser.parse (recursiveNodeSearch : Bool) (firstNode : Option Node)
    (destDocument : Document) : Except ParseError Document :=
  (XmlParser.parseSt recursiveNodeSearch firstNode destDocument).1

/-! ## Statement-level views of the pipeline -/

/-- Whether a parse result is the unresolved-reference (dangling-reference)
error. -/
def isDanglingResult : Except ParseError Document → Bool
  | .error (.xmlParsingUnresolvedReference _) => true
  | _ => false

/-- Whether every pending reference's target identifier is present in the
ingested document (queue by queue, in the fixed processing order). -/
def allTargetsPresent (st : ParserState) : Bool :=
  queueOrder.all (fun pr =>
    (pr.2 st.pending).all (fun ent => st.document.containsId ent.2))

/-- The first pending reference whose target identifier is absent from the
ingested document, scanning the queues in the fixed processing order of
lines 81-94 and each queue in enqueue order: the target of the first lookup
failure the Reference Resolution Engine encounters (attachment never changes
the set of identifiers, so the ingested document decides every lookup). -/
def firstDangling : List QueueSpec → PendingRefs → Document → Option Ident
  | [], _, _ => none
  | pr :: L, p, d =>
      match (pr.2 p).find? (fun ent => ! d.containsId ent.2) with
      | some ent => some ent.2
      | none => firstDangling L p d

/-- The targets enqueued in a queue for a given source, in enqueue order. -/
def targetsOf (q : List (Ident × Ident)) (i : Ident) : List Ident :=
  (q.filter (fun p => p.1 = i)).map (fun p => p.2)

/-- Attach a list of targets to an element, in order. -/
def applyQ (att : Ident → Element → Element) (ts : List Ident) (e : Element) :
    Element :=
  ts.foldl (fun e t => att t e) e

/-- What a list of queues does to the element with identifier `i`: attach,
queue by queue, the targets enqueued for `i` — appending for multi-valued
roles, overwriting for single-valued ones. -/
def chainApply (L : List QueueSpec) (p : PendingRefs) (i : Ident)
    (e : Element) : Element :=
  L.foldl (fun e pr => applyQ pr.1 (targetsOf (pr.2 p) i) e) e

/-- What the whole resolution pass does to the element with identifier `i`,
in the fixed queue-processing order. -/
def applyPending (p : PendingRefs) (i : Ident) (e : Element) : Element :=
  chainApply queueOrder p i e

/-- The result a routine produces independently of the graph so far: the
dispatch run against an empty document (whose duplicate check never fires). -/
def nodeResult (n : Node) : Except ParseError (Option (Element × PendingRefs)) :=
  dispatchNode ⟨[]⟩ n

/-- The element a top-level child contributes, if its routine succeeds. -/
def elemOf (n : Node) : Option Element :=
  match nodeResult n with
  | .ok (some (e, _)) => some e
  | _ => none

/-- The contribution a top-level child makes to one queue. -/
def contribOf (sel : PendingRefs → List (Ident × Ident)) (n : Node) :
    List (Ident × Ident) :=
  match nodeResult n with
  | .ok (some (_, c)) => sel c
  | _ => []

/-- The identifier a top-level child contributes, if its routine succeeds. -/
def elemIdOf (n : Node) : Option Ident :=
  (elemOf n).map (fun e => e.id)

/-! ## Statement-level views of the speaker-position and offset rules -/

def coordOf (n : Node) : Option String :=
  n.firstAttr "coordinate"

def isCartMarker (n : Node) : Bool :=
  match coordOf n with
  | some v => v = "X" ∨ v = "Y" ∨ v = "Z"
  | none => false

def isSphMarker (n : Node) : Bool :=
  match coordOf n with
  | some v => v = "azimuth" ∨ v = "elevation" ∨ v = "distance"
  | none => false

/-- Whether the node's optional `bound` marker is within its enumeration. -/
def boundOk (n : Node) : Bool :=
  match n.firstAttr "bound" with
  | none => true
  | some v => v = "min" ∨ v = "max"

/-- Whether the node's text parses as a number. -/
def numOk (n : Node) : Bool :=
  match parseDecimal n.value with
  | .ok _ => true
  | .error _ => false

/-- Whether some child sets the base (unbounded) field of the given spherical
axis. -/
def hasBaseMarker (c : String) (nodes : List Node) : Bool :=
  nodes.any (fun n => coordOf n = some c && (n.firstAttr "bound").isNone)

/-- The spherical speaker position of a successful parse, if it took the
spherical shape. -/
def sphericalOf (r : Except ParseError SpeakerPosition) :
    Option SphericalSpeakerPosition :=
  r.toOption.bind SpeakerPosition.sphere?

/-- The base field of a spherical speaker position selected by an axis
marker. -/
def sphBaseField (c : String) (sp : SphericalSpeakerPosition) : Option ℚ :=
  if c = "azimuth" then sp.azimuth
  else if c = "elevation" then sp.elevation
  else if c = "distance" then sp.distance
  else none

/-- A node stripped of its `audioBlockFormat` children. -/
def stripBlockFormatChildren (n : Node) : Node :=
  .mk n.name n.attrs n.value
    (n.children.filter (fun c => ¬(c.name = "audioBlockFormat")))

/-! ## Concrete documents used as witnesses -/

/-- A reference child element: `<name>target</name>`. -/
def refNode (name target : String) : Node := .mk name [] target []

/-- A minimal `audioObject` element node. -/
def objNode (nm idText : String) (kids : List Node) : Node :=
  .mk "audioObject" [("audioObjectName", nm), ("audioObjectID", idText)] "" kids

/-- A minimal `audioPackFormat` element node. -/
def packNode (nm idText : String) : Node :=
  .mk "audioPackFormat" [("audioPackFormatName", nm), ("audioPackFormatID", idText)] "" []

/-- A minimal `audioContent` element node. -/
def contentNode (nm idText : String) (kids : List Node) : Node :=
  .mk "audioContent" [("audioContentName", nm), ("audioContentID", idText)] "" kids

/-- An `audioFormatExtended` root with the given top-level children. -/
def afeNode (kids : List Node) : Node := .mk "audioFormatExtended" [] "" kids

def identA : Ident := ⟨.object, "AO_1001"⟩
def identB : Ident := ⟨.object, "AO_1002"⟩
def identPack : Ident := ⟨.packFormat, "AP_00031001"⟩
def identContent : Ident := ⟨.content, "ACO_1001"⟩

/-- Two Objects that each list the other as a complementary reference. -/
def cycleDoc : Node := afeNode
  [ objNode "A" "AO_1001" [refNode "audioObjectIDRef" "AO_1002"],
    objNode "B" "AO_1002" [refNode "audioObjectIDRef" "AO_1001"] ]

/-- A Content element referencing an Object that only appears later. -/
def forwardDoc : Node := afeNode
  [ contentNode "C" "ACO_1001" [refNode "audioObjectIDRef" "AO_1001"],
    objNode "A" "AO_1001" [] ]

/-- The same document with the order of the top-level children reversed. -/
def backwardDoc : Node := afeNode
  [ objNode "A" "AO_1001" [],
    contentNode "C" "ACO_1001" [refNode "audioObjectIDRef" "AO_1001"] ]

/-- Two top-level Objects with the same identifier text. -/
def dupDoc : Node := afeNode
  [ objNode "A" "AO_1001" [], objNode "B" "AO_1001" [] ]

/-- An Object referencing a PackFormat absent from the document. -/
def danglingDoc : Node := afeNode
  [ objNode "A" "AO_1001" [refNode "audioPackFormatIDRef" "AP_00031001"] ]

/-- The same document with that PackFormat added after the Object. -/
def presentDoc : Node := afeNode
  [ objNode "A" "AO_1001" [refNode "audioPackFormatIDRef" "AP_00031001"],
    packNode "P" "AP_00031001" ]

/-! ## Statement-level views of the speaker-position classification -/

/-- The cartesian coordinate list the classification loop builds. -/
def cartPairs (nodes : List Node) : List (Node × String) :=
  (nodes.filter isCartMarker).map (fun n => (n, (coordOf n).getD ""))

/-- The spherical coordinate list the classification loop builds. -/
def sphPairs (nodes : List Node) : List (Node × String) :=
  (nodes.filter isSphMarker).map (fun n => (n, (coordOf n).getD ""))

/-- Whether a classified pair carries a spherical axis with a valid optional
bound and a numeric text. -/
def sphPairOk (pr : Node × String) : Bool :=
  (pr.2 = "azimuth" ∨ pr.2 = "elevation" ∨ pr.2 = "distance")
    && boundOk pr.1 && numOk pr.1

/-- Whether a classified pair sets the base (unbounded) field of axis `c`. -/
def setsBaseP (c : String) (pr : Node × String) : Bool :=
  pr.2 = c && (pr.1.firstAttr "bound").isNone

/-- The element built from `objNode "A" "AO_1001" []`. -/
def elemA : Element := { kind := .object, id := identA, name := "A" }

/-- The element built from `objNode "B" "AO_1001" []` (same identifier). -/
def elemB : Element := { kind := .object, id := identA, name := "B" }

/-- The document state after ingesting `objNode "A" "AO_1001" []`. -/
def docWithA : Document := Document.mk [elemA]

/-- The parser state after ingesting the dangling document's children. -/
def stDangling : ParserState :=
  (ingestChildrenSt danglingDoc.children { document := {} }).2

/-- The parser state after ingesting the present document's children. -/
def stPresent : ParserState :=
  (ingestChildrenSt presentDoc.children { document := {} }).2

/-- The graph parsed from the Content-before-Object document. -/
def gForward : Document :=
  ((XmlParser.parse true (some forwardDoc) {}).toOption).getD {}

/-- The graph parsed from the reversed document. -/
def gBackward : Document :=
  ((XmlParser.parse true (some backwardDoc) {}).toOption).getD {}

/-! # Theorems -/

theorem ebind_ok {α β : Type} (a : α) (f : α → Except ParseError β) :
    (Except.ok a >>= f) = f a := rfl

theorem bind_ok_iff {α β : Type} (x : Except ParseError α)
    (f : α → Except ParseError β) (b : β) :
    (x >>= f) = .ok b ↔ ∃ a, x = .ok a ∧ f a = .ok b := by
  cases x <;> simp [Bind.bind, Except.bind]

theorem findElements_head (n : Node) (nm : String) :
    (n.findElements nm).head? = n.findElement nm := by
  simp [Node.findElements, Node.findElement]

theorem sph_not_cart (n : Node) (h : isSphMarker n = true) :
    isCartMarker n = false := by
  unfold isSphMarker at h
  unfold isCartMarker
  cases hc : coordOf n with
  | none => rfl
  | some v =>
      rw [hc] at h
      simp only [decide_eq_true_eq] at h
      rcases h with h | h | h <;> subst h <;> decide

theorem classify_eq (nodes : List Node)
    (h : nodes.all (fun n => isCartMarker n || isSphMarker n) = true) :
    classifySpeakerCoordinates nodes = .ok (cartPairs nodes, sphPairs nodes) := by
  induction nodes with
  | nil => rfl
  | cons n rest ih =>
      rw [List.all_cons] at h
      obtain ⟨hn, hrest⟩ := Bool.and_eq_true_iff.mp h
      rw [Bool.or_eq_true_iff] at hn
      cases hn with
      | inl hcart =>
          have hsph : isSphMarker n = false := by
            unfold isCartMarker at hcart
            unfold isSphMarker
            cases hc : coordOf n with
            | none => rfl
            | some v =>
                rw [hc] at hcart
                simp only [decide_eq_true_eq] at hcart
                rcases hcart with h' | h' | h' <;> subst h' <;> decide
          obtain ⟨v, hv, hvx⟩ :
              ∃ v, coordOf n = some v ∧ (v = "X" ∨ v = "Y" ∨ v = "Z") := by
            unfold isCartMarker at hcart
            cases hc : coordOf n with
            | none => rw [hc] at hcart; exact absurd hcart (by decide)
            | some v =>
                rw [hc] at hcart
                simp only [decide_eq_true_eq] at hcart
                exact ⟨v, rfl, hcart⟩
          simp only [classifySpeakerCoordinates,
            show n.firstAttr "coordinate" = some v from hv]
          rw [if_pos hvx, ih hrest]
          unfold cartPairs sphPairs
          rw [List.filter_cons_of_pos (by exact hcart),
              List.filter_cons_of_neg (by rw [hsph]; exact Bool.false_ne_true)]
          simp [Except.map, hv]
      | inr hsph =>
          have hcart : isCartMarker n = false := sph_not_cart n hsph
          obtain ⟨v, hv, hvx⟩ :
              ∃ v, coordOf n = some v
                ∧ (v = "azimuth" ∨ v = "elevation" ∨ v = "distance") := by
            unfold isSphMarker at hsph
            cases hc : coordOf n with
            | none => rw [hc] at hsph; exact absurd hsph (by decide)
            | some v =>
                rw [hc] at hsph
                simp only [decide_eq_true_eq] at hsph
                exact ⟨v, rfl, hsph⟩
          have hvnx : ¬(v = "X" ∨ v = "Y" ∨ v = "Z") := by
            rcases hvx with h' | h' | h' <;> subst h' <;> decide
          simp only [classifySpeakerCoordinates,
            show n.firstAttr "coordinate" = some v from hv]
          rw [if_neg hvnx, if_pos hvx, ih hrest]
          unfold cartPairs sphPairs
          rw [List.filter_cons_of_neg (by rw [hcart]; exact Bool.false_ne_true),
              List.filter_cons_of_pos (by exact hsph)]
          simp [Except.map, hv]

theorem sphStep_char (pr : Node × String)
    (acc : SphericalSpeakerPosition × ScreenEdgeLock)
    (h : sphPairOk pr = true) :
    ∃ next, sphSpeakerStep pr acc = .ok next
      ∧ (setsBaseP "azimuth" pr = false → next.1.azimuth = acc.1.azimuth)
      ∧ (setsBaseP "elevation" pr = false → next.1.elevation = acc.1.elevation)
      ∧ (setsBaseP "distance" pr = false → next.1.distance = acc.1.distance) := by
  obtain ⟨element, axe⟩ := pr
  unfold sphPairOk at h
  simp only [Bool.and_eq_true, decide_eq_true_eq] at h
  obtain ⟨⟨haxe, hbound⟩, hnum⟩ := h
  obtain ⟨v, hv⟩ : ∃ v, parseValueQ element = .ok v := by
    unfold numOk at hnum
    cases hx : parseDecimal element.value with
    | ok v => exact ⟨v, hx⟩
    | error e => rw [hx] at hnum; simp at hnum
  unfold boundOk at hbound
  unfold sphSpeakerStep
  unfold setsBaseP
  cases hb : element.firstAttr "bound" with
  | none =>
      have hob : parseOptionalAttributeWith element "bound" parseBoundValue
          = .ok none := by
        rw [parseOptionalAttributeWith, hb]
      rcases haxe with ha | ha | ha <;> subst ha <;>
        simp [hob, hv, ebind_ok, hb, Except.bind]
  | some bv =>
      rw [hb] at hbound
      simp only [decide_eq_true_eq] at hbound
      have hob : parseOptionalAttributeWith element "bound" parseBoundValue
          = .ok (some bv) := by
        rw [parseOptionalAttributeWith, hb]
        show (parseBoundValue bv).map some = _
        unfold parseBoundValue
        rw [if_pos hbound]
        rfl
      rcases haxe with ha | ha | ha <;> subst ha <;>
        rcases hbound with hbv | hbv <;> subst hbv <;>
        simp [hob, hv, ebind_ok, hb, Except.bind]

theorem sphLoop_char (pairs : List (Node × String)) :
    ∀ acc, pairs.all sphPairOk = true →
    ∃ res, sphSpeakerLoop pairs acc = .ok res
      ∧ (pairs.all (fun pr => !setsBaseP "azimuth" pr) = true →
          res.1.azimuth = acc.1.azimuth)
      ∧ (pairs.all (fun pr => !setsBaseP "elevation" pr) = true →
          res.1.elevation = acc.1.elevation)
      ∧ (pairs.all (fun pr => !setsBaseP "distance" pr) = true →
          res.1.distance = acc.1.distance) := by
  induction pairs with
  | nil =>
      intro acc _
      exact ⟨acc, rfl, fun _ => rfl, fun _ => rfl, fun _ => rfl⟩
  | cons pr rest ih =>
      intro acc hall
      rw [List.all_cons] at hall
      obtain ⟨hpr, hrest⟩ := Bool.and_eq_true_iff.mp hall
      obtain ⟨next, hnext, ha1, he1, hd1⟩ := sphStep_char pr acc hpr
      obtain ⟨res, hres, ha2, he2, hd2⟩ := ih next hrest
      refine ⟨res, ?_, ?_, ?_, ?_⟩
      · rw [sphSpeakerLoop, hnext, ebind_ok, hres]
      · intro hnb
        rw [List.all_cons] at hnb
        obtain ⟨h1, h2⟩ := Bool.and_eq_true_iff.mp hnb
        rw [ha2 h2, ha1 (by rw [Bool.not_eq_true'] at h1; exact h1)]
      · intro hnb
        rw [List.all_cons] at hnb
        obtain ⟨h1, h2⟩ := Bool.and_eq_true_iff.mp hnb
        rw [he2 h2, he1 (by rw [Bool.not_eq_true'] at h1; exact h1)]
      · intro hnb
        rw [List.all_cons] at hnb
        obtain ⟨h1, h2⟩ := Bool.and_eq_true_iff.mp hnb
        rw [hd2 h2, hd1 (by rw [Bool.not_eq_true'] at h1; exact h1)]

theorem bindObjectsTailFields_preserves (node : Node)
    (b bf : AudioBlockFormatObjects)
    (h : bindObjectsTailFields node b = .ok bf) :
    bf.cartesian = b.cartesian ∧ bf.position = b.position := by
  unfold bindObjectsTailFields at h
  rw [bind_ok_iff] at h
  obtain ⟨g, hg, h⟩ := h
  rw [bind_ok_iff] at h
  obtain ⟨cl, hcl, h⟩ := h
  rw [bind_ok_iff] at h
  obtain ⟨od, hod, h⟩ := h
  rw [bind_ok_iff] at h
  obtain ⟨jp, hjp, h⟩ := h
  rw [bind_ok_iff] at h
  obtain ⟨hv, hhv, h⟩ := h
  cases h
  exact ⟨rfl, rfl⟩

/-- C4: a document in which two Objects each list the other via
`audioObjectIDRef` ingests successfully, and after reference resolution each
Object holds a direct resolved relation to the other — the cycle is a valid
end state, with no cycle detection. -/
theorem c4_complementary_object_cycle :
    (XmlParser.parse true (some cycleDoc) {}).isOk = true
    ∧ ((XmlParser.parse true (some cycleDoc) {}).toOption.bind
        (fun d => (d.lookup identA).map (fun e => e.resolved)))
        = some [(.objectObject, identB)]
    ∧ ((XmlParser.parse true (some cycleDoc) {}).toOption.bind
        (fun d => (d.lookup identB).map (fun e => e.resolved)))
        = some [(.objectObject, identA)] := by
  refine ⟨by decide, by decide, by decide⟩

/-- C6: for a DirectSpeakers position group whose children all carry valid
coordinate markers, the presence of both a cartesian-marked and a
spherical-marked child fails with the mixed-coordinate-systems error; a group
with no children fails with the distinct no-coordinates error; a group whose
children carry only spherical markers (with valid bounds and numeric texts)
succeeds with a spherical position whose fields for missing markers stay
unset. -/
theorem c6_speaker_position_coordinate_exclusivity (nodes : List Node) :
    (nodes.all (fun n => isCartMarker n || isSphMarker n) = true →
      nodes.any isCartMarker = true → nodes.any isSphMarker = true →
      parseSpeakerPosition nodes = .error (.xmlParsingError
        "SpeakerPosition has both cartesian and spherical coordinates"))
    ∧ parseSpeakerPosition [] = .error (.xmlParsingError
        "SpeakerPosition has neither cartesian nor spherical coordinates")
    ∧ (ParseError.xmlParsingError
        "SpeakerPosition has both cartesian and spherical coordinates"
        ≠ ParseError.xmlParsingError
        "SpeakerPosition has neither cartesian nor spherical coordinates")
    ∧ (nodes ≠ [] → nodes.all isSphMarker = true →
        nodes.all boundOk = true → nodes.all numOk = true →
        (sphericalOf (parseSpeakerPosition nodes)).isSome = true
        ∧ (hasBaseMarker "azimuth" nodes = false →
            (sphericalOf (parseSpeakerPosition nodes)).map
              (fun sp => sp.azimuth) = some none)
        ∧ (hasBaseMarker "elevation" nodes = false →
            (sphericalOf (parseSpeakerPosition nodes)).map
              (fun sp => sp.elevation) = some none)
        ∧ (hasBaseMarker "distance" nodes = false →
            (sphericalOf (parseSpeakerPosition nodes)).map
              (fun sp => sp.distance) = some none)) := by
  refine ⟨?_, by decide, by decide, ?_⟩
  · intro hall hc hs
    rw [parseSpeakerPosition]
    rw [classify_eq nodes hall, ebind_ok]
    simp only []
    have hcne : cartPairs nodes ≠ [] := by
      rw [List.any_eq_true] at hc
      obtain ⟨n, hn, hcn⟩ := hc
      unfold cartPairs
      intro hnil
      rw [List.map_eq_nil_iff] at hnil
      rw [List.filter_eq_nil_iff] at hnil
      exact hnil n hn hcn
    have hsne : sphPairs nodes ≠ [] := by
      rw [List.any_eq_true] at hs
      obtain ⟨n, hn, hsn⟩ := hs
      unfold sphPairs
      intro hnil
      rw [List.map_eq_nil_iff] at hnil
      rw [List.filter_eq_nil_iff] at hnil
      exact hnil n hn hsn
    rw [if_neg (by simp [List.isEmpty_iff, hcne])]
    rw [if_pos (by constructor <;> simp [List.isEmpty_iff, hcne, hsne])]
  · intro hne hsph hbok hnok
    have hall : nodes.all (fun n => isCartMarker n || isSphMarker n) = true := by
      rw [List.all_eq_true] at hsph ⊢
      intro n hn
      rw [Bool.or_eq_true_iff]
      exact Or.inr (hsph n hn)
    have hcempty : cartPairs nodes = [] := by
      unfold cartPairs
      rw [List.map_eq_nil_iff, List.filter_eq_nil_iff]
      intro n hn hcn
      rw [List.all_eq_true] at hsph
      rw [sph_not_cart n (hsph n hn)] at hcn
      exact absurd hcn (by decide)
    have hsfull : sphPairs nodes
        = nodes.map (fun n => (n, (coordOf n).getD "")) := by
      unfold sphPairs
      congr 1
      rw [List.filter_eq_self]
      intro n hn
      rw [List.all_eq_true] at hsph
      exact hsph n hn
    have hsne : sphPairs nodes ≠ [] := by
      rw [hsfull]
      cases hnd : nodes with
      | nil => exact absurd hnd hne
      | cons a l => simp
    have hpairsok : (sphPairs nodes).all sphPairOk = true := by
      rw [List.all_eq_true]
      intro pr hpr
      rw [hsfull, List.mem_map] at hpr
      obtain ⟨n, hn, hpr⟩ := hpr
      subst hpr
      rw [List.all_eq_true] at hsph hbok hnok
      have hs := hsph n hn
      unfold isSphMarker at hs
      cases hc : coordOf n with
      | none => rw [hc] at hs; exact absurd hs (by decide)
      | some u =>
          rw [hc] at hs
          simp only [decide_eq_true_eq] at hs
          unfold sphPairOk
          simp only [hc, Option.getD_some, Bool.and_eq_true, decide_eq_true_eq]
          exact ⟨⟨hs, hbok n hn⟩, hnok n hn⟩
    have hrun : parseSpeakerPosition nodes =
        (parseSphericalSpeakerPosition (sphPairs nodes)).map
          SpeakerPosition.spherical := by
      rw [parseSpeakerPosition, classify_eq nodes hall, ebind_ok]
      simp only []
      rw [hcempty]
      rw [if_neg (by intro hb; exact hsne (List.isEmpty_iff.mp hb.2))]
      rw [if_neg (by intro hb; exact hb.1 (by rfl))]
      rw [if_neg (by intro hb; exact hb (by rfl))]
    obtain ⟨res, hres, hA, hE, hD⟩ :=
      sphLoop_char (sphPairs nodes) ({}, {}) hpairsok
    have hfin : parseSpeakerPosition nodes =
        .ok (.spherical { res.1 with screenEdgeLock := res.2 }) := by
      rw [hrun, parseSphericalSpeakerPosition, hres]
      rfl
    have hbase : ∀ c : String, hasBaseMarker c nodes = false →
        (sphPairs nodes).all (fun pr => !setsBaseP c pr) = true := by
      intro c hnb
      rw [List.all_eq_true]
      intro pr hpr
      rw [hsfull, List.mem_map] at hpr
      obtain ⟨n, hn, hpr⟩ := hpr
      subst hpr
      rw [Bool.not_eq_true']
      unfold setsBaseP
      unfold hasBaseMarker at hnb
      rw [List.any_eq_false] at hnb
      have hnb' := hnb n hn
      rw [List.all_eq_true] at hsph
      have hs := hsph n hn
      unfold isSphMarker at hs
      cases hc : coordOf n with
      | none => rw [hc] at hs; exact absurd hs (by decide)
      | some u =>
          rw [hc] at hnb'
          simp only [hc, Option.getD_some]
          by_cases huc : u = c
          · subst huc
            simp only [decide_eq_true_eq] at hnb' ⊢
            simp at hnb' ⊢
            exact Option.isSome_iff_ne_none.mpr hnb'
          · simp [huc]
    refine ⟨by rw [hfin]; rfl, ?_, ?_, ?_⟩
    · intro hnb
      have hx := hA (hbase "azimuth" hnb)
      rw [hfin]
      show some res.1.azimuth = some none
      rw [hx]
    · intro hnb
      have hx := hE (hbase "elevation" hnb)
      rw [hfin]
      show some res.1.elevation = some none
      rw [hx]
    · intro hnb
      have hx := hD (hbase "distance" hnb)
      rw [hfin]
      show some res.1.distance = some none
      rw [hx]

/-- Witness for C6: a group with one `X`-marked and one `azimuth`-marked child
fails with the mixed-coordinate-systems error. -/
theorem c6_speaker_position_coordinate_exclusivity_witness :
    ((([Node.mk "position" [("coordinate", "X")] "1" [],
        Node.mk "position" [("coordinate", "azimuth")] "30" []] : List Node).all
          (fun n => isCartMarker n || isSphMarker n) = true)
      ∧ ([Node.mk "position" [("coordinate", "X")] "1" [],
          Node.mk "position" [("coordinate", "azimuth")] "30" []] : List Node).any
            isCartMarker = true
      ∧ ([Node.mk "position" [("coordinate", "X")] "1" [],
          Node.mk "position" [("coordinate", "azimuth")] "30" []] : List Node).any
            isSphMarker = true)
    ∧ parseSpeakerPosition
        [Node.mk "position" [("coordinate", "X")] "1" [],
         Node.mk "position" [("coordinate", "azimuth")] "30" []]
      = .error (.xmlParsingError
          "SpeakerPosition has both cartesian and spherical coordinates") :=
  ⟨⟨by decide, by decide, by decide⟩,
    (c6_speaker_position_coordinate_exclusivity
      [Node.mk "position" [("coordinate", "X")] "1" [],
       Node.mk "position" [("coordinate", "azimuth")] "30" []]).1
      (by decide) (by decide) (by decide)⟩

/-- C7: for a repeated position-offset group, the coordinate marker on the
first occurrence alone decides the group's shape — `X`/`Y`/`Z` makes the
whole group cartesian, `azimuth`/`elevation`/`distance` makes it spherical,
any other value fails with the invalid-coordinate error, and a group with no
children defaults to spherical. -/
theorem c7_position_offset_shape_guess (node c : Node) (v : String) :
    (node.findElement "positionOffset" = some c → coordOf c = some v →
      ((v = "X" ∨ v = "Y" ∨ v = "Z") →
        guessCartesianFlag node "positionOffset" = true
        ∧ parsePositionOffsetGroup node =
            (parseOptionalMultiElementWith node "positionOffset"
              parseCartesianPositionOffset).map
              (fun o => o.map PositionOffset.cartesian))
      ∧ ((v = "azimuth" ∨ v = "elevation" ∨ v = "distance") →
        guessCartesianFlag node "positionOffset" = false
        ∧ parsePositionOffsetGroup node =
            (parseOptionalMultiElementWith node "positionOffset"
              parseSphericalPositionOffset).map
              (fun o => o.map PositionOffset.spherical))
      ∧ (¬(v = "X" ∨ v = "Y" ∨ v = "Z") →
         ¬(v = "azimuth" ∨ v = "elevation" ∨ v = "distance") →
        parsePositionOffsetGroup node = .error (.invalidStringError v)))
    ∧ (node.findElements "positionOffset" = [] →
        guessCartesianFlag node "positionOffset" = false
        ∧ parsePositionOffsetGroup node = .ok none) := by
  constructor
  · intro hfe hco
    refine ⟨?_, ?_, ?_⟩
    · intro hv
      have hg : guessCartesianFlag node "positionOffset" = true := by
        simp [guessCartesianFlag, hfe, coordOf] at *
        simp [hco, hv]
      exact ⟨hg, by simp [parsePositionOffsetGroup, hg]⟩
    · intro hv
      have hg : guessCartesianFlag node "positionOffset" = false := by
        simp [guessCartesianFlag, hfe, coordOf] at *
        simp [hco]
        rcases hv with h | h | h <;> simp [h]
      exact ⟨hg, by simp [parsePositionOffsetGroup, hg]⟩
    · intro hv1 hv2
      have hg : guessCartesianFlag node "positionOffset" = false := by
        simp [guessCartesianFlag, hfe, coordOf] at *
        simp [hco]
        push_neg at hv1
        exact hv1
      have hl : ∃ rest, node.findElements "positionOffset" = c :: rest := by
        have := findElements_head node "positionOffset"
        rw [hfe] at this
        cases hfl : node.findElements "positionOffset" with
        | nil => rw [hfl] at this; simp at this
        | cons a rest =>
            rw [hfl] at this; simp at this
            exact ⟨rest, by rw [this]⟩
      obtain ⟨rest, hrest⟩ := hl
      have hattr : parseAttributeWith c "coordinate" parseSphericalCoordinateValue
          = .error (.invalidStringError v) := by
        simp [parseAttributeWith, parseAttribute, coordOf] at *
        simp [hco, parseSphericalCoordinateValue, hv2, Except.bind]
      rw [parsePositionOffsetGroup, if_neg (by simp [hg])]
      rw [parseOptionalMultiElementWith, hrest]
      simp only [parseSphericalPositionOffset, List.foldlM]
      rw [hattr]
      rfl
  · intro hfe
    have hg : guessCartesianFlag node "positionOffset" = false := by
      have := findElements_head node "positionOffset"
      rw [hfe] at this
      simp at this
      simp [guessCartesianFlag, ← this]
    refine ⟨hg, ?_⟩
    rw [parsePositionOffsetGroup, if_neg (by simp [hg])]
    rw [parseOptionalMultiElementWith, hfe]
    rfl

/-- Witness for C7: an `azimuth` marker on the first occurrence makes the
group spherical. -/
theorem c7_position_offset_shape_guess_witness :
    ((Node.mk "audioObject" []  ""
        [Node.mk "positionOffset" [("coordinate", "azimuth")] "30" []]).findElement
          "positionOffset"
        = some (Node.mk "positionOffset" [("coordinate", "azimuth")] "30" [])
      ∧ coordOf (Node.mk "positionOffset" [("coordinate", "azimuth")] "30" [])
        = some "azimuth")
    ∧ guessCartesianFlag
        (Node.mk "audioObject" [] ""
          [Node.mk "positionOffset" [("coordinate", "azimuth")] "30" []])
        "positionOffset" = false :=
  ⟨⟨by rfl, by rfl⟩,
    (((c7_position_offset_shape_guess
        (Node.mk "audioObject" [] ""
          [Node.mk "positionOffset" [("coordinate", "azimuth")] "30" []])
        (Node.mk "positionOffset" [("coordinate", "azimuth")] "30" [])
        "azimuth").1 (by rfl) (by rfl)).2.1 (by simp)).1⟩

/-- C8: a gain element with no `gainUnit` marker parses its text as a linear
gain (`"0.5"` yields linear 0.5); with marker `dB` it parses as a decibel
gain (`"-6"` yields −6 dB), an internal representation distinct from the
linear case but comparable through the computed linear-equivalent value; any
other `gainUnit` value fails with the unexpected-attribute error. -/
theorem c8_gain_unit_disambiguation (u : String)
    (h1 : u ≠ "linear") (h2 : u ≠ "dB") (v : ℚ) :
    parseGain (.mk "gain" [] "0.5" []) = .ok (Gain.fromLinear (1/2))
    ∧ parseGain (.mk "gain" [("gainUnit", "dB")] "-6" []) = .ok (Gain.fromDb (-6))
    ∧ Gain.fromDb (-6) ≠ Gain.fromLinear v
    ∧ Gain.asLinear (Gain.fromLinear (1/2)) = 1/2
    ∧ Gain.asLinear (Gain.fromDb (-6)) = (10 : ℝ) ^ ((-6 : ℝ) / 20)
    ∧ parseGain (.mk "gain" [("gainUnit", u)] "-6" []) =
        .error (.xmlParsingUnexpectedAttrError "gainUnit" u) := by
  refine ⟨by decide, by decide, by simp, ?_, ?_, ?_⟩
  · norm_num [Gain.asLinear]
  · norm_num [Gain.asLinear]
  · simp only [parseGain, Node.firstAttr, Node.attrs, Node.value, List.find?]
    norm_num
    rw [show parseDecimal "-6" = Except.ok (-6 : ℚ) from by decide]
    show (if u = "linear" then Except.ok (Gain.fromLinear (-6))
      else if u = "dB" then Except.ok (Gain.fromDb (-6))
      else Except.error (ParseError.xmlParsingUnexpectedAttrError "gainUnit" u)) = _
    rw [if_neg h1, if_neg h2]

/-- Witness for C8 at the unit `"foo"`. -/
theorem c8_gain_unit_disambiguation_witness :
    (("foo" : String) ≠ "linear" ∧ ("foo" : String) ≠ "dB")
    ∧ parseGain (.mk "gain" [("gainUnit", "foo")] "-6" []) =
        .error (.xmlParsingUnexpectedAttrError "gainUnit" "foo") :=
  ⟨⟨by decide, by decide⟩,
    (c8_gain_unit_disambiguation "foo" (by decide) (by decide) 0).2.2.2.2.2⟩

/-- C9: in an Objects-type block format, the shape guessed from the first
position child's coordinate marker overrides an explicit `cartesian` child
that disagrees with it — an explicit `cartesian = true` accompanied by a
spherical guess yields the Cartesian flag `false` and a spherical position. -/
theorem c9_cartesian_flag_override (node c : Node) (bf : AudioBlockFormatObjects)
    (hc : node.findElement "cartesian" = some c)
    (hv : parseBoolText c.value = .ok true)
    (hg : guessCartesianFlag node "position" = false)
    (hok : parseAudioBlockFormatObjects node = .ok bf) :
    bf.cartesian = some false ∧ bf.position.isSpherical = true := by
  have h1 : parseOptionalElementWith node "cartesian"
      (fun c => parseBoolText c.value) = .ok (some true) := by
    rw [parseOptionalElementWith, hc]
    show Except.map some (parseBoolText c.value) = _
    rw [hv]; rfl
  unfold parseAudioBlockFormatObjects at hok
  rw [h1] at hok
  rw [hg] at hok
  rw [bind_ok_iff] at hok
  obtain ⟨copt, hcopt, hok⟩ := hok
  have hc2 : copt = some true := (Except.ok.inj hcopt).symm
  subst hc2
  simp only [AudioBlockFormatObjects.getCartesian, Option.getD_some] at hok
  rw [if_pos (show true ≠ false by simp)] at hok
  rw [if_pos (show ((some false).getD false) = false from rfl)] at hok
  rw [bind_ok_iff] at hok
  obtain ⟨p, hp, htail⟩ := hok
  simp only [pure_bind] at htail
  have hpres := bindObjectsTailFields_preserves node _ bf htail
  cases p with
  | none => exact ⟨hpres.1, by rw [hpres.2]; rfl⟩
  | some sp => exact ⟨hpres.1, by rw [hpres.2]; rfl⟩

/-- Witness for C9: `cartesian = 1` with an azimuth-marked position child
parses with the flag replaced by `false` and a spherical position. -/
theorem c9_cartesian_flag_override_witness :
    ((Node.mk "audioBlockFormat" [] ""
        [Node.mk "cartesian" [] "1" [],
         Node.mk "position" [("coordinate", "azimuth")] "30" []]).findElement
          "cartesian" = some (Node.mk "cartesian" [] "1" [])
      ∧ parseBoolText (Node.mk "cartesian" [] "1" []).value = .ok true
      ∧ guessCartesianFlag
          (Node.mk "audioBlockFormat" [] ""
            [Node.mk "cartesian" [] "1" [],
             Node.mk "position" [("coordinate", "azimuth")] "30" []])
          "position" = false
      ∧ parseAudioBlockFormatObjects
          (Node.mk "audioBlockFormat" [] ""
            [Node.mk "cartesian" [] "1" [],
             Node.mk "position" [("coordinate", "azimuth")] "30" []])
        = .ok { attrs := [], cartesian := some false,
                position := .spherical { azimuth := some 30 }, oelems := [] })
    ∧ ({ attrs := [], cartesian := some false,
          position := .spherical { azimuth := some 30 }, oelems := []
          : AudioBlockFormatObjects }.cartesian = some false
        ∧ ({ attrs := [], cartesian := some false,
              position := .spherical { azimuth := some 30 }, oelems := []
              : AudioBlockFormatObjects }).position.isSpherical = true) :=
  ⟨⟨by rfl, by decide, by decide, by decide⟩,
    c9_cartesian_flag_override
      (Node.mk "audioBlockFormat" [] ""
        [Node.mk "cartesian" [] "1" [],
         Node.mk "position" [("coordinate", "azimuth")] "30" []])
      (Node.mk "cartesian" [] "1" [])
      { attrs := [], cartesian := some false,
        position := .spherical { azimuth := some 30 }, oelems := [] }
      (by rfl) (by decide) (by decide) (by decide)⟩

theorem strip_findElements_ne (n : Node) (nm : String)
    (h : ¬(nm = "audioBlockFormat")) :
    (stripBlockFormatChildren n).findElements nm = n.findElements nm := by
  unfold stripBlockFormatChildren Node.findElements
  show List.filter _ (n.children.filter _) = _
  rw [List.filter_filter]
  apply List.filter_congr
  intro c _
  by_cases hc : c.name = nm
  · simp [hc, h]
  · simp [hc]

theorem strip_findElements_abf (n : Node) :
    (stripBlockFormatChildren n).findElements "audioBlockFormat" = [] := by
  unfold stripBlockFormatChildren Node.findElements
  show List.filter _ (n.children.filter _) = _
  rw [List.filter_filter]
  rw [List.filter_eq_nil_iff]
  intro c _
  by_cases hc : c.name = "audioBlockFormat" <;> simp [hc]

/-- C10: for an `audioChannelFormat` whose identifier's embedded type
descriptor is MATRIX, all `audioBlockFormat` children are silently ignored —
the routine's result is unchanged when they are removed, and a successful
parse constructs the ChannelFormat with an empty block-format sequence. -/
theorem c10_matrix_block_formats_ignored (node : Node) (s : String) (i : Ident)
    (d : Document) (e : Element) (c : PendingRefs)
    (hid : node.firstAttr "audioChannelFormatID" = some s)
    (hparse : parseAudioChannelFormatId s = .ok i)
    (ht : i.typeDescriptor = TypeDefinition.MATRIX) :
    (parseAudioChannelFormat d node = .ok (e, c) → e.blockFormats = [])
    ∧ parseAudioChannelFormat d node
        = parseAudioChannelFormat d (stripBlockFormatChildren node) := by
  constructor
  · intro hok
    unfold parseAudioChannelFormat at hok
    rw [bind_ok_iff] at hok
    obtain ⟨nm, hnm, hok⟩ := hok
    rw [show parseAttributeWith node "audioChannelFormatID" parseAudioChannelFormatId
        = .ok i from by rw [parseAttributeWith, parseAttribute, hid]; exact hparse] at hok
    rw [ebind_ok] at hok
    by_cases hdup : d.containsId i = true
    · rw [if_pos hdup] at hok; exact absurd hok (by simp)
    · rw [if_neg hdup] at hok
      rw [bind_ok_iff] at hok
      obtain ⟨tl, htl, hok⟩ := hok
      rw [bind_ok_iff] at hok
      obtain ⟨td, htd, hok⟩ := hok
      rw [bind_ok_iff] at hok
      obtain ⟨u, hu, hok⟩ := hok
      rw [bind_ok_iff] at hok
      obtain ⟨fr, hfr, hok⟩ := hok
      rw [ht] at hok
      rw [if_neg (by decide), if_pos rfl, ebind_ok] at hok
      simp only [] at hok
      injection hok with hpair
      injection hpair with h1 h2
      rw [← h1]
  · have hidp : parseAttributeWith node "audioChannelFormatID"
        parseAudioChannelFormatId = .ok i := by
      rw [parseAttributeWith, parseAttribute, hid]; exact hparse
    have hfreq : parseOptionalMultiElementWith (stripBlockFormatChildren node)
        "frequency" parseFrequency
        = parseOptionalMultiElementWith node "frequency" parseFrequency := by
      unfold parseOptionalMultiElementWith
      rw [strip_findElements_ne node "frequency" (by decide)]
    unfold parseAudioChannelFormat
    have hname : parseAttribute (stripBlockFormatChildren node)
        "audioChannelFormatName" = parseAttribute node "audioChannelFormatName" := rfl
    rw [hname]
    congr 1
    funext nm
    have hidp' : parseAttributeWith (stripBlockFormatChildren node)
        "audioChannelFormatID" parseAudioChannelFormatId = .ok i := hidp
    rw [hidp, hidp', ebind_ok, ebind_ok]
    by_cases hdup : d.containsId i = true
    · rw [if_pos hdup, if_pos hdup]
    · rw [if_neg hdup, if_neg hdup]
      have htl : parseOptionalAttributeWith (stripBlockFormatChildren node)
          "typeLabel" parseTypeLabel
          = parseOptionalAttributeWith node "typeLabel" parseTypeLabel := rfl
      rw [htl]
      congr 1
      funext tl
      have htd : parseOptionalAttributeWith (stripBlockFormatChildren node)
          "typeDefinition" parseTypeDefinitionText
          = parseOptionalAttributeWith node "typeDefinition" parseTypeDefinitionText := rfl
      rw [htd]
      congr 1
      funext td
      congr 1
      funext u
      rw [hfreq]
      congr 1
      funext fr
      rw [ht]
      rw [if_neg (by decide), if_pos rfl, if_neg (by decide), if_pos rfl]

/-- Witness for C10: a MATRIX-typed channel format with one
`audioBlockFormat` child parses successfully with an empty block-format
sequence. -/
theorem c10_matrix_block_formats_ignored_witness :
    ((Node.mk "audioChannelFormat"
        [("audioChannelFormatName", "M"), ("audioChannelFormatID", "AC_00021001")] ""
        [Node.mk "audioBlockFormat" [] "" []]).firstAttr "audioChannelFormatID"
        = some "AC_00021001"
      ∧ parseAudioChannelFormatId "AC_00021001"
        = .ok ⟨.channelFormat, "AC_00021001"⟩
      ∧ (Ident.mk .channelFormat "AC_00021001").typeDescriptor
        = TypeDefinition.MATRIX
      ∧ parseAudioChannelFormat {} (Node.mk "audioChannelFormat"
          [("audioChannelFormatName", "M"), ("audioChannelFormatID", "AC_00021001")] ""
          [Node.mk "audioBlockFormat" [] "" []])
        = .ok ({ kind := .channelFormat, id := ⟨.channelFormat, "AC_00021001"⟩,
                 name := "M", typeDescr := some 2 }, {}))
    ∧ ({ kind := .channelFormat, id := ⟨.channelFormat, "AC_00021001"⟩,
         name := "M", typeDescr := some 2 : Element }).blockFormats = [] :=
  ⟨⟨by decide, by decide, by decide, by decide⟩,
    (c10_matrix_block_formats_ignored
      (Node.mk "audioChannelFormat"
        [("audioChannelFormatName", "M"), ("audioChannelFormatID", "AC_00021001")] ""
        [Node.mk "audioBlockFormat" [] "" []])
      "AC_00021001" ⟨.channelFormat, "AC_00021001"⟩ {}
      { kind := .channelFormat, id := ⟨.channelFormat, "AC_00021001"⟩,
        name := "M", typeDescr := some 2 } {}
      (by decide) (by decide) (by decide)).1 (by decide)⟩

theorem parseAudioObject_dup (d0 : Document) (n : Node) (e : Element)
    (q : PendingRefs) (h : parseAudioObject d0 n = .ok (e, q)) :
    ∀ d, parseAudioObject d n =
      if d.containsId e.id then .error (.xmlParsingDuplicateId e.id.text)
      else .ok (e, q) := by
  intro d
  unfold parseAudioObject at h ⊢
  rw [bind_ok_iff] at h
  obtain ⟨nm, hnm, h⟩ := h
  rw [bind_ok_iff] at h
  obtain ⟨i, hi, h⟩ := h
  rw [hnm, hi, ebind_ok, ebind_ok]
  by_cases h0 : d0.containsId i = true
  · rw [if_pos h0] at h
    exact absurd h (by simp)
  · rw [if_neg h0] at h
    have hei : e.id = i := by
      have h' := h
      simp only [] at h'
      repeat (rw [bind_ok_iff] at h'; obtain ⟨_, _, h'⟩ := h')
      injection h' with hp
      injection hp with h1 h2
      rw [← h1]
    by_cases hd : d.containsId i = true
    · rw [if_pos hd, hei]
      rw [if_pos hd]
      rfl
    · rw [if_neg hd, hei]
      rw [if_neg hd]
      exact h

theorem parseAudioProgramme_dup (d0 : Document) (n : Node) (e : Element)
    (q : PendingRefs) (h : parseAudioProgramme d0 n = .ok (e, q)) :
    ∀ d, parseAudioProgramme d n =
      if d.containsId e.id then .error (.xmlParsingDuplicateId e.id.text)
      else .ok (e, q) := by
  intro d
  unfold parseAudioProgramme at h ⊢
  rw [bind_ok_iff] at h
  obtain ⟨nm, hnm, h⟩ := h
  rw [bind_ok_iff] at h
  obtain ⟨i, hi, h⟩ := h
  rw [hnm, hi, ebind_ok, ebind_ok]
  by_cases h0 : d0.containsId i = true
  · rw [if_pos h0] at h
    exact absurd h (by simp)
  · rw [if_neg h0] at h
    have hei : e.id = i := by
      have h' := h
      simp only [] at h'
      repeat (rw [bind_ok_iff] at h'; obtain ⟨_, _, h'⟩ := h')
      injection h' with hp
      injection hp with h1 h2
      rw [← h1]
    by_cases hd : d.containsId i = true
    · rw [if_pos hd, hei]
      rw [if_pos hd]
      rfl
    · rw [if_neg hd, hei]
      rw [if_neg hd]
      exact h

theorem parseAudioContent_dup (d0 : Document) (n : Node) (e : Element)
    (q : PendingRefs) (h : parseAudioContent d0 n = .ok (e, q)) :
    ∀ d, parseAudioContent d n =
      if d.containsId e.id then .error (.xmlParsingDuplicateId e.id.text)
      else .ok (e, q) := by
  intro d
  unfold parseAudioContent at h ⊢
  rw [bind_ok_iff] at h
  obtain ⟨nm, hnm, h⟩ := h
  rw [bind_ok_iff] at h
  obtain ⟨i, hi, h⟩ := h
  rw [hnm, hi, ebind_ok, ebind_ok]
  by_cases h0 : d0.containsId i = true
  · rw [if_pos h0] at h
    exact absurd h (by simp)
  · rw [if_neg h0] at h
    have hei : e.id = i := by
      have h' := h
      simp only [] at h'
      repeat (rw [bind_ok_iff] at h'; obtain ⟨_, _, h'⟩ := h')
      injection h' with hp
      injection hp with h1 h2
      rw [← h1]
    by_cases hd : d.containsId i = true
    · rw [if_pos hd, hei]
      rw [if_pos hd]
      rfl
    · rw [if_neg hd, hei]
      rw [if_neg hd]
      exact h

theorem parseAudioStreamFormat_dup (d0 : Document) (n : Node) (e : Element)
    (q : PendingRefs) (h : parseAudioStreamFormat d0 n = .ok (e, q)) :
    ∀ d, parseAudioStreamFormat d n =
      if d.containsId e.id then .error (.xmlParsingDuplicateId e.id.text)
      else .ok (e, q) := by
  intro d
  unfold parseAudioStreamFormat at h ⊢
  rw [bind_ok_iff] at h
  obtain ⟨nm, hnm, h⟩ := h
  rw [bind_ok_iff] at h
  obtain ⟨i, hi, h⟩ := h
  rw [hnm, hi, ebind_ok, ebind_ok]
  by_cases h0 : d0.containsId i = true
  · rw [if_pos h0] at h
    exact absurd h (by simp)
  · rw [if_neg h0] at h
    have hei : e.id = i := by
      have h' := h
      simp only [] at h'
      repeat (rw [bind_ok_iff] at h'; obtain ⟨_, _, h'⟩ := h')
      injection h' with hp
      injection hp with h1 h2
      rw [← h1]
    by_cases hd : d.containsId i = true
    · rw [if_pos hd, hei]
      rw [if_pos hd]
      rfl
    · rw [if_neg hd, hei]
      rw [if_neg hd]
      exact h

theorem parseAudioTrackFormat_dup (d0 : Document) (n : Node) (e : Element)
    (q : PendingRefs) (h : parseAudioTrackFormat d0 n = .ok (e, q)) :
    ∀ d, parseAudioTrackFormat d n =
      if d.containsId e.id then .error (.xmlParsingDuplicateId e.id.text)
      else .ok (e, q) := by
  intro d
  unfold parseAudioTrackFormat at h ⊢
  rw [bind_ok_iff] at h
  obtain ⟨nm, hnm, h⟩ := h
  rw [bind_ok_iff] at h
  obtain ⟨i, hi, h⟩ := h
  rw [hnm, hi, ebind_ok, ebind_ok]
  by_cases h0 : d0.containsId i = true
  · rw [if_pos h0] at h
    exact absurd h (by simp)
  · rw [if_neg h0] at h
    have hei : e.id = i := by
      have h' := h
      simp only [] at h'
      repeat (rw [bind_ok_iff] at h'; obtain ⟨_, _, h'⟩ := h')
      injection h' with hp
      injection hp with h1 h2
      rw [← h1]
    by_cases hd : d.containsId i = true
    · rw [if_pos hd, hei]
      rw [if_pos hd]
      rfl
    · rw [if_neg hd, hei]
      rw [if_neg hd]
      exact h

theorem parseAudioChannelFormat_dup (d0 : Document) (n : Node) (e : Element)
    (q : PendingRefs) (h : parseAudioChannelFormat d0 n = .ok (e, q)) :
    ∀ d, parseAudioChannelFormat d n =
      if d.containsId e.id then .error (.xmlParsingDuplicateId e.id.text)
      else .ok (e, q) := by
  intro d
  unfold parseAudioChannelFormat at h ⊢
  rw [bind_ok_iff] at h
  obtain ⟨nm, hnm, h⟩ := h
  rw [bind_ok_iff] at h
  obtain ⟨i, hi, h⟩ := h
  rw [hnm, hi, ebind_ok, ebind_ok]
  by_cases h0 : d0.containsId i = true
  · rw [if_pos h0] at h
    exact absurd h (by simp)
  · rw [if_neg h0] at h
    have hei : e.id = i := by
      have h' := h
      simp only [] at h'
      rw [bind_ok_iff] at h'
      obtain ⟨tl, _, h'⟩ := h'
      rw [bind_ok_iff] at h'
      obtain ⟨td, _, h'⟩ := h'
      rw [bind_ok_iff] at h'
      obtain ⟨u, _, h'⟩ := h'
      rw [bind_ok_iff] at h'
      obtain ⟨fr, _, h'⟩ := h'
      by_cases h1 : i.typeDescriptor = TypeDefinition.DIRECT_SPEAKERS
      · rw [if_pos h1] at h'
        rw [bind_ok_iff] at h'
        obtain ⟨_, _, h'⟩ := h'
        injection h' with hp
        injection hp with ha hb
        rw [← ha]
      · rw [if_neg h1] at h'
        by_cases h2 : i.typeDescriptor = TypeDefinition.MATRIX
        · rw [if_pos h2] at h'
          rw [bind_ok_iff] at h'
          obtain ⟨_, _, h'⟩ := h'
          injection h' with hp
          injection hp with ha hb
          rw [← ha]
        · rw [if_neg h2] at h'
          by_cases h3 : i.typeDescriptor = TypeDefinition.OBJECTS
          · rw [if_pos h3] at h'
            rw [bind_ok_iff] at h'
            obtain ⟨_, _, h'⟩ := h'
            injection h' with hp
            injection hp with ha hb
            rw [← ha]
          · rw [if_neg h3] at h'
            by_cases h4 : i.typeDescriptor = TypeDefinition.HOA
            · rw [if_pos h4] at h'
              rw [bind_ok_iff] at h'
              obtain ⟨_, _, h'⟩ := h'
              injection h' with hp
              injection hp with ha hb
              rw [← ha]
            · rw [if_neg h4] at h'
              by_cases h5 : i.typeDescriptor = TypeDefinition.BINAURAL
              · rw [if_pos h5] at h'
                rw [bind_ok_iff] at h'
                obtain ⟨_, _, h'⟩ := h'
                injection h' with hp
                injection hp with ha hb
                rw [← ha]
              · rw [if_neg h5] at h'
                rw [bind_ok_iff] at h'
                obtain ⟨_, _, h'⟩ := h'
                injection h' with hp
                injection hp with ha hb
                rw [← ha]
    by_cases hd : d.containsId i = true
    · rw [if_pos hd, hei]
      rw [if_pos hd]
      rfl
    · rw [if_neg hd, hei]
      rw [if_neg hd]
      exact h

theorem parseAudioTrackUid_dup (d0 : Document) (n : Node) (e : Element)
    (q : PendingRefs) (h : parseAudioTrackUid d0 n = .ok (e, q)) :
    ∀ d, parseAudioTrackUid d n =
      if d.containsId e.id then .error (.xmlParsingDuplicateId e.id.text)
      else .ok (e, q) := by
  intro d
  unfold parseAudioTrackUid at h ⊢
  rw [bind_ok_iff] at h
  obtain ⟨i, hi, h⟩ := h
  rw [hi, ebind_ok]
  by_cases h0 : d0.containsId i = true
  · rw [if_pos h0] at h
    exact absurd h (by simp)
  · rw [if_neg h0] at h
    have hei : e.id = i := by
      have h' := h
      simp only [] at h'
      repeat (rw [bind_ok_iff] at h'; obtain ⟨_, _, h'⟩ := h')
      injection h' with hp
      injection hp with h1 h2
      rw [← h1]
    by_cases hd : d.containsId i = true
    · rw [if_pos hd, hei]
      rw [if_pos hd]
      rfl
    · rw [if_neg hd, hei]
      rw [if_neg hd]
      exact h

theorem setCommonProperties_id (n : Node) (i : Ident) (e0 e1 : Element)
    (q : PendingRefs) (h : setCommonProperties n i e0 = .ok (e1, q)) :
    e1.id = e0.id := by
  unfold setCommonProperties at h
  simp only [] at h
  repeat (rw [bind_ok_iff] at h; obtain ⟨_, _, h⟩ := h)
  injection h with hp
  injection hp with h1 h2
  rw [← h1]

theorem parseAudioPackFormat_dup (d0 : Document) (n : Node) (e : Element)
    (q : PendingRefs) (h : parseAudioPackFormat d0 n = .ok (e, q)) :
    ∀ d, parseAudioPackFormat d n =
      if d.containsId e.id then .error (.xmlParsingDuplicateId e.id.text)
      else .ok (e, q) := by
  intro d
  unfold parseAudioPackFormat at h ⊢
  rw [bind_ok_iff] at h
  obtain ⟨nm, hnm, h⟩ := h
  rw [bind_ok_iff] at h
  obtain ⟨i, hi, h⟩ := h
  rw [hnm, hi, ebind_ok, ebind_ok]
  by_cases h0 : d0.containsId i = true
  · rw [if_pos h0] at h
    exact absurd h (by simp)
  · rw [if_neg h0] at h
    have hei : e.id = i := by
      have h' := h
      simp only [] at h'
      rw [bind_ok_iff] at h'
      obtain ⟨tl, _, h'⟩ := h'
      rw [bind_ok_iff] at h'
      obtain ⟨td, _, h'⟩ := h'
      rw [bind_ok_iff] at h'
      obtain ⟨u, _, h'⟩ := h'
      by_cases hhoa : i.typeDescriptor = TypeDefinition.HOA
      · rw [if_pos hhoa] at h'
        rw [bind_ok_iff] at h'
        obtain ⟨ec, hec, h'⟩ := h'
        obtain ⟨e2, q2⟩ := ec
        have hid2 := setCommonProperties_id n i _ e2 q2 hec
        simp only [] at h'
        injection h' with hp
        injection hp with h1 h2
        rw [← h1]
        show e2.id = i
        rw [hid2]
      · rw [if_neg hhoa] at h'
        exact setCommonProperties_id n i _ e q h'
    by_cases hd : d.containsId i = true
    · rw [if_pos hd, hei]
      rw [if_pos hd]
      rfl
    · rw [if_neg hd, hei]
      rw [if_neg hd]
      exact h

theorem emap_some_ok {α : Type} (r : Except ParseError α) (x : α)
    (h : r.map some = .ok (some x)) : r = .ok x := by
  cases r with
  | ok a =>
      simp only [Except.map] at h
      injection h with hp
      injection hp with hq
      rw [hq]
  | error er => simp [Except.map] at h

theorem dispatchNode_dup (d0 : Document) (n : Node) (e : Element)
    (q : PendingRefs) (h : dispatchNode d0 n = .ok (some (e, q))) :
    ∀ d, dispatchNode d n =
      if d.containsId e.id then .error (.xmlParsingDuplicateId e.id.text)
      else .ok (some (e, q)) := by
  intro d
  unfold dispatchNode at h ⊢
  by_cases h1 : n.name = "audioProgramme"
  · rw [if_pos h1] at h ⊢
    rw [parseAudioProgramme_dup d0 n e q (emap_some_ok _ _ h) d]
    by_cases hd : d.containsId e.id = true <;> simp [hd, Except.map]
  · rw [if_neg h1] at h ⊢
    by_cases h2 : n.name = "audioContent"
    · rw [if_pos h2] at h ⊢
      rw [parseAudioContent_dup d0 n e q (emap_some_ok _ _ h) d]
      by_cases hd : d.containsId e.id = true <;> simp [hd, Except.map]
    · rw [if_neg h2] at h ⊢
      by_cases h3 : n.name = "audioObject"
      · rw [if_pos h3] at h ⊢
        rw [parseAudioObject_dup d0 n e q (emap_some_ok _ _ h) d]
        by_cases hd : d.containsId e.id = true <;> simp [hd, Except.map]
      · rw [if_neg h3] at h ⊢
        by_cases h4 : n.name = "audioTrackUID"
        · rw [if_pos h4] at h ⊢
          rw [parseAudioTrackUid_dup d0 n e q (emap_some_ok _ _ h) d]
          by_cases hd : d.containsId e.id = true <;> simp [hd, Except.map]
        · rw [if_neg h4] at h ⊢
          by_cases h5 : n.name = "audioPackFormat"
          · rw [if_pos h5] at h ⊢
            rw [parseAudioPackFormat_dup d0 n e q (emap_some_ok _ _ h) d]
            by_cases hd : d.containsId e.id = true <;> simp [hd, Except.map]
          · rw [if_neg h5] at h ⊢
            by_cases h6 : n.name = "audioChannelFormat"
            · rw [if_pos h6] at h ⊢
              rw [parseAudioChannelFormat_dup d0 n e q (emap_some_ok _ _ h) d]
              by_cases hd : d.containsId e.id = true <;> simp [hd, Except.map]
            · rw [if_neg h6] at h ⊢
              by_cases h7 : n.name = "audioStreamFormat"
              · rw [if_pos h7] at h ⊢
                rw [parseAudioStreamFormat_dup d0 n e q (emap_some_ok _ _ h) d]
                by_cases hd : d.containsId e.id = true <;> simp [hd, Except.map]
              · rw [if_neg h7] at h ⊢
                by_cases h8 : n.name = "audioTrackFormat"
                · rw [if_pos h8] at h ⊢
                  rw [parseAudioTrackFormat_dup d0 n e q (emap_some_ok _ _ h) d]
                  by_cases hd : d.containsId e.id = true <;> simp [hd, Except.map]
                · rw [if_neg h8] at h ⊢
                  simp at h

theorem ebind_err {α β : Type} (er : ParseError) (f : α → Except ParseError β) :
    (Except.error er >>= f) = .error er := rfl

theorem ingestSt_append (xs ys : List Node) : ∀ st,
    ingestChildrenSt (xs ++ ys) st =
      match ingestChildrenSt xs st with
      | (some e, st') => (some e, st')
      | (none, st') => ingestChildrenSt ys st' := by
  induction xs with
  | nil => intro st; rfl
  | cons n rest ih =>
      intro st
      show ingestChildrenSt (n :: (rest ++ ys)) st = _
      cases hstep : ingestStep st n with
      | error er => simp [ingestChildrenSt, hstep]
      | ok st2 => simp [ingestChildrenSt, hstep, ih st2]

theorem findRec_afe (l : List Node) :
    findAudioFormatExtendedNodeFullRecursive (afeNode l) = some (afeNode l) := rfl

/-- C2: when a well-formed top-level element node carries an identifier
already present in the graph built from the preceding children, ingestion
fails with the duplicate-identifier error at that point of the forward pass —
whatever follows the duplicate (including the entire resolution phase) is
never reached, and the position of the duplicate is arbitrary. -/
theorem c2_duplicate_identifier_error (pre post : List Node) (n : Node) (dest : Document)
    (st : ParserState) (e : Element) (q : PendingRefs) (d0 : Document)
    (hpre : ingestChildrenSt pre { document := dest } = (none, st))
    (hn : dispatchNode d0 n = .ok (some (e, q)))
    (hdup : st.document.containsId e.id = true) :
    XmlParser.parse true (some (afeNode (pre ++ n :: post))) dest
      = .error (.xmlParsingDuplicateId e.id.text) := by
  have hstep : ingestStep st n = .error (.xmlParsingDuplicateId e.id.text) := by
    unfold ingestStep
    rw [dispatchNode_dup d0 n e q hn st.document, if_pos hdup]
    rfl
  unfold XmlParser.parse
  show (match ingestChildrenSt (pre ++ n :: post) { document := dest } with
    | (some er, st') => (Except.error er, st'.document)
    | (none, st') =>
        match resolveAllSt st' with
        | (some er, d) => (Except.error er, d)
        | (none, d) => (Except.ok d, d)).1
    = Except.error (ParseError.xmlParsingDuplicateId e.id.text)
  rw [ingestSt_append, hpre]
  show (match ingestChildrenSt (n :: post) st with
    | (some er, st') => (Except.error er, st'.document)
    | (none, st') =>
        match resolveAllSt st' with
        | (some er, d) => (Except.error er, d)
        | (none, d) => (Except.ok d, d)).1
    = Except.error (ParseError.xmlParsingDuplicateId e.id.text)
  rw [show ingestChildrenSt (n :: post) st
      = (some (.xmlParsingDuplicateId e.id.text), st) from by
    rw [ingestChildrenSt, hstep]]



/-- Witness for C2: a second top-level Object with the identifier text
`AO_1001` is rejected during the forward pass. -/
theorem c2_duplicate_identifier_error_witness :
    (ingestChildrenSt [objNode "A" "AO_1001" []] { document := {} }
        = (none, { document := docWithA })
      ∧ dispatchNode ({} : Document) (objNode "B" "AO_1001" [])
        = .ok (some (elemB, {}))
      ∧ ({ document := docWithA } : ParserState).document.containsId elemB.id
          = true)
    ∧ XmlParser.parse true (some (afeNode
        [objNode "A" "AO_1001" [], objNode "B" "AO_1001" []])) {}
      = .error (.xmlParsingDuplicateId "AO_1001") :=
  ⟨⟨by decide, by decide, by decide⟩,
    c2_duplicate_identifier_error [objNode "A" "AO_1001" []] []
      (objNode "B" "AO_1001" []) {} { document := docWithA } elemB {} {}
      (by decide) (by decide) (by decide)⟩

/-- C5 counterexample: the claim that no partial graph reaches the caller
alongside an error — including through the destination Document supplied at
parser construction — fails on the code: on a duplicate-identifier error the
destination document already holds the element added before the failure. -/
theorem c5_no_partial_graph_counterexample :
    (XmlParser.parseSt true (some dupDoc) {}).1
      = .error (.xmlParsingDuplicateId "AO_1001")
    ∧ (XmlParser.parseSt true (some dupDoc) {}).2 = docWithA
    ∧ (XmlParser.parseSt true (some dupDoc) {}).2 ≠ ({} : Document) := by
  refine ⟨by decide, by decide, by decide⟩


theorem queueOrder_preserves : ∀ pr ∈ queueOrder, ∀ t e, ((pr.1 : Ident → Element → Element) t e).id = e.id := by
  intro pr hpr
  fin_cases hpr <;> intro t e <;> rfl

theorem lookup_modifyEl (d : Document) (s i : Ident) (f : Element → Element)
    (hf : ∀ e, (f e).id = e.id) :
    (d.modifyEl s f).lookup i = if i = s then (d.lookup i).map f else d.lookup i := by
  obtain ⟨l⟩ := d
  unfold Document.modifyEl Document.lookup
  simp only []
  induction l with
  | nil => by_cases his : i = s <;> simp [his]
  | cons e rest ih =>
      by_cases hes : e.id = s
      · by_cases his : i = s
        · subst his
          simp [List.find?_cons, hes, hf, ih]
        · simp [List.find?_cons, hes, hf, his, ih,
            show ¬(s = i) from fun hh => his hh.symm]
      · by_cases hei : e.id = i
        · simp [List.find?_cons, hes, hei,
            show ¬(i = s) from fun hh => hes (hei ▸ hh)]
        · simp [List.find?_cons, hes, hei, ih]

theorem lookup_isSome_modifyEl (d : Document) (s : Ident) (f : Element → Element)
    (hf : ∀ e, (f e).id = e.id) (t : Ident) :
    ((d.modifyEl s f).lookup t).isSome = (d.lookup t).isSome := by
  rw [lookup_modifyEl d s t f hf]
  by_cases hts : t = s <;> simp [hts]

theorem resolveQueueSt_ok_char (att : Ident → Element → Element)
    (hatt : ∀ t e, (att t e).id = e.id) (q : List (Ident × Ident)) :
    ∀ d d', resolveQueueSt att q d = (none, d') →
    ∀ i, d'.lookup i = (d.lookup i).map (applyQ att (targetsOf q i)) := by
  induction q with
  | nil =>
      intro d d' h i
      injection h with h1 h2
      subst h2
      simp only [targetsOf, applyQ, List.filter_nil, List.map_nil, List.foldl_nil]
      cases d.lookup i <;> rfl
  | cons ent q ih =>
      obtain ⟨sid, t⟩ := ent
      intro d d' h i
      unfold resolveQueueSt at h
      by_cases hp : (d.lookup t).isSome = true
      · rw [if_pos hp] at h
        have hc := ih _ _ h i
        rw [hc, lookup_modifyEl d sid i (att t) (fun e => hatt t e)]
        by_cases his : i = sid
        · subst his
          rw [show targetsOf ((i, t) :: q) i = t :: targetsOf q i from by
            simp [targetsOf]]
          simp [applyQ, Option.map_map]
          rfl
        · rw [show targetsOf ((sid, t) :: q) i = targetsOf q i from by
            simp [targetsOf, List.filter_cons,
              show ¬(sid = i) from fun hh => his hh.symm]]
          rw [if_neg his]
      · rw [if_neg hp] at h
        injection h with h1 h2
        simp at h1

theorem resolveQueueSt_none_iff (att : Ident → Element → Element)
    (hatt : ∀ t e, (att t e).id = e.id) (q : List (Ident × Ident)) :
    ∀ d, (resolveQueueSt att q d).1 = none ↔
      ∀ ent ∈ q, (d.lookup ent.2).isSome = true := by
  induction q with
  | nil => intro d; simp [resolveQueueSt]
  | cons ent q ih =>
      obtain ⟨sid, t⟩ := ent
      intro d
      unfold resolveQueueSt
      by_cases hp : (d.lookup t).isSome = true
      · rw [if_pos hp]
        rw [ih]
        constructor
        · intro hall ent hent
          rcases List.mem_cons.mp hent with he | he
          · rw [he]; exact hp
          · have := hall ent he
            rw [lookup_isSome_modifyEl d sid (att t) (fun e => hatt t e)] at this
            exact this
        · intro hall ent hent
          rw [lookup_isSome_modifyEl d sid (att t) (fun e => hatt t e)]
          exact hall ent (List.mem_cons_of_mem _ hent)
      · rw [if_neg hp]
        simp only []
        constructor
        · intro hh; exact absurd hh (by simp)
        · intro hall
          exact absurd (hall (sid, t) (List.mem_cons_self _ _)) hp

theorem resolveQueueSt_err_dangling (att : Ident → Element → Element)
    (q : List (Ident × Ident)) :
    ∀ d err, (resolveQueueSt att q d).1 = some err →
      ∃ t, err = .xmlParsingUnresolvedReference t := by
  induction q with
  | nil => intro d err h; simp [resolveQueueSt] at h
  | cons ent q ih =>
      obtain ⟨sid, t⟩ := ent
      intro d err h
      unfold resolveQueueSt at h
      by_cases hp : (d.lookup t).isSome = true
      · rw [if_pos hp] at h
        exact ih _ err h
      · rw [if_neg hp] at h
        simp only [] at h
        injection h with h1
        exact ⟨formatId t, h1.symm⟩

theorem chainRun_nil (p : PendingRefs) (acc : Option ParseError × Document) :
    chainRun [] p acc = acc := rfl

theorem chainRun_cons (pr : QueueSpec) (L : List QueueSpec) (p : PendingRefs)
    (acc : Option ParseError × Document) :
    chainRun (pr :: L) p acc
      = chainRun L p (resolveChain acc (resolveQueueSt pr.1 (pr.2 p))) := by
  unfold chainRun
  rw [List.foldl_cons]

theorem chainRun_err_absorb (L : List QueueSpec) (p : PendingRefs)
    (err : ParseError) (d : Document) :
    chainRun L p (some err, d) = (some err, d) := by
  induction L with
  | nil => rfl
  | cons pr L ih =>
      rw [chainRun_cons]
      rw [show resolveChain (some err, d) (resolveQueueSt pr.1 (pr.2 p))
          = (some err, d) from rfl]
      exact ih

theorem chainRun_ok_char (L : List QueueSpec)
    (hL : ∀ pr ∈ L, ∀ t e, ((pr.1 : Ident → Element → Element) t e).id = e.id)
    (p : PendingRefs) :
    ∀ d d', chainRun L p (none, d) = (none, d') →
    ∀ i, d'.lookup i = (d.lookup i).map (chainApply L p i) := by
  induction L with
  | nil =>
      intro d d' h i
      rw [chainRun_nil] at h
      injection h with h1 h2
      subst h2
      cases d.lookup i <;> rfl
  | cons pr L ih =>
      intro d d' h i
      have hpr := hL pr (List.mem_cons_self _ _)
      have hrest := fun pr' hp' => hL pr' (List.mem_cons_of_mem _ hp')
      rw [chainRun_cons] at h
      rw [show resolveChain (none, d) (resolveQueueSt pr.1 (pr.2 p))
          = resolveQueueSt pr.1 (pr.2 p) d from rfl] at h
      cases hq : resolveQueueSt pr.1 (pr.2 p) d with
      | mk oe d2 =>
          rw [hq] at h
          cases oe with
          | some err =>
              rw [chainRun_err_absorb L p err d2] at h
              injection h with h1 h2
              simp at h1
          | none =>
              have hc := ih hrest d2 d' h i
              have hqc := resolveQueueSt_ok_char pr.1 hpr (pr.2 p) d d2 hq i
              rw [hc, hqc]
              cases d.lookup i <;> rfl

theorem chainRun_none_iff (L : List QueueSpec)
    (hL : ∀ pr ∈ L, ∀ t e, ((pr.1 : Ident → Element → Element) t e).id = e.id)
    (p : PendingRefs) :
    ∀ d, (chainRun L p (none, d)).1 = none ↔
      ∀ pr ∈ L, ∀ ent ∈ pr.2 p, (d.lookup ent.2).isSome = true := by
  induction L with
  | nil =>
      intro d
      rw [chainRun_nil]
      simp
  | cons pr L ih =>
      intro d
      have hpr := hL pr (List.mem_cons_self _ _)
      have hrest := fun pr' hp' => hL pr' (List.mem_cons_of_mem _ hp')
      rw [chainRun_cons]
      rw [show resolveChain (none, d) (resolveQueueSt pr.1 (pr.2 p))
          = resolveQueueSt pr.1 (pr.2 p) d from rfl]
      cases hq : resolveQueueSt pr.1 (pr.2 p) d with
      | mk oe d2 =>
          cases oe with
          | some err =>
              rw [chainRun_err_absorb L p err d2]
              simp only []
              constructor
              · intro hh; exact absurd hh (by simp)
              · intro hall
                have hnone : (resolveQueueSt pr.1 (pr.2 p) d).1 = none := by
                  rw [resolveQueueSt_none_iff pr.1 hpr (pr.2 p) d]
                  exact hall pr (List.mem_cons_self _ _)
                rw [hq] at hnone
                exact absurd hnone (by simp)
          | none =>
              have hqc := resolveQueueSt_ok_char pr.1 hpr (pr.2 p) d d2 hq
              have hinv : ∀ t, (d2.lookup t).isSome = (d.lookup t).isSome := by
                intro t
                rw [hqc t]
                cases d.lookup t <;> rfl
              rw [ih hrest d2]
              constructor
              · intro hall
                intro pr' hp' ent hent
                rcases List.mem_cons.mp hp' with he | he
                · subst he
                  have hnone : (resolveQueueSt pr'.1 (pr'.2 p) d).1 = none := by
                    rw [hq]
                  rw [resolveQueueSt_none_iff pr'.1 hpr (pr'.2 p) d] at hnone
                  exact hnone ent hent
                · have := hall pr' he ent hent
                  rw [hinv] at this
                  exact this
              · intro hall pr' hp' ent hent
                rw [hinv]
                exact hall pr' (List.mem_cons_of_mem _ hp') ent hent

theorem chainRun_err_dangling (L : List QueueSpec) (p : PendingRefs) :
    ∀ d err, (chainRun L p (none, d)).1 = some err →
      ∃ t, err = .xmlParsingUnresolvedReference t := by
  induction L with
  | nil =>
      intro d err h
      rw [chainRun_nil] at h
      simp at h
  | cons pr L ih =>
      intro d err h
      rw [chainRun_cons] at h
      rw [show resolveChain (none, d) (resolveQueueSt pr.1 (pr.2 p))
          = resolveQueueSt pr.1 (pr.2 p) d from rfl] at h
      cases hq : resolveQueueSt pr.1 (pr.2 p) d with
      | mk oe d2 =>
          rw [hq] at h
          cases oe with
          | some er2 =>
              rw [chainRun_err_absorb L p er2 d2] at h
              injection h with h1
              rw [← h1]
              have hfst : (resolveQueueSt pr.1 (pr.2 p) d).1 = some er2 := by rw [hq]
              exact resolveQueueSt_err_dangling pr.1 (pr.2 p) d er2 hfst
          | none => exact ih d2 err h

/-- C3: after an error-free ingestion pass over the top-level children, if
some pending reference's target identifier is absent from the ingested
document then the parse fails with the dangling-reference
(unresolved-reference) error; if every target is present the parse succeeds,
and each element of the returned graph is its ingested form with the
resolution pass applied: every queue's attachments for that element, in the
fixed queue-processing order and, within a queue, in enqueue order
(single-valued roles overwrite, multi-valued roles append). -/
theorem c3_dangling_reference_resolution (ns : List Node) (dest : Document) (st : ParserState)
    (hin : ingestChildrenSt ns { document := dest } = (none, st)) :
    (allTargetsPresent st = false →
       isDanglingResult (XmlParser.parse true (some (afeNode ns)) dest) = true)
    ∧ (allTargetsPresent st = true →
       ∀ i, (XmlParser.parse true (some (afeNode ns)) dest).map
            (fun g => g.lookup i)
          = .ok ((st.document.lookup i).map (applyPending st.pending i))) := by
  have hp : XmlParser.parse true (some (afeNode ns)) dest
      = (match resolveAllSt st with
         | (some er, _) => Except.error er
         | (none, d) => Except.ok d) := by
    unfold XmlParser.parse
    show (match ingestChildrenSt ns { document := dest } with
      | (some er, st') => (Except.error er, st'.document)
      | (none, st') =>
          match resolveAllSt st' with
          | (some er, d) => (Except.error er, d)
          | (none, d) => (Except.ok d, d)).1 = _
    rw [hin]
    show (match resolveAllSt st with
      | (some er, d) => (Except.error er, d)
      | (none, d) => (Except.ok d, d)).1 = _
    cases hr : resolveAllSt st with
    | mk oe d => cases oe <;> rfl
  have hconv : allTargetsPresent st = true ↔
      (∀ pr ∈ queueOrder, ∀ ent ∈ (pr.2 : PendingRefs → List (Ident × Ident)) st.pending,
        (st.document.lookup ent.2).isSome = true) := by
    unfold allTargetsPresent Document.containsId
    simp [List.all_eq_true]
  have hiff := chainRun_none_iff queueOrder queueOrder_preserves st.pending st.document
  constructor
  · intro hfalse
    cases hr : resolveAllSt st with
    | mk oe d =>
        cases oe with
        | none =>
            exfalso
            have h1 : (chainRun queueOrder st.pending (none, st.document)).1 = none := by
              rw [show chainRun queueOrder st.pending (none, st.document)
                  = resolveAllSt st from rfl, hr]
            rw [hiff] at h1
            rw [← hconv] at h1
            rw [h1] at hfalse
            exact absurd hfalse (by decide)
        | some err =>
            have h1 : (chainRun queueOrder st.pending (none, st.document)).1 = some err := by
              rw [show chainRun queueOrder st.pending (none, st.document)
                  = resolveAllSt st from rfl, hr]
            obtain ⟨t, ht⟩ := chainRun_err_dangling queueOrder st.pending st.document err h1
            rw [hp, hr, ht]
            rfl
  · intro htrue i
    cases hr : resolveAllSt st with
    | mk oe d =>
        cases oe with
        | some err =>
            exfalso
            have h1 : (chainRun queueOrder st.pending (none, st.document)).1 = some err := by
              rw [show chainRun queueOrder st.pending (none, st.document)
                  = resolveAllSt st from rfl, hr]
            rw [hconv] at htrue
            have h2 := hiff.mpr htrue
            rw [h1] at h2
            exact absurd h2 (by simp)
        | none =>
            have hchar := chainRun_ok_char queueOrder queueOrder_preserves st.pending
              st.document d (by
                rw [show chainRun queueOrder st.pending (none, st.document)
                    = resolveAllSt st from rfl, hr]) i
            rw [hp, hr]
            show Except.ok (d.lookup i) = _
            rw [hchar]
            rfl


/-- Witness for C3: the Object whose `audioPackFormatIDRef` names an absent
PackFormat makes the parse fail with the dangling-reference error; adding
that PackFormat after the Object makes the parse succeed and attach the
resolved PackFormat reference to the Object. -/
theorem c3_dangling_reference_resolution_witness :
    (ingestChildrenSt danglingDoc.children { document := {} } = (none, stDangling)
      ∧ allTargetsPresent stDangling = false
      ∧ isDanglingResult (XmlParser.parse true (some danglingDoc) {}) = true)
    ∧ (ingestChildrenSt presentDoc.children { document := {} } = (none, stPresent)
      ∧ allTargetsPresent stPresent = true
      ∧ (XmlParser.parse true (some presentDoc) {}).map (fun g => g.lookup identA)
          = .ok ((stPresent.document.lookup identA).map
              (applyPending stPresent.pending identA))
      ∧ ((stPresent.document.lookup identA).map
            (applyPending stPresent.pending identA)).map (fun e => e.resolved)
          = some [(RefRole.objectPackFormat, identPack)]) :=
  ⟨⟨by decide, by decide,
      (c3_dangling_reference_resolution danglingDoc.children {} stDangling
        (by decide)).1 (by decide)⟩,
    ⟨by decide, by decide,
      (c3_dangling_reference_resolution presentDoc.children {} stPresent
        (by decide)).2 (by decide) identA,
      by decide⟩⟩

theorem mapM_pair_src (sid : Ident) (p : String → Except ParseError Ident) :
    ∀ (L : List Node) (l : List (Ident × Ident)),
      L.mapM (fun c => (p c.value).map (fun t => (sid, t))) = .ok l →
      ∀ ent ∈ l, ent.1 = sid := by
  intro L
  induction L with
  | nil =>
      intro l h ent hent
      rw [List.mapM_nil] at h
      injection h with h1
      subst h1
      simp at hent
  | cons x xs ih =>
      intro l h ent hent
      rw [List.mapM_cons] at h
      rw [bind_ok_iff] at h
      obtain ⟨y, hy, h⟩ := h
      rw [bind_ok_iff] at h
      obtain ⟨ys, hys, h⟩ := h
      injection h with h1
      subst h1
      cases hent with
      | head =>
          cases hpx : p x.value with
          | error er => rw [hpx] at hy; simp [Except.map] at hy
          | ok t =>
              rw [hpx] at hy
              injection hy with hy1
              rw [← hy1]
      | tail _ hmem => exact ih ys hys ent hmem

theorem addOptionalReferences_src (node : Node) (nm : String) (sid : Ident)
    (p : String → Except ParseError Ident) (l : List (Ident × Ident))
    (h : addOptionalReferences node nm sid p = .ok l) :
    ∀ ent ∈ l, ent.1 = sid :=
  mapM_pair_src sid p (node.findElements nm) l h

theorem setOptionalReference_src (node : Node) (nm : String) (sid : Ident)
    (p : String → Except ParseError Ident) (l : List (Ident × Ident))
    (h : setOptionalReference node nm sid p = .ok l) :
    ∀ ent ∈ l, ent.1 = sid := by
  unfold setOptionalReference at h
  cases hf : node.findElement nm with
  | none =>
      rw [hf] at h
      injection h with h1
      subst h1
      intro ent hent
      simp at hent
  | some c =>
      rw [hf] at h
      simp only [] at h
      cases hpc : p c.value with
      | error er => rw [hpc] at h; simp [Except.map] at h
      | ok t =>
          rw [hpc] at h
          injection h with h1
          subst h1
          intro ent hent
          simp at hent
          rw [hent]

theorem setCommonProperties_src (n : Node) (i : Ident) (e0 e1 : Element)
    (q : PendingRefs) (h : setCommonProperties n i e0 = .ok (e1, q)) :
    ∀ pr ∈ queueOrder,
      ∀ ent ∈ (pr.2 : PendingRefs → List (Ident × Ident)) q, ent.1 = i := by
  unfold setCommonProperties at h
  simp only [] at h
  rw [bind_ok_iff] at h
  obtain ⟨qc, hqc, h⟩ := h
  rw [bind_ok_iff] at h
  obtain ⟨qp, hqp, h⟩ := h
  injection h with hp
  injection hp with h1 h2
  intro pr hpr
  fin_cases hpr <;> intro ent hent <;> rw [← h2] at hent <;>
    first
      | exact absurd hent (List.not_mem_nil ent)
      | exact addOptionalReferences_src n _ i _ qc hqc ent hent
      | exact addOptionalReferences_src n _ i _ qp hqp ent hent

theorem parseAudioProgramme_src (d : Document) (n : Node) (e : Element)
    (q : PendingRefs) (h : parseAudioProgramme d n = .ok (e, q)) :
    ∀ pr ∈ queueOrder,
      ∀ ent ∈ (pr.2 : PendingRefs → List (Ident × Ident)) q, ent.1 = e.id := by
  unfold parseAudioProgramme at h
  rw [bind_ok_iff] at h
  obtain ⟨nm, hnm, h⟩ := h
  rw [bind_ok_iff] at h
  obtain ⟨i, hi, h⟩ := h
  by_cases h0 : d.containsId i = true
  · rw [if_pos h0] at h
    exact absurd h (by simp)
  · rw [if_neg h0] at h
    simp only [] at h
    rw [bind_ok_iff] at h
    obtain ⟨_, _, h⟩ := h
    rw [bind_ok_iff] at h
    obtain ⟨qc, hqc, h⟩ := h
    rw [bind_ok_iff] at h
    obtain ⟨_, _, h⟩ := h
    injection h with hp
    injection hp with h1 h2
    intro pr hpr
    fin_cases hpr <;> intro ent hent <;> rw [← h2] at hent <;>
      first
        | exact absurd hent (List.not_mem_nil ent)
        | (rw [← h1]; exact addOptionalReferences_src n _ i _ qc hqc ent hent)

theorem parseAudioContent_src (d : Document) (n : Node) (e : Element)
    (q : PendingRefs) (h : parseAudioContent d n = .ok (e, q)) :
    ∀ pr ∈ queueOrder,
      ∀ ent ∈ (pr.2 : PendingRefs → List (Ident × Ident)) q, ent.1 = e.id := by
  unfold parseAudioContent at h
  rw [bind_ok_iff] at h
  obtain ⟨nm, hnm, h⟩ := h
  rw [bind_ok_iff] at h
  obtain ⟨i, hi, h⟩ := h
  by_cases h0 : d.containsId i = true
  · rw [if_pos h0] at h
    exact absurd h (by simp)
  · rw [if_neg h0] at h
    simp only [] at h
    rw [bind_ok_iff] at h
    obtain ⟨_, _, h⟩ := h
    rw [bind_ok_iff] at h
    obtain ⟨_, _, h⟩ := h
    rw [bind_ok_iff] at h
    obtain ⟨qc, hqc, h⟩ := h
    rw [bind_ok_iff] at h
    obtain ⟨_, _, h⟩ := h
    injection h with hp
    injection hp with h1 h2
    intro pr hpr
    fin_cases hpr <;> intro ent hent <;> rw [← h2] at hent <;>
      first
        | exact absurd hent (List.not_mem_nil ent)
        | (rw [← h1]; exact addOptionalReferences_src n _ i _ qc hqc ent hent)

theorem parseAudioObject_src (d : Document) (n : Node) (e : Element)
    (q : PendingRefs) (h : parseAudioObject d n = .ok (e, q)) :
    ∀ pr ∈ queueOrder,
      ∀ ent ∈ (pr.2 : PendingRefs → List (Ident × Ident)) q, ent.1 = e.id := by
  unfold parseAudioObject at h
  rw [bind_ok_iff] at h
  obtain ⟨nm, hnm, h⟩ := h
  rw [bind_ok_iff] at h
  obtain ⟨i, hi, h⟩ := h
  by_cases h0 : d.containsId i = true
  · rw [if_pos h0] at h
    exact absurd h (by simp)
  · rw [if_neg h0] at h
    simp only [] at h
    rw [bind_ok_iff] at h
    obtain ⟨qo, hqo, h⟩ := h
    rw [bind_ok_iff] at h
    obtain ⟨qp, hqp, h⟩ := h
    rw [bind_ok_iff] at h
    obtain ⟨qu, hqu, h⟩ := h
    rw [bind_ok_iff] at h
    obtain ⟨_, _, h⟩ := h
    rw [bind_ok_iff] at h
    obtain ⟨_, _, h⟩ := h
    rw [bind_ok_iff] at h
    obtain ⟨_, _, h⟩ := h
    rw [bind_ok_iff] at h
    obtain ⟨_, _, h⟩ := h
    rw [bind_ok_iff] at h
    obtain ⟨_, _, h⟩ := h
    injection h with hp
    injection hp with h1 h2
    intro pr hpr
    fin_cases hpr <;> intro ent hent <;> rw [← h2] at hent <;>
      first
        | exact absurd hent (List.not_mem_nil ent)
        | (rw [← h1]; exact addOptionalReferences_src n _ i _ qo hqo ent hent)
        | (rw [← h1]; exact addOptionalReferences_src n _ i _ qp hqp ent hent)
        | (rw [← h1]; exact addOptionalReferences_src n _ i _ qu hqu ent hent)

theorem parseAudioTrackUid_src (d : Document) (n : Node) (e : Element)
    (q : PendingRefs) (h : parseAudioTrackUid d n = .ok (e, q)) :
    ∀ pr ∈ queueOrder,
      ∀ ent ∈ (pr.2 : PendingRefs → List (Ident × Ident)) q, ent.1 = e.id := by
  unfold parseAudioTrackUid at h
  rw [bind_ok_iff] at h
  obtain ⟨i, hi, h⟩ := h
  by_cases h0 : d.containsId i = true
  · rw [if_pos h0] at h
    exact absurd h (by simp)
  · rw [if_neg h0] at h
    (try simp only [] at h)
    rw [bind_ok_iff] at h
    obtain ⟨qc, hqc, h⟩ := h
    rw [bind_ok_iff] at h
    obtain ⟨qt, hqt, h⟩ := h
    rw [bind_ok_iff] at h
    obtain ⟨qp, hqp, h⟩ := h
    injection h with hp
    injection hp with h1 h2
    intro pr hpr
    fin_cases hpr <;> intro ent hent <;> rw [← h2] at hent <;>
      first
        | exact absurd hent (List.not_mem_nil ent)
        | (rw [← h1]; exact setOptionalReference_src n _ i _ qc hqc ent hent)
        | (rw [← h1]; exact setOptionalReference_src n _ i _ qt hqt ent hent)
        | (rw [← h1]; exact setOptionalReference_src n _ i _ qp hqp ent hent)

theorem parseAudioStreamFormat_src (d : Document) (n : Node) (e : Element)
    (q : PendingRefs) (h : parseAudioStreamFormat d n = .ok (e, q)) :
    ∀ pr ∈ queueOrder,
      ∀ ent ∈ (pr.2 : PendingRefs → List (Ident × Ident)) q, ent.1 = e.id := by
  unfold parseAudioStreamFormat at h
  rw [bind_ok_iff] at h
  obtain ⟨nm, hnm, h⟩ := h
  rw [bind_ok_iff] at h
  obtain ⟨i, hi, h⟩ := h
  by_cases h0 : d.containsId i = true
  · rw [if_pos h0] at h
    exact absurd h (by simp)
  · rw [if_neg h0] at h
    rw [bind_ok_iff] at h
    obtain ⟨_, _, h⟩ := h
    rw [bind_ok_iff] at h
    obtain ⟨_, _, h⟩ := h
    rw [bind_ok_iff] at h
    obtain ⟨_, _, h⟩ := h
    rw [bind_ok_iff] at h
    obtain ⟨qc, hqc, h⟩ := h
    rw [bind_ok_iff] at h
    obtain ⟨qp, hqp, h⟩ := h
    rw [bind_ok_iff] at h
    obtain ⟨qt, hqt, h⟩ := h
    injection h with hp
    injection hp with h1 h2
    intro pr hpr
    fin_cases hpr <;> intro ent hent <;> rw [← h2] at hent <;>
      first
        | exact absurd hent (List.not_mem_nil ent)
        | (rw [← h1]; exact setOptionalReference_src n _ i _ qc hqc ent hent)
        | (rw [← h1]; exact setOptionalReference_src n _ i _ qp hqp ent hent)
        | (rw [← h1]; exact addOptionalReferences_src n _ i _ qt hqt ent hent)

theorem parseAudioTrackFormat_src (d : Document) (n : Node) (e : Element)
    (q : PendingRefs) (h : parseAudioTrackFormat d n = .ok (e, q)) :
    ∀ pr ∈ queueOrder,
      ∀ ent ∈ (pr.2 : PendingRefs → List (Ident × Ident)) q, ent.1 = e.id := by
  unfold parseAudioTrackFormat at h
  rw [bind_ok_iff] at h
  obtain ⟨nm, hnm, h⟩ := h
  rw [bind_ok_iff] at h
  obtain ⟨i, hi, h⟩ := h
  by_cases h0 : d.containsId i = true
  · rw [if_pos h0] at h
    exact absurd h (by simp)
  · rw [if_neg h0] at h
    rw [bind_ok_iff] at h
    obtain ⟨_, _, h⟩ := h
    rw [bind_ok_iff] at h
    obtain ⟨_, _, h⟩ := h
    rw [bind_ok_iff] at h
    obtain ⟨_, _, h⟩ := h
    rw [bind_ok_iff] at h
    obtain ⟨qs, hqs, h⟩ := h
    injection h with hp
    injection hp with h1 h2
    intro pr hpr
    fin_cases hpr <;> intro ent hent <;> rw [← h2] at hent <;>
      first
        | exact absurd hent (List.not_mem_nil ent)
        | (rw [← h1]; exact setOptionalReference_src n _ i _ qs hqs ent hent)

theorem parseAudioChannelFormat_src (d : Document) (n : Node) (e : Element)
    (q : PendingRefs) (h : parseAudioChannelFormat d n = .ok (e, q)) :
    ∀ pr ∈ queueOrder,
      ∀ ent ∈ (pr.2 : PendingRefs → List (Ident × Ident)) q, ent.1 = e.id := by
  unfold parseAudioChannelFormat at h
  rw [bind_ok_iff] at h
  obtain ⟨nm, hnm, h⟩ := h
  rw [bind_ok_iff] at h
  obtain ⟨i, hi, h⟩ := h
  by_cases h0 : d.containsId i = true
  · rw [if_pos h0] at h
    exact absurd h (by simp)
  · rw [if_neg h0] at h
    (try simp only [] at h)
    rw [bind_ok_iff] at h
    obtain ⟨_, _, h⟩ := h
    rw [bind_ok_iff] at h
    obtain ⟨_, _, h⟩ := h
    rw [bind_ok_iff] at h
    obtain ⟨_, _, h⟩ := h
    rw [bind_ok_iff] at h
    obtain ⟨_, _, h⟩ := h
    have hq : ({} : PendingRefs) = q := by
      by_cases h1 : i.typeDescriptor = TypeDefinition.DIRECT_SPEAKERS
      · rw [if_pos h1] at h
        rw [bind_ok_iff] at h
        obtain ⟨_, _, h⟩ := h
        injection h with hp
        injection hp with ha hb
      · rw [if_neg h1] at h
        by_cases h2 : i.typeDescriptor = TypeDefinition.MATRIX
        · rw [if_pos h2] at h
          rw [bind_ok_iff] at h
          obtain ⟨_, _, h⟩ := h
          injection h with hp
          injection hp with ha hb
        · rw [if_neg h2] at h
          by_cases h3 : i.typeDescriptor = TypeDefinition.OBJECTS
          · rw [if_pos h3] at h
            rw [bind_ok_iff] at h
            obtain ⟨_, _, h⟩ := h
            injection h with hp
            injection hp with ha hb
          · rw [if_neg h3] at h
            by_cases h4 : i.typeDescriptor = TypeDefinition.HOA
            · rw [if_pos h4] at h
              rw [bind_ok_iff] at h
              obtain ⟨_, _, h⟩ := h
              injection h with hp
              injection hp with ha hb
            · rw [if_neg h4] at h
              by_cases h5 : i.typeDescriptor = TypeDefinition.BINAURAL
              · rw [if_pos h5] at h
                rw [bind_ok_iff] at h
                obtain ⟨_, _, h⟩ := h
                injection h with hp
                injection hp with ha hb
              · rw [if_neg h5] at h
                rw [bind_ok_iff] at h
                obtain ⟨_, _, h⟩ := h
                injection h with hp
                injection hp with ha hb
    intro pr hpr
    fin_cases hpr <;> intro ent hent <;> rw [← hq] at hent <;>
      exact absurd hent (List.not_mem_nil ent)

theorem parseAudioPackFormat_src (d : Document) (n : Node) (e : Element)
    (q : PendingRefs) (h : parseAudioPackFormat d n = .ok (e, q)) :
    ∀ pr ∈ queueOrder,
      ∀ ent ∈ (pr.2 : PendingRefs → List (Ident × Ident)) q, ent.1 = e.id := by
  unfold parseAudioPackFormat at h
  rw [bind_ok_iff] at h
  obtain ⟨nm, hnm, h⟩ := h
  rw [bind_ok_iff] at h
  obtain ⟨i, hi, h⟩ := h
  by_cases h0 : d.containsId i = true
  · rw [if_pos h0] at h
    exact absurd h (by simp)
  · rw [if_neg h0] at h
    (try simp only [] at h)
    rw [bind_ok_iff] at h
    obtain ⟨_, _, h⟩ := h
    rw [bind_ok_iff] at h
    obtain ⟨_, _, h⟩ := h
    rw [bind_ok_iff] at h
    obtain ⟨_, _, h⟩ := h
    by_cases hta : i.typeDescriptor = TypeDefinition.HOA
    · rw [if_pos hta] at h
      rw [bind_ok_iff] at h
      obtain ⟨pq, hpq, h⟩ := h
      obtain ⟨pe, pqq⟩ := pq
      have hpe := setCommonProperties_id n i _ pe pqq hpq
      have hsrc := setCommonProperties_src n i _ pe pqq hpq
      injection h with hp
      injection hp with h1 h2
      intro pr hpr
      intro ent hent
      rw [← h2] at hent
      rw [← h1]
      show ent.1 = pe.id
      rw [hpe]
      exact hsrc pr hpr ent hent
    · rw [if_neg hta] at h
      have hpe := setCommonProperties_id n i _ e q h
      have hsrc := setCommonProperties_src n i _ e q h
      intro pr hpr ent hent
      rw [hpe]
      exact hsrc pr hpr ent hent

theorem dispatchNode_src (d : Document) (n : Node) (e : Element)
    (q : PendingRefs) (h : dispatchNode d n = .ok (some (e, q))) :
    ∀ pr ∈ queueOrder,
      ∀ ent ∈ (pr.2 : PendingRefs → List (Ident × Ident)) q, ent.1 = e.id := by
  unfold dispatchNode at h
  by_cases h1 : n.name = "audioProgramme"
  · rw [if_pos h1] at h
    exact parseAudioProgramme_src d n e q (emap_some_ok _ _ h)
  · rw [if_neg h1] at h
    by_cases h2 : n.name = "audioContent"
    · rw [if_pos h2] at h
      exact parseAudioContent_src d n e q (emap_some_ok _ _ h)
    · rw [if_neg h2] at h
      by_cases h3 : n.name = "audioObject"
      · rw [if_pos h3] at h
        exact parseAudioObject_src d n e q (emap_some_ok _ _ h)
      · rw [if_neg h3] at h
        by_cases h4 : n.name = "audioTrackUID"
        · rw [if_pos h4] at h
          exact parseAudioTrackUid_src d n e q (emap_some_ok _ _ h)
        · rw [if_neg h4] at h
          by_cases h5 : n.name = "audioPackFormat"
          · rw [if_pos h5] at h
            exact parseAudioPackFormat_src d n e q (emap_some_ok _ _ h)
          · rw [if_neg h5] at h
            by_cases h6 : n.name = "audioChannelFormat"
            · rw [if_pos h6] at h
              exact parseAudioChannelFormat_src d n e q (emap_some_ok _ _ h)
            · rw [if_neg h6] at h
              by_cases h7 : n.name = "audioStreamFormat"
              · rw [if_pos h7] at h
                exact parseAudioStreamFormat_src d n e q (emap_some_ok _ _ h)
              · rw [if_neg h7] at h
                by_cases h8 : n.name = "audioTrackFormat"
                · rw [if_pos h8] at h
                  exact parseAudioTrackFormat_src d n e q (emap_some_ok _ _ h)
                · rw [if_neg h8] at h
                  exact absurd h (by simp)

theorem queueOrder_append : ∀ pr ∈ queueOrder, ∀ p q : PendingRefs,
    (pr.2 : PendingRefs → List (Ident × Ident)) (p.append q) = pr.2 p ++ pr.2 q := by
  intro pr hpr
  fin_cases hpr <;> intro p q <;> rfl

theorem queueOrder_empty : ∀ pr ∈ queueOrder,
    (pr.2 : PendingRefs → List (Ident × Ident)) {} = [] := by
  intro pr hpr
  fin_cases hpr <;> rfl

theorem containsId_addEl (d : Document) (x : Element) (i : Ident) :
    (d.addEl x).containsId i = (d.containsId i || decide (x.id = i)) := by
  obtain ⟨l⟩ := d
  unfold Document.addEl Document.containsId Document.lookup
  simp only []
  induction l with
  | nil => cases hdec : decide (x.id = i) <;> simp [List.find?, hdec]
  | cons a rest ih =>
      by_cases ha : a.id = i
      · simp [List.find?_cons_of_pos, ha]
      · rw [show ((a :: rest) ++ [x]) = a :: (rest ++ [x]) from rfl]
        rw [List.find?_cons_of_neg _ (by simpa using ha),
          List.find?_cons_of_neg _ (by simpa using ha)]
        exact ih

theorem dispatch_ok_some (d : Document) (n : Node) (e : Element)
    (q : PendingRefs) (h : dispatchNode d n = .ok (some (e, q))) :
    nodeResult n = .ok (some (e, q)) ∧ d.containsId e.id = false := by
  have hall := dispatchNode_dup d n e q h
  constructor
  · show dispatchNode (Document.mk []) n = _
    rw [hall (Document.mk [])]
    rfl
  · by_cases hd : d.containsId e.id = true
    · have hcontr := hall d
      rw [if_pos hd] at hcontr
      rw [h] at hcontr
      exact absurd hcontr (by simp)
    · simp at hd
      exact hd

theorem dispatch_ok_none (d : Document) (n : Node)
    (h : dispatchNode d n = .ok none) : nodeResult n = .ok none := by
  show dispatchNode (Document.mk []) n = _
  unfold dispatchNode at h ⊢
  by_cases h1 : n.name = "audioProgramme"
  · rw [if_pos h1] at h
    exfalso
    cases hr : parseAudioProgramme d n <;> rw [hr] at h <;> simp [Except.map] at h
  · rw [if_neg h1] at h ⊢
    by_cases h2 : n.name = "audioContent"
    · rw [if_pos h2] at h
      exfalso
      cases hr : parseAudioContent d n <;> rw [hr] at h <;> simp [Except.map] at h
    · rw [if_neg h2] at h ⊢
      by_cases h3 : n.name = "audioObject"
      · rw [if_pos h3] at h
        exfalso
        cases hr : parseAudioObject d n <;> rw [hr] at h <;> simp [Except.map] at h
      · rw [if_neg h3] at h ⊢
        by_cases h4 : n.name = "audioTrackUID"
        · rw [if_pos h4] at h
          exfalso
          cases hr : parseAudioTrackUid d n <;> rw [hr] at h <;> simp [Except.map] at h
        · rw [if_neg h4] at h ⊢
          by_cases h5 : n.name = "audioPackFormat"
          · rw [if_pos h5] at h
            exfalso
            cases hr : parseAudioPackFormat d n <;> rw [hr] at h <;> simp [Except.map] at h
          · rw [if_neg h5] at h ⊢
            by_cases h6 : n.name = "audioChannelFormat"
            · rw [if_pos h6] at h
              exfalso
              cases hr : parseAudioChannelFormat d n <;> rw [hr] at h <;> simp [Except.map] at h
            · rw [if_neg h6] at h ⊢
              by_cases h7 : n.name = "audioStreamFormat"
              · rw [if_pos h7] at h
                exfalso
                cases hr : parseAudioStreamFormat d n <;> rw [hr] at h <;> simp [Except.map] at h
              · rw [if_neg h7] at h ⊢
                by_cases h8 : n.name = "audioTrackFormat"
                · rw [if_pos h8] at h
                  exfalso
                  cases hr : parseAudioTrackFormat d n <;> rw [hr] at h <;> simp [Except.map] at h
                · rw [if_neg h8] at h ⊢

theorem ingestStep_ok_inv (st st2 : ParserState) (n : Node)
    (h : ingestStep st n = .ok st2) :
    (dispatchNode st.document n = .ok none ∧ st2 = st)
    ∨ ∃ e c, dispatchNode st.document n = .ok (some (e, c))
        ∧ st2 = { document := st.document.addEl e
                  pending := st.pending.append c } := by
  unfold ingestStep at h
  cases hd : dispatchNode st.document n with
  | error er =>
      rw [hd] at h
      exact absurd h (by simp [Bind.bind, Except.bind])
  | ok r =>
      rw [hd, ebind_ok] at h
      cases r with
      | none =>
          exact Or.inl ⟨rfl, (Except.ok.inj h).symm⟩
      | some ec =>
          obtain ⟨e, c⟩ := ec
          exact Or.inr ⟨e, c, rfl, (Except.ok.inj h).symm⟩

theorem ingest_ok_decomp (ns : List Node) : ∀ st0 st,
    ingestChildrenSt ns st0 = (none, st) →
    st.document.elems = st0.document.elems ++ ns.filterMap elemOf
    ∧ (∀ pr ∈ queueOrder, (pr.2 : PendingRefs → List (Ident × Ident)) st.pending
        = pr.2 st0.pending ++ ns.flatMap (fun n => contribOf pr.2 n))
    ∧ ((ns.filterMap elemOf).map Element.id).Nodup
    ∧ (∀ e ∈ ns.filterMap elemOf, st0.document.containsId e.id = false) := by
  induction ns with
  | nil =>
      intro st0 st h
      injection h with h1 h2
      subst h2
      refine ⟨by simp, ?_, by simp, by simp⟩
      intro pr hpr
      simp
  | cons n ns ih =>
      intro st0 st h
      cases hstep : ingestStep st0 n with
      | error er =>
          rw [show ingestChildrenSt (n :: ns) st0
              = match ingestStep st0 n with
                | .error e => (some e, st0)
                | .ok st' => ingestChildrenSt ns st' from rfl, hstep] at h
          injection h with h1 h2
          exact absurd h1 (by simp)
      | ok st1 =>
          rw [show ingestChildrenSt (n :: ns) st0
              = match ingestStep st0 n with
                | .error e => (some e, st0)
                | .ok st' => ingestChildrenSt ns st' from rfl, hstep] at h
          obtain ⟨hel, hpend, hnd, hfresh⟩ := ih st1 st h
          rcases ingestStep_ok_inv st0 st1 n hstep with
            ⟨hdisp, hst1⟩ | ⟨e, c, hdisp, hst1⟩
          · have hnr : nodeResult n = .ok none := dispatch_ok_none _ _ hdisp
            have helemOf : elemOf n = none := by unfold elemOf; rw [hnr]
            have hcontrib : ∀ sel, contribOf sel n = [] := by
              intro sel; unfold contribOf; rw [hnr]
            subst hst1
            refine ⟨?_, ?_, ?_, ?_⟩
            · rw [hel]
              simp [List.filterMap_cons, helemOf]
            · intro pr hpr
              rw [hpend pr hpr]
              simp [List.flatMap_cons, hcontrib]
            · simpa [List.filterMap_cons, helemOf] using hnd
            · intro x hx
              apply hfresh
              simpa [List.filterMap_cons, helemOf] using hx
          · have hds := dispatch_ok_some st0.document n e c hdisp
            have helemOf : elemOf n = some e := by unfold elemOf; rw [hds.1]
            have hcontrib : ∀ sel, contribOf sel n = sel c := by
              intro sel; unfold contribOf; rw [hds.1]
            have hfresh2 : ∀ x ∈ ns.filterMap elemOf,
                st0.document.containsId x.id = false ∧ decide (e.id = x.id) = false := by
              intro x hx
              have hf := hfresh x hx
              rw [hst1] at hf
              simp only [] at hf
              rw [containsId_addEl] at hf
              exact ⟨by cases hc : st0.document.containsId x.id <;>
                       simp [hc] at hf ⊢,
                     by cases hc : decide (e.id = x.id) <;> simp [hc] at hf ⊢⟩
            refine ⟨?_, ?_, ?_, ?_⟩
            · rw [hel, hst1]
              show (st0.document.addEl e).elems ++ _ = _
              unfold Document.addEl
              simp [List.filterMap_cons, helemOf]
            · intro pr hpr
              rw [hpend pr hpr, hst1]
              show (pr.2 : PendingRefs → List (Ident × Ident))
                  (st0.pending.append c) ++ _ = _
              rw [queueOrder_append pr hpr]
              simp [List.flatMap_cons, hcontrib]
            · rw [List.filterMap_cons, helemOf]
              simp only [List.map_cons]
              rw [List.nodup_cons]
              refine ⟨?_, hnd⟩
              intro hmem
              rw [List.mem_map] at hmem
              obtain ⟨x, hx, hxid⟩ := hmem
              have := (hfresh2 x hx).2
              rw [hxid] at this
              simp at this
            · intro x hx
              rw [List.filterMap_cons, helemOf] at hx
              cases hx with
              | head => exact hds.2
              | tail _ hmem => exact (hfresh2 x hmem).1

theorem find_perm_key {α : Type} (key : α → Option Ident) (i : Ident)
    (l l2 : List α) (hp : l.Perm l2) :
    (l.filterMap key).Nodup →
    l.find? (fun a => key a = some i) = l2.find? (fun a => key a = some i) := by
  induction hp with
  | nil => intro hn; rfl
  | cons x hp ih =>
      intro hn
      by_cases hx : key x = some i
      · rw [List.find?_cons_of_pos _ (by simpa using hx),
          List.find?_cons_of_pos _ (by simpa using hx)]
      · rw [List.find?_cons_of_neg _ (by simpa using hx),
          List.find?_cons_of_neg _ (by simpa using hx)]
        apply ih
        rw [List.filterMap_cons] at hn
        cases hk : key x with
        | none => rw [hk] at hn; exact hn
        | some v =>
            rw [hk] at hn
            exact hn.of_cons
  | swap x y l =>
      intro hn
      by_cases hx : key x = some i <;> by_cases hy : key y = some i
      · exfalso
        simp [List.filterMap_cons, hx, hy, List.nodup_cons] at hn
      · rw [List.find?_cons_of_neg _ (by simpa using hy),
          List.find?_cons_of_pos _ (by simpa using hx),
          List.find?_cons_of_pos _ (by simpa using hx)]
      · rw [List.find?_cons_of_pos _ (by simpa using hy),
          List.find?_cons_of_neg _ (by simpa using hx),
          List.find?_cons_of_pos _ (by simpa using hy)]
      · rw [List.find?_cons_of_neg _ (by simpa using hy),
          List.find?_cons_of_neg _ (by simpa using hx),
          List.find?_cons_of_neg _ (by simpa using hx),
          List.find?_cons_of_neg _ (by simpa using hy)]
  | trans hp1 hp2 ih1 ih2 =>
      intro hn
      rw [ih1 hn, ih2 ((hp1.filterMap key).nodup hn)]

theorem filter_flat_nil (f : Node → List (Ident × Ident)) (i : Ident) :
    ∀ (l : List Node),
      (∀ n ∈ l, ∀ ent ∈ f n, some ent.1 = elemIdOf n) →
      (∀ n ∈ l, ¬ elemIdOf n = some i) →
      (l.flatMap f).filter (fun ent => ent.1 = i) = [] := by
  intro l
  induction l with
  | nil => intro _ _; rfl
  | cons n l ih =>
      intro hsrc hno
      rw [List.flatMap_cons, List.filter_append]
      rw [ih (fun m hm => hsrc m (List.mem_cons_of_mem _ hm))
          (fun m hm => hno m (List.mem_cons_of_mem _ hm))]
      rw [List.append_nil]
      rw [List.filter_eq_nil_iff]
      intro ent hent
      have h1 := hsrc n (List.mem_cons_self _ _) ent hent
      have h2 := hno n (List.mem_cons_self _ _)
      simp only [decide_eq_true_eq]
      intro heq
      exact h2 (by rw [← h1, heq])

theorem targets_flat (f : Node → List (Ident × Ident)) (i : Ident) :
    ∀ (l : List Node),
      (∀ n ∈ l, ∀ ent ∈ f n, some ent.1 = elemIdOf n) →
      (l.filterMap elemIdOf).Nodup →
      (l.flatMap f).filter (fun ent => ent.1 = i)
        = (match l.find? (fun n => elemIdOf n = some i) with
           | some n => f n
           | none => []) := by
  intro l
  induction l with
  | nil => intro _ _; rfl
  | cons n l ih =>
      intro hsrc hnd
      rw [List.flatMap_cons, List.filter_append]
      by_cases hn0 : elemIdOf n = some i
      · rw [List.find?_cons_of_pos _ (by simpa using hn0)]
        have htail : ∀ m ∈ l, ¬ elemIdOf m = some i := by
          intro m hm heq
          simp only [List.filterMap_cons, hn0, List.nodup_cons] at hnd
          exact hnd.1 (List.mem_filterMap.mpr ⟨m, hm, heq⟩)
        rw [filter_flat_nil f i l (fun m hm => hsrc m (List.mem_cons_of_mem _ hm)) htail]
        rw [List.append_nil]
        show (f n).filter (fun ent => ent.1 = i) = f n
        rw [List.filter_eq_self]
        intro ent hent
        have h1 := hsrc n (List.mem_cons_self _ _) ent hent
        simp only [decide_eq_true_eq]
        have : some ent.1 = some i := by rw [h1, hn0]
        injection this
      · rw [List.find?_cons_of_neg _ (by simpa using hn0)]
        have hfn : (f n).filter (fun ent => ent.1 = i) = [] := by
          rw [List.filter_eq_nil_iff]
          intro ent hent
          have h1 := hsrc n (List.mem_cons_self _ _) ent hent
          simp only [decide_eq_true_eq]
          intro heq
          exact hn0 (by rw [← h1, heq])
        rw [hfn, List.nil_append]
        apply ih (fun m hm => hsrc m (List.mem_cons_of_mem _ hm))
        rw [List.filterMap_cons] at hnd
        cases hk : elemIdOf n with
        | none => rw [hk] at hnd; exact hnd
        | some v =>
            rw [hk] at hnd
            exact hnd.of_cons

theorem chainApply_congr : ∀ (L : List QueueSpec) (p p2 : PendingRefs) (i : Ident),
    (∀ pr ∈ L, targetsOf ((pr.2 : PendingRefs → List (Ident × Ident)) p) i
      = targetsOf (pr.2 p2) i) →
    ∀ e, chainApply L p i e = chainApply L p2 i e := by
  intro L
  induction L with
  | nil => intro p p2 i h e; rfl
  | cons pr L ih =>
      intro p p2 i h e
      show chainApply L p i (applyQ pr.1 (targetsOf (pr.2 p) i) e)
        = chainApply L p2 i (applyQ pr.1 (targetsOf (pr.2 p2) i) e)
      rw [h pr (List.mem_cons_self _ _)]
      exact ih p p2 i (fun pr2 hpr2 => h pr2 (List.mem_cons_of_mem _ hpr2)) _

theorem contrib_src (pr : QueueSpec) (hpr : pr ∈ queueOrder) (n : Node) :
    ∀ ent ∈ contribOf pr.2 n, some ent.1 = elemIdOf n := by
  intro ent hent
  unfold contribOf at hent
  cases hnr : nodeResult n with
  | error er =>
      rw [hnr] at hent
      exact absurd hent (List.not_mem_nil ent)
  | ok r =>
      rw [hnr] at hent
      cases r with
      | none => exact absurd hent (List.not_mem_nil ent)
      | some ec =>
          obtain ⟨e, c⟩ := ec
          have hid := dispatchNode_src (Document.mk []) n e c hnr pr hpr ent hent
          unfold elemIdOf elemOf
          rw [hnr]
          show some ent.1 = some e.id
          rw [hid]

theorem parse_ok_inv (ns : List Node) (dest g : Document)
    (h : XmlParser.parse true (some (afeNode ns)) dest = .ok g) :
    ∃ st, ingestChildrenSt ns { document := dest } = (none, st)
      ∧ chainRun queueOrder st.pending (none, st.document) = (none, g) := by
  have hp : XmlParser.parse true (some (afeNode ns)) dest
      = (match ingestChildrenSt ns { document := dest } with
         | (some er, st') => (Except.error er, st'.document)
         | (none, st') =>
             match resolveAllSt st' with
             | (some er, d) => (Except.error er, d)
             | (none, d) => (Except.ok d, d)).1 := rfl
  rw [hp] at h
  cases hin : ingestChildrenSt ns { document := dest } with
  | mk oe st =>
      rw [hin] at h
      cases oe with
      | some er =>
          simp only [] at h
          exact absurd h (by simp)
      | none =>
          simp only [] at h
          cases hr : resolveAllSt st with
          | mk oe2 d =>
              rw [hr] at h
              cases oe2 with
              | some er =>
                  simp only [] at h
                  exact absurd h (by simp)
              | none =>
                  simp only [] at h
                  refine ⟨st, rfl, ?_⟩
                  rw [show chainRun queueOrder st.pending (none, st.document)
                      = resolveAllSt st from rfl, hr, Except.ok.inj h]

theorem dispatch_none_all (n : Node) (h : nodeResult n = .ok none) :
    ∀ d, dispatchNode d n = .ok none := by
  intro d
  have h' : dispatchNode (Document.mk []) n = .ok none := h
  unfold dispatchNode at h' ⊢
  by_cases h1 : n.name = "audioProgramme"
  · rw [if_pos h1] at h'
    exfalso
    cases hr : parseAudioProgramme (Document.mk []) n <;> rw [hr] at h' <;>
      simp [Except.map] at h'
  · rw [if_neg h1] at h' ⊢
    by_cases h2 : n.name = "audioContent"
    · rw [if_pos h2] at h'
      exfalso
      cases hr : parseAudioContent (Document.mk []) n <;> rw [hr] at h' <;>
        simp [Except.map] at h'
    · rw [if_neg h2] at h' ⊢
      by_cases h3 : n.name = "audioObject"
      · rw [if_pos h3] at h'
        exfalso
        cases hr : parseAudioObject (Document.mk []) n <;> rw [hr] at h' <;>
          simp [Except.map] at h'
      · rw [if_neg h3] at h' ⊢
        by_cases h4 : n.name = "audioTrackUID"
        · rw [if_pos h4] at h'
          exfalso
          cases hr : parseAudioTrackUid (Document.mk []) n <;> rw [hr] at h' <;>
            simp [Except.map] at h'
        · rw [if_neg h4] at h' ⊢
          by_cases h5 : n.name = "audioPackFormat"
          · rw [if_pos h5] at h'
            exfalso
            cases hr : parseAudioPackFormat (Document.mk []) n <;> rw [hr] at h' <;>
              simp [Except.map] at h'
          · rw [if_neg h5] at h' ⊢
            by_cases h6 : n.name = "audioChannelFormat"
            · rw [if_pos h6] at h'
              exfalso
              cases hr : parseAudioChannelFormat (Document.mk []) n <;> rw [hr] at h' <;>
                simp [Except.map] at h'
            · rw [if_neg h6] at h' ⊢
              by_cases h7 : n.name = "audioStreamFormat"
              · rw [if_pos h7] at h'
                exfalso
                cases hr : parseAudioStreamFormat (Document.mk []) n <;> rw [hr] at h' <;>
                  simp [Except.map] at h'
              · rw [if_neg h7] at h' ⊢
                by_cases h8 : n.name = "audioTrackFormat"
                · rw [if_pos h8] at h'
                  exfalso
                  cases hr : parseAudioTrackFormat (Document.mk []) n <;> rw [hr] at h' <;>
                    simp [Except.map] at h'
                · rw [if_neg h8] at h' ⊢

theorem ingest_nodes_ok (ns : List Node) : ∀ st0 st,
    ingestChildrenSt ns st0 = (none, st) →
    ∀ n ∈ ns, nodeResult n = .ok none
      ∨ ∃ e c, nodeResult n = .ok (some (e, c)) := by
  induction ns with
  | nil =>
      intro st0 st h n hn
      exact absurd hn (List.not_mem_nil n)
  | cons n ns ih =>
      intro st0 st h m hm
      cases hstep : ingestStep st0 n with
      | error er =>
          rw [show ingestChildrenSt (n :: ns) st0
              = match ingestStep st0 n with
                | .error e => (some e, st0)
                | .ok st' => ingestChildrenSt ns st' from rfl, hstep] at h
          injection h with h1 h2
          exact absurd h1 (by simp)
      | ok st1 =>
          rw [show ingestChildrenSt (n :: ns) st0
              = match ingestStep st0 n with
                | .error e => (some e, st0)
                | .ok st' => ingestChildrenSt ns st' from rfl, hstep] at h
          cases hm with
          | head =>
              rcases ingestStep_ok_inv st0 st1 n hstep with
                ⟨hdisp, _⟩ | ⟨e, c, hdisp, _⟩
              · exact Or.inl (dispatch_ok_none _ _ hdisp)
              · exact Or.inr ⟨e, c, (dispatch_ok_some _ _ _ _ hdisp).1⟩
          | tail _ hmem => exact ih st1 st h m hmem

theorem ingest_ok_of_conditions : ∀ (l : List Node) (st0 : ParserState),
    (∀ n ∈ l, nodeResult n = .ok none
      ∨ ∃ e c, nodeResult n = .ok (some (e, c))) →
    (∀ n ∈ l, ∀ e, elemOf n = some e → st0.document.containsId e.id = false) →
    ((l.filterMap elemOf).map Element.id).Nodup →
    ∃ st2, ingestChildrenSt l st0 = (none, st2) := by
  intro l
  induction l with
  | nil => intro st0 _ _ _; exact ⟨st0, rfl⟩
  | cons n l ih =>
      intro st0 hok hfresh hnd
      rcases hok n (List.mem_cons_self _ _) with hnone | ⟨e, c, hsome⟩
      · have helemOf : elemOf n = none := by unfold elemOf; rw [hnone]
        have hstep : ingestStep st0 n = .ok st0 := by
          unfold ingestStep
          rw [dispatch_none_all n hnone st0.document, ebind_ok]
          rfl
        rw [show ingestChildrenSt (n :: l) st0
            = match ingestStep st0 n with
              | .error e => (some e, st0)
              | .ok st' => ingestChildrenSt l st' from rfl, hstep]
        exact ih st0 (fun m hm => hok m (List.mem_cons_of_mem _ hm))
          (fun m hm => hfresh m (List.mem_cons_of_mem _ hm))
          (by simpa [List.filterMap_cons, helemOf] using hnd)
      · have helemOf : elemOf n = some e := by unfold elemOf; rw [hsome]
        have hdisp : dispatchNode st0.document n = .ok (some (e, c)) := by
          rw [dispatchNode_dup (Document.mk []) n e c hsome st0.document]
          rw [hfresh n (List.mem_cons_self _ _) e helemOf]
          rfl
        have hstep : ingestStep st0 n
            = .ok { document := st0.document.addEl e
                    pending := st0.pending.append c } := by
          unfold ingestStep
          rw [hdisp, ebind_ok]
          rfl
        rw [show ingestChildrenSt (n :: l) st0
            = match ingestStep st0 n with
              | .error e => (some e, st0)
              | .ok st' => ingestChildrenSt l st' from rfl, hstep]
        have hnd' := hnd
        rw [List.filterMap_cons, helemOf, List.map_cons, List.nodup_cons] at hnd'
        apply ih
        · exact fun m hm => hok m (List.mem_cons_of_mem _ hm)
        · intro m hm e2 he2
          show (st0.document.addEl e).containsId e2.id = false
          rw [containsId_addEl]
          rw [hfresh m (List.mem_cons_of_mem _ hm) e2 he2]
          have hne : ¬ e.id = e2.id := by
            intro heq
            exact hnd'.1 (heq ▸ List.mem_map_of_mem Element.id
              (List.mem_filterMap.mpr ⟨m, hm, he2⟩))
          simp [hne]
        · exact hnd'.2

/-- C1: ingestion is independent of the top-level document order.  If the
document whose top-level children are `ns` parses to a graph, then any
reordering `ns2` of those children also parses, and the two parses produce
equal Document Graphs (the same element, with the same resolved references,
under every identifier): every cross-element reference is enqueued during the
single pass and resolved only after the pass over all top-level children
completes. -/
theorem c1_forward_reference_order_independence
    (ns ns2 : List Node) (hperm : ns.Perm ns2) (dest : Document) (g : Document)
    (h1 : XmlParser.parse true (some (afeNode ns)) dest = .ok g) :
    ∃ g2, XmlParser.parse true (some (afeNode ns2)) dest = .ok g2
      ∧ ∀ i, g2.lookup i = g.lookup i := by
  obtain ⟨st, hin, hres⟩ := parse_ok_inv ns dest g h1
  obtain ⟨hel, hpend, hnd, hfresh⟩ := ingest_ok_decomp ns { document := dest } st hin
  have hok2 : ∀ n ∈ ns2, nodeResult n = .ok none
      ∨ ∃ e c, nodeResult n = .ok (some (e, c)) :=
    fun n hn => ingest_nodes_ok ns { document := dest } st hin n (hperm.mem_iff.mpr hn)
  have hpermA : (ns.filterMap elemOf).Perm (ns2.filterMap elemOf) :=
    hperm.filterMap elemOf
  have hnd2 : ((ns2.filterMap elemOf).map Element.id).Nodup :=
    (hpermA.map Element.id).nodup hnd
  have hfresh2 : ∀ n ∈ ns2, ∀ e, elemOf n = some e →
      ({ document := dest } : ParserState).document.containsId e.id = false := by
    intro n hn e he
    exact hfresh e (hpermA.mem_iff.mpr (List.mem_filterMap.mpr ⟨n, hn, he⟩))
  obtain ⟨st2, hin2⟩ := ingest_ok_of_conditions ns2 { document := dest } hok2 hfresh2 hnd2
  obtain ⟨hel2, hpend2, _, _⟩ := ingest_ok_decomp ns2 { document := dest } st2 hin2
  have hndA : ((ns.filterMap elemOf).filterMap
      (fun e => (some e.id : Option Ident))).Nodup := by
    rw [show (fun e : Element => (some e.id : Option Ident))
        = some ∘ (fun e : Element => e.id) from rfl, List.filterMap_eq_map]
    exact hnd
  have hdoc : ∀ i, st.document.lookup i = st2.document.lookup i := by
    intro i
    show st.document.elems.find? (fun e => e.id = i)
      = st2.document.elems.find? (fun e => e.id = i)
    rw [hel, hel2, List.find?_append, List.find?_append]
    have hAB : (ns.filterMap elemOf).find?
          (fun a : Element => decide ((some a.id : Option Ident) = some i))
        = (ns2.filterMap elemOf).find?
          (fun a : Element => decide ((some a.id : Option Ident) = some i)) :=
      find_perm_key (fun e : Element => some e.id) i _ _ hpermA hndA
    rw [show (fun e : Element => decide (e.id = i))
        = (fun a : Element => decide ((some a.id : Option Ident) = some i)) from
        by funext e; simp, hAB]
  have hnodes : (ns.filterMap elemIdOf).Nodup := by
    rw [show ns.filterMap elemIdOf
        = (ns.filterMap elemOf).map (fun e => e.id) from by
      rw [List.map_filterMap]
      rfl]
    exact hnd
  have hnodes2 : (ns2.filterMap elemIdOf).Nodup :=
    (hperm.filterMap elemIdOf).nodup hnodes
  have hqflat : ∀ pr ∈ queueOrder,
      (pr.2 : PendingRefs → List (Ident × Ident)) st.pending
        = ns.flatMap (fun n => contribOf pr.2 n) := by
    intro pr hpr
    have e1 := hpend pr hpr
    have h00 : (pr.2 : PendingRefs → List (Ident × Ident))
        ({ document := dest } : ParserState).pending = [] := queueOrder_empty pr hpr
    rw [h00, List.nil_append] at e1
    exact e1
  have hqflat2 : ∀ pr ∈ queueOrder,
      (pr.2 : PendingRefs → List (Ident × Ident)) st2.pending
        = ns2.flatMap (fun n => contribOf pr.2 n) := by
    intro pr hpr
    have e1 := hpend2 pr hpr
    have h00 : (pr.2 : PendingRefs → List (Ident × Ident))
        ({ document := dest } : ParserState).pending = [] := queueOrder_empty pr hpr
    rw [h00, List.nil_append] at e1
    exact e1
  have hqent : ∀ pr ∈ queueOrder, ∀ i,
      targetsOf ((pr.2 : PendingRefs → List (Ident × Ident)) st.pending) i
        = targetsOf (pr.2 st2.pending) i := by
    intro pr hpr i
    unfold targetsOf
    rw [hqflat pr hpr, hqflat2 pr hpr]
    rw [targets_flat (fun n => contribOf pr.2 n) i ns
        (fun n _ => contrib_src pr hpr n) hnodes,
      targets_flat (fun n => contribOf pr.2 n) i ns2
        (fun n _ => contrib_src pr hpr n) hnodes2,
      find_perm_key elemIdOf i ns ns2 hperm hnodes]
  have hfst : (chainRun queueOrder st.pending (none, st.document)).1 = none := by
    rw [hres]
  have hns := (chainRun_none_iff queueOrder queueOrder_preserves st.pending
    st.document).mp hfst
  have hpresent : ∀ pr ∈ queueOrder, ∀ ent ∈
      (pr.2 : PendingRefs → List (Ident × Ident)) st2.pending,
      (st2.document.lookup ent.2).isSome = true := by
    intro pr hpr ent hent
    rw [← hdoc ent.2]
    apply hns pr hpr
    rw [hqflat pr hpr]
    rw [hqflat2 pr hpr] at hent
    rw [List.mem_flatMap] at hent ⊢
    obtain ⟨n, hn, hentn⟩ := hent
    exact ⟨n, hperm.mem_iff.mpr hn, hentn⟩
  have hfst2 : (chainRun queueOrder st2.pending (none, st2.document)).1 = none :=
    (chainRun_none_iff queueOrder queueOrder_preserves st2.pending
      st2.document).mpr hpresent
  have hres2 : chainRun queueOrder st2.pending (none, st2.document)
      = (none, (chainRun queueOrder st2.pending (none, st2.document)).2) := by
    have hsplit := (Prod.mk.eta
      (p := chainRun queueOrder st2.pending (none, st2.document))).symm
    rw [hfst2] at hsplit
    exact hsplit
  refine ⟨(chainRun queueOrder st2.pending (none, st2.document)).2, ?_, ?_⟩
  · have hp2 : XmlParser.parse true (some (afeNode ns2)) dest
        = (match ingestChildrenSt ns2 { document := dest } with
           | (some er, st') => (Except.error er, st'.document)
           | (none, st') =>
               match resolveAllSt st' with
               | (some er, d) => (Except.error er, d)
               | (none, d) => (Except.ok d, d)).1 := rfl
    rw [hp2, hin2]
    show (match resolveAllSt st2 with
          | (some er, d) => (Except.error er, d)
          | (none, d) => (Except.ok d, d)).1 = _
    rw [show resolveAllSt st2
        = chainRun queueOrder st2.pending (none, st2.document) from rfl, hres2]
  · intro i
    have hchar := chainRun_ok_char queueOrder queueOrder_preserves st.pending
      st.document g hres i
    have hchar2 := chainRun_ok_char queueOrder queueOrder_preserves st2.pending
      st2.document _ hres2 i
    rw [hchar, hchar2, ← hdoc i]
    cases hl : st.document.lookup i with
    | none => rfl
    | some e =>
        show some (chainApply queueOrder st2.pending i e)
          = some (chainApply queueOrder st.pending i e)
        rw [chainApply_congr queueOrder st.pending st2.pending i
          (fun pr hpr => hqent pr hpr i) e]


/-- Witness for C1: the Content-before-Object document and its reversed
variant both parse, and the Content element resolves the same Object
reference in both. -/
theorem c1_forward_reference_order_independence_witness :
    XmlParser.parse true (some forwardDoc) {} = .ok gForward
    ∧ XmlParser.parse true (some backwardDoc) {} = .ok gBackward
    ∧ gBackward.lookup identContent = gForward.lookup identContent
    ∧ (gForward.lookup identContent).map (fun e => e.resolved)
        = some [(RefRole.contentObject, identA)] := by
  refine ⟨by decide, by decide, ?_, by decide⟩
  obtain ⟨g2, hg2, hlook⟩ := c1_forward_reference_order_independence
    [contentNode "C" "ACO_1001" [refNode "audioObjectIDRef" "AO_1001"],
     objNode "A" "AO_1001" []]
    [objNode "A" "AO_1001" [],
     contentNode "C" "ACO_1001" [refNode "audioObjectIDRef" "AO_1001"]]
    (List.Perm.swap _ _ _) {} gForward (by decide)
  have hgb : g2 = gBackward := Except.ok.inj (hg2.symm.trans
    (by decide : XmlParser.parse true (some backwardDoc) {} = .ok gBackward))
  rw [← hgb]
  exact hlook identContent

theorem find_congr {α : Type} (p p2 : α → Bool) (hpp : ∀ a, p a = p2 a) :
    ∀ l : List α, l.find? p = l.find? p2 := by
  intro l
  induction l with
  | nil => rfl
  | cons x l ih =>
      cases hx : p x with
      | true =>
          rw [List.find?_cons_of_pos _ hx,
            List.find?_cons_of_pos _ (by rw [← hpp x]; exact hx)]
      | false =>
          rw [List.find?_cons_of_neg _ (by rw [hx]; simp),
            List.find?_cons_of_neg _ (by rw [← hpp x, hx]; simp)]
          exact ih

theorem modifyEl_ids (d : Document) (s : Ident) (f : Element → Element)
    (hf : ∀ e, (f e).id = e.id) :
    (d.modifyEl s f).elems.map Element.id = d.elems.map Element.id := by
  obtain ⟨l⟩ := d
  unfold Document.modifyEl
  simp only [List.map_map]
  apply List.map_congr_left
  intro e he
  by_cases hes : e.id = s <;> simp [hes, hf]

theorem resolveQueueSt_first (att : Ident → Element → Element)
    (hatt : ∀ t e, (att t e).id = e.id) (q : List (Ident × Ident)) :
    ∀ d,
      (resolveQueueSt att q d).1
        = (q.find? (fun ent => ! d.containsId ent.2)).map
            (fun ent => ParseError.xmlParsingUnresolvedReference (formatId ent.2))
      ∧ (∀ x, (resolveQueueSt att q d).2.containsId x = d.containsId x)
      ∧ (resolveQueueSt att q d).2.elems.map Element.id
          = d.elems.map Element.id := by
  induction q with
  | nil =>
      intro d
      exact ⟨rfl, fun x => rfl, rfl⟩
  | cons ent q ih =>
      obtain ⟨sid, t⟩ := ent
      intro d
      show (resolveQueueSt att ((sid, t) :: q) d).1 = _ ∧ _
      unfold resolveQueueSt
      by_cases hp : (d.lookup t).isSome = true
      · rw [if_pos hp]
        have hinv : ∀ x, (d.modifyEl sid (att t)).containsId x = d.containsId x :=
          fun x => lookup_isSome_modifyEl d sid (att t) (fun e => hatt t e) x
        obtain ⟨h1, h2, h3⟩ := ih (d.modifyEl sid (att t))
        refine ⟨?_, ?_, ?_⟩
        · rw [h1]
          rw [List.find?_cons_of_neg _ (by
            show ¬(! d.containsId t) = true
            show ¬(! (d.lookup t).isSome) = true
            rw [hp]
            simp)]
          rw [find_congr _ _ (fun ent => by rw [hinv ent.2]) q]
        · intro x
          rw [h2 x, hinv x]
        · rw [h3, modifyEl_ids d sid (att t) (fun e => hatt t e)]
      · rw [if_neg hp]
        refine ⟨?_, fun x => rfl, rfl⟩
        rw [List.find?_cons_of_pos _ (by
          show (! d.containsId t) = true
          show (! (d.lookup t).isSome) = true
          cases hc : (d.lookup t).isSome with
          | true => exact absurd hc hp
          | false => rfl)]
        rfl

theorem firstDangling_congr (L : List QueueSpec) (p : PendingRefs)
    (d d2 : Document) (hdd : ∀ x, d2.containsId x = d.containsId x) :
    firstDangling L p d2 = firstDangling L p d := by
  induction L with
  | nil => rfl
  | cons pr L ih =>
      rw [show firstDangling (pr :: L) p d2
          = (match (pr.2 p).find? (fun ent => ! d2.containsId ent.2) with
             | some ent => some ent.2
             | none => firstDangling L p d2) from rfl,
        show firstDangling (pr :: L) p d
          = (match (pr.2 p).find? (fun ent => ! d.containsId ent.2) with
             | some ent => some ent.2
             | none => firstDangling L p d) from rfl]
      rw [find_congr _ _ (fun ent => by rw [hdd ent.2]) (pr.2 p)]
      cases hf : (pr.2 p).find? (fun ent => ! d.containsId ent.2) with
      | some ent => rfl
      | none => exact ih

theorem chainRun_first_char (L : List QueueSpec)
    (hL : ∀ pr ∈ L, ∀ t e, ((pr.1 : Ident → Element → Element) t e).id = e.id)
    (p : PendingRefs) :
    ∀ d,
      (chainRun L p (none, d)).1
        = (firstDangling L p d).map
            (fun t => ParseError.xmlParsingUnresolvedReference (formatId t))
      ∧ (chainRun L p (none, d)).2.elems.map Element.id
          = d.elems.map Element.id := by
  induction L with
  | nil =>
      intro d
      rw [chainRun_nil]
      exact ⟨rfl, rfl⟩
  | cons pr L ih =>
      intro d
      have hpr := hL pr (List.mem_cons_self _ _)
      have hrest := fun pr2 hp2 => hL pr2 (List.mem_cons_of_mem _ hp2)
      rw [chainRun_cons]
      rw [show resolveChain (none, d) (resolveQueueSt pr.1 (pr.2 p))
          = resolveQueueSt pr.1 (pr.2 p) d from rfl]
      obtain ⟨h1, h2, h3⟩ := resolveQueueSt_first pr.1 hpr (pr.2 p) d
      cases hq : resolveQueueSt pr.1 (pr.2 p) d with
      | mk oe d2 =>
          rw [hq] at h1 h2 h3
          simp only [] at h1 h2 h3
          show (chainRun L p (oe, d2)).1 = _ ∧ _
          cases hf : (pr.2 p).find? (fun ent => ! d.containsId ent.2) with
          | some ent =>
              rw [hf] at h1
              have h1' : oe = some (ParseError.xmlParsingUnresolvedReference
                (formatId ent.2)) := h1
              rw [h1', chainRun_err_absorb]
              constructor
              · show some _ = _
                rw [show firstDangling (pr :: L) p d
                    = (match (pr.2 p).find? (fun ent => ! d.containsId ent.2) with
                       | some ent => some ent.2
                       | none => firstDangling L p d) from rfl, hf]
                rfl
              · exact h3
          | none =>
              rw [hf] at h1
              have h1' : oe = none := h1
              rw [h1']
              obtain ⟨ih1, ih2⟩ := ih hrest d2
              refine ⟨?_, by rw [ih2, h3]⟩
              rw [ih1]
              rw [show firstDangling (pr :: L) p d
                  = (match (pr.2 p).find? (fun ent => ! d.containsId ent.2) with
                     | some ent => some ent.2
                     | none => firstDangling L p d) from rfl, hf]
              rw [firstDangling_congr L p d d2 h2]

/-- C5 (amended): parse propagates exactly the first failure and returns no
document with it, while the destination Document supplied at construction
retains the ingested elements.  Ingestion phase: after a cleanly ingested
prefix, a failing child makes the parse return exactly that child's error,
and the destination document holds exactly the elements added before the
failure.  Resolution phase: after an error-free ingestion pass over all
children, if some pending target is absent then the parse returns exactly
the unresolved-reference error for the first absent target in the fixed
queue-processing order (and, within a queue, in enqueue order), and the
destination document still holds every ingested element. -/
theorem c5_first_error_propagation
    (pre post : List Node) (n : Node) (dest : Document) (st : ParserState)
    (err : ParseError) (rs : List Node) (dest2 : Document) (st2 : ParserState)
    (t : Ident) :
    (ingestChildrenSt pre { document := dest } = (none, st) →
     dispatchNode st.document n = .error err →
     XmlParser.parseSt true (some (afeNode (pre ++ n :: post))) dest
       = (.error err, st.document))
    ∧ (ingestChildrenSt rs { document := dest2 } = (none, st2) →
       firstDangling queueOrder st2.pending st2.document = some t →
       XmlParser.parse true (some (afeNode rs)) dest2
         = .error (.xmlParsingUnresolvedReference (formatId t))
       ∧ (XmlParser.parseSt true (some (afeNode rs)) dest2).2.elems.map Element.id
           = st2.document.elems.map Element.id) := by
  constructor
  · intro hpre herr
    have hstep : ingestStep st n = .error err := by
      unfold ingestStep
      rw [herr]
      rfl
    show (match ingestChildrenSt (pre ++ n :: post) { document := dest } with
      | (some er, st') => (Except.error er, st'.document)
      | (none, st') =>
          match resolveAllSt st' with
          | (some er, d) => (Except.error er, d)
          | (none, d) => (Except.ok d, d))
      = (Except.error err, st.document)
    rw [ingestSt_append, hpre]
    show (match ingestChildrenSt (n :: post) st with
      | (some er, st') => (Except.error er, st'.document)
      | (none, st') =>
          match resolveAllSt st' with
          | (some er, d) => (Except.error er, d)
          | (none, d) => (Except.ok d, d))
      = (Except.error err, st.document)
    rw [show ingestChildrenSt (n :: post) st = (some err, st) from by
      rw [ingestChildrenSt, hstep]]
  · intro hin hdang
    obtain ⟨hc1, hc2⟩ := chainRun_first_char queueOrder queueOrder_preserves
      st2.pending st2.document
    rw [hdang] at hc1
    have hc1_ : (chainRun queueOrder st2.pending (none, st2.document)).1
        = some (.xmlParsingUnresolvedReference (formatId t)) := hc1
    cases hr : resolveAllSt st2 with
    | mk oe d2 =>
        have hrr : chainRun queueOrder st2.pending (none, st2.document)
            = (oe, d2) := hr
        rw [hrr] at hc1_ hc2
        have hoe : oe = some (.xmlParsingUnresolvedReference (formatId t)) := hc1_
        have hd2 : d2.elems.map Element.id
            = st2.document.elems.map Element.id := hc2
        constructor
        · show (match ingestChildrenSt rs { document := dest2 } with
            | (some er, st') => (Except.error er, st'.document)
            | (none, st') =>
                match resolveAllSt st' with
                | (some er, d) => (Except.error er, d)
                | (none, d) => (Except.ok d, d)).1 = _
          rw [hin]
          show (match resolveAllSt st2 with
            | (some er, d) => (Except.error er, d)
            | (none, d) => (Except.ok d, d)).1 = _
          rw [hr, hoe]
        · show (match ingestChildrenSt rs { document := dest2 } with
            | (some er, st') => (Except.error er, st'.document)
            | (none, st') =>
                match resolveAllSt st' with
                | (some er, d) => (Except.error er, d)
                | (none, d) => (Except.ok d, d)).2.elems.map Element.id = _
          rw [hin]
          show (match resolveAllSt st2 with
            | (some er, d) => (Except.error er, d)
            | (none, d) => (Except.ok d, d)).2.elems.map Element.id = _
          rw [hr, hoe]
          exact hd2

/-- Witness for the amended C5, both phases.  Ingestion: a duplicate Object
after a valid one makes the parse propagate exactly the duplicate error
while the destination retains the prefix element.  Resolution: an Object
whose `audioPackFormatIDRef` names an absent PackFormat makes the parse
propagate exactly the unresolved-reference error for that first dangling
target, while the destination retains the ingested Object. -/
theorem c5_first_error_propagation_witness :
    ((ingestChildrenSt [objNode "A" "AO_1001" []] { document := {} }
        = (none, { document := docWithA })
      ∧ dispatchNode ({ document := docWithA } : ParserState).document
          (objNode "B" "AO_1001" [])
        = .error (.xmlParsingDuplicateId "AO_1001"))
    ∧ XmlParser.parseSt true (some (afeNode
        [objNode "A" "AO_1001" [], objNode "B" "AO_1001" [],
         objNode "C" "AO_1003" []])) {}
      = (.error (.xmlParsingDuplicateId "AO_1001"), docWithA))
    ∧ ((ingestChildrenSt danglingDoc.children { document := {} }
          = (none, stDangling)
        ∧ firstDangling queueOrder stDangling.pending stDangling.document
          = some identPack)
      ∧ XmlParser.parse true (some danglingDoc) {}
          = .error (.xmlParsingUnresolvedReference "AP_00031001")
      ∧ (XmlParser.parseSt true (some danglingDoc) {}).2.elems.map Element.id
          = [identA]) := by
  constructor
  · exact ⟨⟨by decide, by decide⟩,
      (c5_first_error_propagation [objNode "A" "AO_1001" []]
        [objNode "C" "AO_1003" []] (objNode "B" "AO_1001" []) {}
        { document := docWithA } (.xmlParsingDuplicateId "AO_1001")
        danglingDoc.children {} stDangling identPack).1 (by decide) (by decide)⟩
  · refine ⟨⟨by decide, by decide⟩, ?_⟩
    have hB := (c5_first_error_propagation [objNode "A" "AO_1001" []]
        [objNode "C" "AO_1003" []] (objNode "B" "AO_1001" []) {}
        { document := docWithA } (.xmlParsingDuplicateId "AO_1001")
        danglingDoc.children {} stDangling identPack).2 (by decide) (by decide)
    refine ⟨hB.1, ?_⟩
    have h2_ : (XmlParser.parseSt true (some danglingDoc) {}).2.elems.map
        Element.id = stDangling.document.elems.map Element.id := hB.2
    rw [h2_]
    decide
